import Mathlib

/-! # thcrap expression evaluator (`thcrap/src/expression.cpp`)

A shallow embedding of the expression language of thcrap: the opcode
encoding, the precedence table `OpData`, the tokenizer `find_next_op_impl`,
the operator applier `ApplyOperator`, the value consumer
`consume_value_impl`, the patch-value parser `get_patch_value_impl` and the
evaluator `eval_expr_impl` / `eval_expr`.

Conventions of the embedding

* `size_t` values are natural numbers below `2 ^ wordBits x64`; the flag
  `x64` stands for the preprocessor symbol `TH_X64` (when it is false the
  build is `TH_X86`).
* A `const char*` is the list of the bytes found from the pointer on, the
  terminating NUL included: a C string `s` is `s ++ [0]`.  Reading a byte
  outside of the list gives 0.  The empty list is therefore a pointer that
  has moved past the terminating NUL.
* A C null pointer result is the outcome `Outcome.null`.
* Log output and the calls made to the external collaborators are recorded
  as a list of events in the evaluator state.
-/

namespace Thcrap

/-! ## Machine words -/

/-- Width in bits of `size_t`. -/
def wordBits (x64 : Bool) : Nat := if x64 then 64 else 32

/-- Number of values of `size_t`. -/
def wordMod (x64 : Bool) : Nat := 2 ^ wordBits x64

/-- The constant `SIZE_MAX`. -/
def SIZE_MAX (x64 : Bool) : Nat := wordMod x64 - 1

/-- Truncation of an integer result to `size_t`. -/
def wrap (x64 : Bool) (n : Nat) : Nat := n % wordMod x64

/-- Truncation to `uint8_t`. -/
def u8 (n : Nat) : Nat := n % 256

/-- Code of a character. -/
def ch (c : Char) : Nat := c.toNat

/-- Byte number `i` from a pointer (`p[i]`); 0 outside of the modelled memory. -/
def peek (p : List Nat) (i : Nat) : Nat := p.getD i 0

/-- The bytes of a C string, with the terminating NUL. -/
def cstr (s : String) : List Nat := s.toList.map Char.toNat ++ [0]

/-- The bytes of a piece of text, without a terminator. -/
def txt (s : String) : List Nat := s.toList.map Char.toNat

/-! ## Opcodes -/

/-- The macro `PreventOverlap(val)`: `(val) + (val)`. -/
def PreventOverlap (val : Nat) : Nat := val + val

def NullOp : Nat := 0
def StartNoOp : Nat := 1
def EndGroupOp : Nat := 2
def StandaloneTernaryEnd : Nat := u8 (ch ':')
def BadBrackets : Nat := 4
def Power : Nat := u8 (ch '*' + ch '*')
def Multiply : Nat := u8 (ch '*')
def Divide : Nat := u8 (ch '/')
def Modulo : Nat := u8 (ch '%')
def Add : Nat := u8 (ch '+')
def Subtract : Nat := u8 (ch '-')
def ArithmeticLeftShift : Nat := u8 (ch '<' + ch '<')
def ArithmeticRightShift : Nat := u8 (ch '>' + ch '>')
def LogicalLeftShift : Nat := u8 (ch '<' + ch '<' + ch '<')
def LogicalRightShift : Nat := u8 (ch '>' + ch '>' + ch '>')
def CircularLeftShift : Nat := u8 (PreventOverlap (ch 'r') + ch '<' + ch '<')
def CircularRightShift : Nat := u8 (PreventOverlap (ch 'r') + ch '>' + ch '>')
def ThreeWay : Nat := u8 (ch '<' + ch '=' + ch '>')
def Less : Nat := u8 (ch '<')
def LessEqual : Nat := u8 (ch '<' + ch '=')
def Greater : Nat := u8 (ch '>')
def GreaterEqual : Nat := u8 (ch '>' + ch '=')
def Equal : Nat := u8 (ch '=' + ch '=')
def NotEqual : Nat := u8 (PreventOverlap (ch '!') + ch '=')
def BitwiseAnd : Nat := u8 (PreventOverlap (ch '&'))
def BitwiseNand : Nat := u8 (ch '~' + BitwiseAnd)
def BitwiseXor : Nat := u8 (ch '^')
def BitwiseXnor : Nat := u8 (ch '~' + BitwiseXor)
def BitwiseOr : Nat := u8 (PreventOverlap (ch '|'))
def BitwiseNor : Nat := u8 (ch '~' + BitwiseOr)
def LogicalAnd : Nat := u8 (PreventOverlap (ch '&') + PreventOverlap (ch '&'))
def LogicalAndSC : Nat := u8 (LogicalAnd + 255)
def LogicalNand : Nat := u8 (PreventOverlap (ch '!') + LogicalAnd)
def LogicalNandSC : Nat := u8 (LogicalNand + 255)
def LogicalXor : Nat := u8 (ch '^' + ch '^')
def LogicalXnor : Nat := u8 (PreventOverlap (ch '!') + LogicalXor)
def LogicalOr : Nat := u8 (PreventOverlap (ch '|') + PreventOverlap (ch '|'))
def LogicalOrSC : Nat := u8 (LogicalOr + 255)
def LogicalNor : Nat := u8 (PreventOverlap (ch '!') + LogicalOr)
def LogicalNorSC : Nat := u8 (LogicalNor + 255)
def TernaryConditional : Nat := u8 (PreventOverlap (ch '?'))
def Assign : Nat := u8 (ch '=')
def AddAssign : Nat := u8 (Add + ch '=')
def SubtractAssign : Nat := u8 (Subtract + ch '=')
def MultiplyAssign : Nat := u8 (Multiply + ch '=')
def DivideAssign : Nat := u8 (Divide + ch '=')
def ModuloAssign : Nat := u8 (Modulo + ch '=')
def ArithmeticLeftShiftAssign : Nat := u8 (ArithmeticLeftShift + ch '=')
def ArithmeticRightShiftAssign : Nat := u8 (ArithmeticRightShift + ch '=')
def LogicalLeftShiftAssign : Nat := u8 (LogicalLeftShift + ch '=')
def LogicalRightShiftAssign : Nat := u8 (LogicalRightShift + ch '=')
def CircularLeftShiftAssign : Nat := u8 (CircularLeftShift + ch '=')
def CircularRightShiftAssign : Nat := u8 (CircularRightShift + ch '=')
def AndAssign : Nat := u8 (BitwiseAnd + ch '=')
def NandAssign : Nat := u8 (BitwiseNand + ch '=')
def XorAssign : Nat := u8 (BitwiseXor + ch '=')
def XnorAssign : Nat := u8 (BitwiseXnor + ch '=')
def OrAssign : Nat := u8 (BitwiseOr + ch '=')
def NorAssign : Nat := u8 (BitwiseNor + ch '=')
def Comma : Nat := u8 (ch ',')
def Gomma : Nat := u8 (ch ';')

def LeftAssociative : Nat := 0
def RightAssociative : Nat := 1

/-! ## The table `OpData` -/

/-- The assignments made by the constructor of `OpData_t`, in the order of
the source: opcode, precedence, associativity. -/
def OpData_assignments : List (Nat × Nat × Nat) :=
  [ (BadBrackets, 255, LeftAssociative),
    (Power, 19, LeftAssociative),
    (Multiply, 17, LeftAssociative), (Divide, 17, LeftAssociative),
    (Modulo, 17, LeftAssociative),
    (Add, 16, LeftAssociative), (Subtract, 16, LeftAssociative),
    (LogicalLeftShift, 15, LeftAssociative), (LogicalRightShift, 15, LeftAssociative),
    (ArithmeticLeftShift, 15, LeftAssociative), (ArithmeticRightShift, 15, LeftAssociative),
    (CircularLeftShift, 15, LeftAssociative), (CircularRightShift, 15, LeftAssociative),
    (Less, 14, LeftAssociative), (LessEqual, 14, LeftAssociative),
    (Greater, 14, LeftAssociative), (GreaterEqual, 14, LeftAssociative),
    (Equal, 13, LeftAssociative), (NotEqual, 13, LeftAssociative),
    (ThreeWay, 12, LeftAssociative),
    (BitwiseAnd, 11, LeftAssociative), (BitwiseNand, 11, LeftAssociative),
    (BitwiseXor, 10, LeftAssociative), (BitwiseXnor, 10, LeftAssociative),
    (BitwiseOr, 9, LeftAssociative), (BitwiseNor, 9, LeftAssociative),
    (LogicalAnd, 8, LeftAssociative), (LogicalNand, 8, LeftAssociative),
    (LogicalAndSC, 8, LeftAssociative), (LogicalNandSC, 8, LeftAssociative),
    (LogicalXor, 7, LeftAssociative), (LogicalXnor, 7, LeftAssociative),
    (LogicalOr, 6, LeftAssociative), (LogicalNor, 6, LeftAssociative),
    (LogicalOrSC, 6, LeftAssociative), (LogicalNorSC, 6, LeftAssociative),
    (TernaryConditional, 5, RightAssociative),
    (Assign, 4, RightAssociative), (AddAssign, 4, RightAssociative),
    (SubtractAssign, 4, RightAssociative), (MultiplyAssign, 4, RightAssociative),
    (DivideAssign, 4, RightAssociative), (ModuloAssign, 4, RightAssociative),
    (LogicalLeftShiftAssign, 4, RightAssociative),
    (LogicalRightShiftAssign, 4, RightAssociative),
    (ArithmeticLeftShiftAssign, 4, RightAssociative),
    (ArithmeticRightShiftAssign, 4, RightAssociative),
    (CircularLeftShiftAssign, 4, RightAssociative),
    (CircularRightShiftAssign, 4, RightAssociative),
    (AndAssign, 4, RightAssociative), (OrAssign, 4, RightAssociative),
    (XorAssign, 4, RightAssociative), (NandAssign, 4, RightAssociative),
    (XnorAssign, 4, RightAssociative), (NorAssign, 4, RightAssociative),
    (Comma, 3, LeftAssociative),
    (Gomma, 2, LeftAssociative),
    (StartNoOp, 1, LeftAssociative),
    (NullOp, 0, LeftAssociative), (EndGroupOp, 0, LeftAssociative),
    (StandaloneTernaryEnd, 0, LeftAssociative) ]

/-- Entry of a zero-initialised 256-entry array after the assignments of
`l` were made in order: the last assignment to the slot wins. -/
def tableEntry (l : List (Nat × Nat)) (op : Nat) : Nat :=
  match l.reverse.find? (fun e => e.1 == op) with
  | some e => e.2
  | none => 0

/-- The array `OpData.Precedence`. -/
def Precedence (op : Nat) : Nat :=
  tableEntry (OpData_assignments.map (fun e => (e.1, e.2.1))) op

/-- The array `OpData.Associativity`. -/
def Associativity (op : Nat) : Nat :=
  tableEntry (OpData_assignments.map (fun e => (e.1, e.2.2))) op

/-! ## Evaluator state and outcomes -/

/-- The log messages of the evaluator, one constructor for each message
function of the source. -/
inductive Msg
  | IncDecWarning
  | AssignmentWarning
  | PatchValueWarning (name : List Nat)
  | CodecaveNotFoundWarning (name : List Nat)
  | PostIncDecWarning
  | InvalidCPUFeatureWarning (name : List Nat)
  | NullDerefWarning
  | ExpressionError
  | GroupingBracketError
  | ValueBracketError
  | BadCharacterError
  | OptionNotFoundError (name : List Nat)
  | InvalidValueError (str : List Nat)
  | InvalidPatchValueTypeError
  deriving DecidableEq, Repr

/-- What the evaluator does to the outside world: a line sent to the log,
or a call to one of the collaborators. -/
inductive Event
  | log (m : Msg)
  | patch_opt_get_len (name : List Nat)
  | func_get_len (name : List Nat)
  | load (addr : Nat) (type : Nat)
  deriving DecidableEq, Repr

/-- The mutable globals of the translation unit together with the trace of
events, oldest first.  The three `warned` flags are the
`AlreadyDisplayedWarning` statics of the `WarnOnce` sites. -/
structure State where
  trace : List Event
  DisableCodecaveNotFound : Bool
  warnedIncDec : Bool
  warnedAssignment : Bool
  warnedPostIncDec : Bool
  deriving DecidableEq, Repr

/-- State of a fresh process. -/
def State.init : State := ⟨[], false, false, false, false⟩

/-- Calls `log_print` / `log_printf`. -/
def State.emit (s : State) (m : Msg) : State :=
  { s with trace := s.trace ++ [Event.log m] }

/-- Records a call to a collaborator. -/
def State.record (s : State) (e : Event) : State :=
  { s with trace := s.trace ++ [e] }

/-- The messages sent to the log, oldest first. -/
def State.messages (s : State) : List Msg :=
  s.trace.filterMap (fun e => match e with
    | Event.log m => some m
    | _ => none)

/-- Result of running a piece of the evaluator: a value with the state
reached, a null pointer with the state reached, a division by zero (the
processor raises an exception), or exhaustion of the recursion budget of
the embedding. -/
inductive Outcome (α : Type)
  | ok (a : α) (s : State)
  | null (s : State)
  | trap (s : State)
  | fuel
  deriving DecidableEq, Repr

/-- Sequencing of two steps. -/
def Outcome.bind {α β : Type} (o : Outcome α) (f : α → State → Outcome β) : Outcome β :=
  match o with
  | Outcome.ok a s => f a s
  | Outcome.null s => Outcome.null s
  | Outcome.trap s => Outcome.trap s
  | Outcome.fuel => Outcome.fuel

/-- The value of a successful outcome. -/
def Outcome.val? {α : Type} (o : Outcome α) : Option α :=
  match o with
  | Outcome.ok a _ => some a
  | _ => none

/-- The state reached, when there is one. -/
def Outcome.state? {α : Type} (o : Outcome α) : Option State :=
  match o with
  | Outcome.ok _ s => some s
  | Outcome.null s => some s
  | Outcome.trap s => some s
  | Outcome.fuel => none

/-- `IncDecWarningMessage`, a `WarnOnce` site. -/
def IncDecWarningMessage (s : State) : State :=
  if s.warnedIncDec then s
  else { s.emit Msg.IncDecWarning with warnedIncDec := true }

/-- `AssignmentWarningMessage`, a `WarnOnce` site. -/
def AssignmentWarningMessage (s : State) : State :=
  if s.warnedAssignment then s
  else { s.emit Msg.AssignmentWarning with warnedAssignment := true }

/-- `PostIncDecWarningMessage`, a `WarnOnce` site. -/
def PostIncDecWarningMessage (s : State) : State :=
  if s.warnedPostIncDec then s
  else { s.emit Msg.PostIncDecWarning with warnedPostIncDec := true }

/-- `CodecaveNotFoundWarningMessage`: silent while `DisableCodecaveNotFound`
is set. -/
def CodecaveNotFoundWarningMessage (s : State) (name : List Nat) : State :=
  if s.DisableCodecaveNotFound then s
  else s.emit (Msg.CodecaveNotFoundWarning name)

/-! ## The operator applier -/

/-- Bitwise complement of a `size_t`. -/
def notW (x64 : Bool) (v : Nat) : Nat := SIZE_MAX x64 - wrap x64 v

/-- `value << arg` on `size_t`.  A count of `wordBits` or more is undefined
in C++; the embedding takes the count modulo the width, as the shift
instructions of the processor do. -/
def shlW (x64 : Bool) (v n : Nat) : Nat := wrap x64 (wrap x64 v * 2 ^ (n % wordBits x64))

/-- `value >> arg` on `size_t`, with the same treatment of the count. -/
def shrW (x64 : Bool) (v n : Nat) : Nat := wrap x64 v / 2 ^ (n % wordBits x64)

/-- The signed reading of a `size_t` (`std::make_signed_t<size_t>`). -/
def toSigned (x64 : Bool) (v : Nat) : Int :=
  if wrap x64 v < wordMod x64 / 2 then (wrap x64 v : Int)
  else (wrap x64 v : Int) - (wordMod x64 : Int)

/-- Conversion of a signed value back to `size_t`. -/
def ofSigned (x64 : Bool) (i : Int) : Nat := (i % (wordMod x64 : Int)).toNat

/-- `(size_t)((std::make_signed_t<size_t>)value >> arg)`: the shift of a
signed value replicates the sign bit. -/
def sarW (x64 : Bool) (v n : Nat) : Nat :=
  ofSigned x64 (toSigned x64 v / (2 ^ (n % wordBits x64) : Int))

/-- Index of the highest set bit of a non-zero number below `2 ^ n`, found
by halving; 0 for the number 0. -/
def highestBit : Nat → Nat → Nat
  | 0, _ => 0
  | n + 1, m => if m / 2 = 0 then 0 else highestBit n (m / 2) + 1

/-- The intrinsic `_BitScanReverse(&power, arg)`: its mask is an
`unsigned long` (32 bits), and the index written is that of the highest
set bit.  For a zero mask the intrinsic writes nothing: the index keeps
the content `power` it had before the call. -/
def BitScanReverse (power arg : Nat) : Nat :=
  if arg % 2 ^ 32 = 0 then power else highestBit 32 (arg % 2 ^ 32)

/-- One block `result *= arg & 1 ? value : 1; arg >>= 1; value *= value;`
of `ApplyPower`, on the triple (result, arg, value). -/
def ApplyPower_block (x64 : Bool) (t : Nat × Nat × Nat) : Nat × Nat × Nat :=
  (wrap x64 (t.1 * (if t.2.1 % 2 = 1 then t.2.2 else 1)), t.2.1 / 2, wrap x64 (t.2.2 * t.2.2))

/-- Entering the switch of `ApplyPower` at `case n`: `n` blocks fall
through into `case 0`, which multiplies once more and returns. -/
def ApplyPower_from (x64 : Bool) : Nat → Nat × Nat × Nat → Nat
  | 0, t => wrap x64 (t.1 * (if t.2.1 % 2 = 1 then t.2.2 else 1))
  | n + 1, t => ApplyPower_from x64 n (ApplyPower_block x64 t)

/-- `ApplyPower`: the labels of the switch are 0 to 4, and 5 as well under
`TH_X64`; any other index returns `SIZE_MAX`.  The local `power` (an
`unsigned long`) is declared without an initialiser in the switch
statement; `uninitialised` is its content before the intrinsic runs. -/
def ApplyPower (x64 : Bool) (uninitialised : Nat) (value arg : Nat) : Nat :=
  if arg = 0 then 1
  else
    let power := BitScanReverse (uninitialised % 2 ^ 32) arg
    if power ≤ (if x64 then 5 else 4) then ApplyPower_from x64 power (1, arg, value)
    else SIZE_MAX x64

/-- A C truth value. -/
def b2n (b : Bool) : Nat := if b then 1 else 0

/-- The function `ApplyOperator`.  The assignment forms first call
`AssignmentWarningMessage` and then fall through to their base operator;
`/` and `%` by zero raise a processor exception. -/
def ApplyOperator (x64 : Bool) (uninitialised : Nat) (s : State) (value arg op : Nat) :
    Outcome Nat :=
  let W := wordBits x64
  if op = Power then Outcome.ok (ApplyPower x64 uninitialised value arg) s
  else if op = MultiplyAssign then Outcome.ok (wrap x64 (value * arg)) (AssignmentWarningMessage s)
  else if op = Multiply then Outcome.ok (wrap x64 (value * arg)) s
  else if op = DivideAssign then
    (if arg = 0 then Outcome.trap (AssignmentWarningMessage s)
     else Outcome.ok (value / arg) (AssignmentWarningMessage s))
  else if op = Divide then
    (if arg = 0 then Outcome.trap s else Outcome.ok (value / arg) s)
  else if op = ModuloAssign then
    (if arg = 0 then Outcome.trap (AssignmentWarningMessage s)
     else Outcome.ok (value % arg) (AssignmentWarningMessage s))
  else if op = Modulo then
    (if arg = 0 then Outcome.trap s else Outcome.ok (value % arg) s)
  else if op = AddAssign then Outcome.ok (wrap x64 (value + arg)) (AssignmentWarningMessage s)
  else if op = Add then Outcome.ok (wrap x64 (value + arg)) s
  else if op = SubtractAssign then
    Outcome.ok (wrap x64 (value + (wordMod x64 - wrap x64 arg))) (AssignmentWarningMessage s)
  else if op = Subtract then Outcome.ok (wrap x64 (value + (wordMod x64 - wrap x64 arg))) s
  else if op = LogicalLeftShiftAssign ∨ op = ArithmeticLeftShiftAssign then
    Outcome.ok (shlW x64 value arg) (AssignmentWarningMessage s)
  else if op = LogicalLeftShift ∨ op = ArithmeticLeftShift then Outcome.ok (shlW x64 value arg) s
  else if op = LogicalRightShiftAssign then
    Outcome.ok (shrW x64 value arg) (AssignmentWarningMessage s)
  else if op = LogicalRightShift then Outcome.ok (shrW x64 value arg) s
  else if op = ArithmeticRightShiftAssign then
    Outcome.ok (sarW x64 value arg) (AssignmentWarningMessage s)
  else if op = ArithmeticRightShift then Outcome.ok (sarW x64 value arg) s
  else if op = CircularLeftShiftAssign then
    Outcome.ok (shlW x64 value arg ||| shrW x64 value (wrap x64 (W + (wordMod x64 - wrap x64 arg))))
      (AssignmentWarningMessage s)
  else if op = CircularLeftShift then
    Outcome.ok (shlW x64 value arg ||| shrW x64 value (wrap x64 (W + (wordMod x64 - wrap x64 arg)))) s
  else if op = CircularRightShiftAssign then
    Outcome.ok (shrW x64 value arg ||| shlW x64 value (wrap x64 (W + (wordMod x64 - wrap x64 arg))))
      (AssignmentWarningMessage s)
  else if op = CircularRightShift then
    Outcome.ok (shrW x64 value arg ||| shlW x64 value (wrap x64 (W + (wordMod x64 - wrap x64 arg)))) s
  else if op = Less then Outcome.ok (b2n (decide (value < arg))) s
  else if op = LessEqual then Outcome.ok (b2n (decide (value ≤ arg))) s
  else if op = Greater then Outcome.ok (b2n (decide (value > arg))) s
  else if op = GreaterEqual then Outcome.ok (b2n (decide (value ≥ arg))) s
  else if op = Equal then Outcome.ok (b2n (decide (value = arg))) s
  else if op = NotEqual then Outcome.ok (b2n (decide (value ≠ arg))) s
  else if op = ThreeWay then
    Outcome.ok (wrap x64 (wordMod x64 + b2n (decide (value > arg)) - b2n (decide (value < arg)))) s
  else if op = AndAssign then Outcome.ok (value &&& arg) (AssignmentWarningMessage s)
  else if op = BitwiseAnd then Outcome.ok (value &&& arg) s
  else if op = NandAssign then Outcome.ok (notW x64 (value &&& arg)) (AssignmentWarningMessage s)
  else if op = BitwiseNand then Outcome.ok (notW x64 (value &&& arg)) s
  else if op = XorAssign then Outcome.ok (value ^^^ arg) (AssignmentWarningMessage s)
  else if op = BitwiseXor then Outcome.ok (value ^^^ arg) s
  else if op = XnorAssign then Outcome.ok (notW x64 (value ^^^ arg)) (AssignmentWarningMessage s)
  else if op = BitwiseXnor then Outcome.ok (notW x64 (value ^^^ arg)) s
  else if op = OrAssign then Outcome.ok (value ||| arg) (AssignmentWarningMessage s)
  else if op = BitwiseOr then Outcome.ok (value ||| arg) s
  else if op = NorAssign then Outcome.ok (notW x64 (value ||| arg)) (AssignmentWarningMessage s)
  else if op = BitwiseNor then Outcome.ok (notW x64 (value ||| arg)) s
  else if op = LogicalAnd ∨ op = LogicalAndSC then
    Outcome.ok (b2n (decide (value ≠ 0) && decide (arg ≠ 0))) s
  else if op = LogicalNand ∨ op = LogicalNandSC then
    Outcome.ok (b2n (!(decide (value ≠ 0) && decide (arg ≠ 0)))) s
  else if op = LogicalXor then Outcome.ok (b2n (decide (value ^^^ arg ≠ 0))) s
  else if op = LogicalXnor then Outcome.ok (b2n (!(decide (value ^^^ arg ≠ 0)))) s
  else if op = LogicalOr ∨ op = LogicalOrSC then
    Outcome.ok (b2n (decide (value ≠ 0) || decide (arg ≠ 0))) s
  else if op = LogicalNor ∨ op = LogicalNorSC then
    Outcome.ok (b2n (!(decide (value ≠ 0) || decide (arg ≠ 0)))) s
  else if op = Assign then Outcome.ok arg (AssignmentWarningMessage s)
  else Outcome.ok arg s

/-! ## The tokenizer -/

/-- A 32-bit (or 16-bit) little-endian word read from a string, kept as its
bytes in address order; `TextInt(a, b, c, d)` builds the word with these
bytes, missing arguments being 0. -/
def TextInt (a b c d : Nat) : Nat × Nat × Nat × Nat := (a, b, c, d)

/-- The load `*(uint32_t*)p`. -/
def read32 (p : List Nat) : Nat × Nat × Nat × Nat := (peek p 0, peek p 1, peek p 2, peek p 3)

/-- The load `*(uint16_t*)p`, widened to 32 bits. -/
def read16 (p : List Nat) : Nat × Nat × Nat × Nat := (peek p 0, peek p 1, 0, 0)

/-- Bitwise and of two words. -/
def and32 (x y : Nat × Nat × Nat × Nat) : Nat × Nat × Nat × Nat :=
  (x.1 &&& y.1, x.2.1 &&& y.2.1, x.2.2.1 &&& y.2.2.1, x.2.2.2 &&& y.2.2.2)

/-- Bitwise or of two words. -/
def or32 (x y : Nat × Nat × Nat × Nat) : Nat × Nat × Nat × Nat :=
  (x.1 ||| y.1, x.2.1 ||| y.2.1, x.2.2.1 ||| y.2.2.1, x.2.2.2 ||| y.2.2.2)

/-- The case of `find_next_op_impl` shared by `<` and `>`; `c` is the
character at `p`. -/
def find_next_op_angle (p : List Nat) (c : Nat) : Nat × List Nat :=
  let CRetPlus1 := (u8 c, p.drop 1)
  let CTimes2RetPlus2 := (u8 (c * 2), p.drop 2)
  let CPlusEqualRetPlus2 := (u8 (c + ch '='), p.drop 2)
  let CTimes2PlusEqualRetPlus3 := (u8 (c * 2 + ch '='), p.drop 3)
  let last (temp : Nat × Nat × Nat × Nat) : Nat × List Nat :=
    if temp = TextInt (ch '<') (ch '=') 0 0 then CPlusEqualRetPlus2
    else if temp = TextInt (ch '<') (ch '<') 0 0 then CTimes2RetPlus2
    else CRetPlus1
  if peek p 1 ≠ 0 then
    if peek p 2 ≠ 0 then
      let temp := and32 (read32 p) (TextInt 0xFD 0xFD 0xFD 0xFF)
      if temp = TextInt (ch '<') (ch '<') (ch '<') (ch '=') then
        (u8 (c * 3 + ch '='), p.drop 4)
      else
        let temp := and32 temp (TextInt 0xFF 0xFF 0xFF 0)
        if temp = TextInt (ch '<') (ch '=') (ch '<') 0 then (ThreeWay, p.drop 3)
        else if temp = TextInt (ch '<') (ch '<') (ch '=') 0 then CTimes2PlusEqualRetPlus3
        else if temp = TextInt (ch '<') (ch '<') (ch '<') 0 then (u8 (c * 3), p.drop 3)
        else last (and32 temp (TextInt 0xFF 0xFF 0 0))
    else last (and32 (read16 p) (TextInt 0xFD 0xFD 0 0))
  else CRetPlus1

/-- The scanning loop of `find_next_op_impl`: `expr` is the argument of the
function, the second list is `expr_ref` after its increment.  A character
that no case of the switch takes leaves the switch, and the loop goes on
to the next character. -/
def find_next_op_loop (expr : List Nat) (end_ : Nat) : List Nat → Nat × List Nat
  | [] => (0, expr)
  | c :: t =>
    let p := c :: t
    let CRetPlus1 (c : Nat) : Nat × List Nat := (u8 c, p.drop 1)
    let CTimes2RetPlus2 (c : Nat) : Nat × List Nat := (u8 (c * 2), p.drop 2)
    let CPlusEqualRetPlus2 (c : Nat) : Nat × List Nat := (u8 (c + ch '='), p.drop 2)
    if c = 0 then (c, expr)
    else if c = ch '(' ∨ c = ch '[' then (BadBrackets, expr)
    else if c = ch ')' ∨ c = ch ']' then (EndGroupOp, p)
    else if c = ch '~' then
      let temp := peek p 1
      if temp = ch '&' ∨ temp = ch '|' ∨ temp = ch '^' then
        let temp := if temp = ch '^' then temp else u8 (temp + temp)
        if peek p 2 = ch '=' then (u8 (c + temp + ch '='), p.drop 3)
        else (u8 (c + temp), p.drop 2)
      else find_next_op_loop expr end_ t
    else if c = ch '!' then
      let c := u8 (c + c)
      let temp := peek p 1
      if temp = ch '=' then CPlusEqualRetPlus2 c
      else if temp = ch '&' ∨ temp = ch '|' ∨ temp = ch '^' then
        let temp := if temp = ch '^' then temp else u8 (temp + temp)
        if peek p 2 = peek p 1 then (u8 (c + temp * 2), p.drop 3)
        else find_next_op_loop expr end_ t
      else find_next_op_loop expr end_ t
    else if c = ch '>' ∧ end_ = ch '>' then (EndGroupOp, p)
    else if c = ch '>' ∨ c = ch '<' then find_next_op_angle p c
    else if c = ch 'r' ∨ c = ch 'R' then
      if peek p 1 ≠ 0 ∧ peek p 2 ≠ 0 then
        let c := u8 (c ||| 0x20)
        let c := u8 (c + c)
        let temp := or32 (read32 p) (TextInt 0x20 0 0 0)
        if temp = TextInt (ch 'r') (ch '>') (ch '>') (ch '=') then
          (u8 (c + ch '>' + ch '>' + ch '='), p.drop 4)
        else if temp = TextInt (ch 'r') (ch '<') (ch '<') (ch '=') then
          (u8 (c + ch '<' + ch '<' + ch '='), p.drop 4)
        else
          let temp := and32 temp (TextInt 0xFF 0xFF 0xFF 0)
          if temp = TextInt (ch 'r') (ch '>') (ch '>') 0 then (u8 (c + ch '>' + ch '>'), p.drop 3)
          else if temp = TextInt (ch 'r') (ch '<') (ch '<') 0 then
            (u8 (c + ch '<' + ch '<'), p.drop 3)
          else find_next_op_loop expr end_ t
      else find_next_op_loop expr end_ t
    else if c = ch '&' then
      let c := u8 (c + c)
      if peek p 1 = ch '&' then CTimes2RetPlus2 c
      else if peek p 1 = ch '=' then CPlusEqualRetPlus2 c
      else CRetPlus1 c
    else if c = ch '|' then
      let c := u8 (c + c)
      if peek p 1 = ch '|' then CTimes2RetPlus2 c
      else if peek p 1 = ch '=' then CPlusEqualRetPlus2 c
      else CRetPlus1 c
    else if c = ch '*' then
      if peek p 1 = ch '*' then CTimes2RetPlus2 c
      else if peek p 1 = ch '=' then CPlusEqualRetPlus2 c
      else CRetPlus1 c
    else if c = ch '^' then
      if peek p 1 = ch '^' then CTimes2RetPlus2 c
      else if peek p 1 = ch '=' then CPlusEqualRetPlus2 c
      else CRetPlus1 c
    else if c = ch '+' ∨ c = ch '-' ∨ c = ch '/' ∨ c = ch '%' ∨ c = ch '=' then
      if peek p 1 = ch '=' then CPlusEqualRetPlus2 c
      else CRetPlus1 c
    else if c = ch '?' then CRetPlus1 (u8 (c + c))
    else if c = ch ',' ∨ c = ch ';' then CRetPlus1 c
    else if c = ch ':' then (c, p)
    else find_next_op_loop expr end_ t

/-- The function `find_next_op_impl`: the opcode written to `*out` and the
pointer returned. -/
def find_next_op_impl (expr : List Nat) (end_ : Nat) : Nat × List Nat :=
  find_next_op_loop expr end_ expr

/-! ## Typed values and the environment -/

/-- Modelled from the spec: the enumeration `patch_val_type_t` is declared
in a header that is not part of the sources at hand.  The values 1 to 8 of
the integer tags and the order float, double, long double are those that
`CheckCastType` computes; the default (register width) tag is dword on
x86 and qword on x64, as the comments of `consume_value_impl` say. -/
def PVT_NONE : Nat := 0
def PVT_UNKNOWN : Nat := PVT_NONE
def PVT_BYTE : Nat := 1
def PVT_BOOL : Nat := PVT_BYTE
def PVT_SBYTE : Nat := 2
def PVT_WORD : Nat := 3
def PVT_SWORD : Nat := 4
def PVT_DWORD : Nat := 5
def PVT_SDWORD : Nat := 6
def PVT_QWORD : Nat := 7
def PVT_SQWORD : Nat := 8
def PVT_FLOAT : Nat := 9
def PVT_DOUBLE : Nat := 10
def PVT_LONGDOUBLE : Nat := 11
def PVT_STRING : Nat := 12
def PVT_STRING16 : Nat := 13
def PVT_STRING32 : Nat := 14
def PVT_CODE : Nat := 15
def PVT_DEFAULT (x64 : Bool) : Nat := if x64 then PVT_QWORD else PVT_DWORD
def PVT_POINTER (x64 : Bool) : Nat := PVT_DEFAULT x64

/-- The tagged union `patch_val_t`.  `raw` holds the bytes of the scalar
members (`b`, `w`, `i`, `q`, `f`, `d`, `ld`, `p`, `z`, and the pointer of a
string or code value) as a little-endian number; `text` is the string a
code or string pointer points to; `len` and `count` are the members of
`code`. -/
structure patch_val_t where
  type : Nat
  raw : Nat
  text : List Nat
  len : Nat
  count : Nat
  merge_op : Nat
  deriving DecidableEq, Repr

/-- What the evaluator is given and what it calls but does not define:
the target (`x64`), the fields of `StackSaver`, the memory of the process,
and the collaborators `str_address_value` (result, `addr_ret.endptr`,
overflow bit of `addr_ret.error`), `strtouz` (result and end pointer),
`patch_opt_get_len`, `func_get_len`, the flags of `CPUID_Data` by field
name, the conversions of floating point bit patterns to `size_t`, and the
contents of an uninitialised local. -/
structure Env where
  x64 : Bool
  regs : Nat
  rel_source : Nat
  current_module : Nat
  mem : Nat → Nat
  str_address_value : List Nat → Nat → Nat × List Nat × Bool
  strtouz : List Nat → Nat → Nat × List Nat
  patch_opt_get_len : List Nat → Option patch_val_t
  func_get_len : List Nat → Nat
  CPUID_Data : String → Bool
  float_to_size : Nat → Nat
  double_to_size : Nat → Nat
  longdouble_to_size : Nat → Nat
  uninitialised : Nat

/-- Little-endian load of `n` bytes from memory. -/
def Env.load (env : Env) (addr : Nat) : Nat → Nat
  | 0 => 0
  | n + 1 => env.mem addr + 256 * env.load (addr + 1) n

/-- Sign extension of the low `bits` bits of `v` to a `size_t`. -/
def signExtend (x64 : Bool) (bits v : Nat) : Nat :=
  let t := v % 2 ^ bits
  if t < 2 ^ (bits - 1) then wrap x64 t else wrap x64 (wordMod x64 * 2 ^ bits + t - 2 ^ bits)

/-- The C library `tolower` on a byte. -/
def tolower (c : Nat) : Nat := if ch 'A' ≤ c ∧ c ≤ ch 'Z' then c + 32 else c

/-- The test `strnicmp(a, b, n) == 0`. -/
def strnicmp_eq (a b : List Nat) : Nat → Bool
  | 0 => true
  | n + 1 =>
    if tolower (peek a 0) ≠ tolower (peek b 0) then false
    else if peek a 0 = 0 then true
    else strnicmp_eq (a.drop 1) (b.drop 1) n

/-- The macro `PtrDiffStrlen(end, start)`: the difference of two pointers
into the same string, as a `size_t`. -/
def PtrDiffStrlen (x64 : Bool) (end_ start : List Nat) : Nat :=
  wrap x64 (wordMod x64 + start.length - end_.length)

/-- The loop of `find_matching_end`; `depth` is a `size_t`. -/
def find_matching_end_loop (x64 : Bool) (start end_ : Nat) : Nat → List Nat → Option (List Nat)
  | _, [] => none
  | depth, c :: t =>
    if c = 0 then none
    else
      let depth := wrap x64 (depth + wordMod x64 + b2n (decide (c = start)) - b2n (decide (c = end_)))
      if depth = 0 then some (c :: t) else find_matching_end_loop x64 start end_ depth t

/-- The function `find_matching_end`: the pointer to the character that
brings the depth back to 0, or null. -/
def find_matching_end (x64 : Bool) (str : List Nat) (start end_ : Nat) : Option (List Nat) :=
  find_matching_end_loop x64 start end_ 0 str

/-- The function `skip_value`; `depth` is an `int`. -/
def skip_value_loop (end_ : Nat) : Int → List Nat → Option (List Nat)
  | depth, [] => if end_ = 0 ∧ depth = 0 then some [] else none
  | depth, c :: t =>
    if c = 0 then (if end_ = 0 ∧ depth = 0 then some (c :: t) else none)
    else if c = ch '(' ∨ c = ch '[' then skip_value_loop end_ (depth + 1) t
    else if c = ch ')' ∨ c = ch ']' then
      if c = end_ ∧ depth = 0 then some (c :: t)
      else if depth - 1 < 0 then none
      else skip_value_loop end_ (depth - 1) t
    else if c = end_ ∧ depth = 0 then some (c :: t)
    else skip_value_loop end_ depth t

/-- The function `skip_value`. -/
def skip_value (expr : List Nat) (end_ : Nat) : Option (List Nat) :=
  skip_value_loop end_ 0 expr

/-- The function `CheckCastType`: the tag written to `*out` and the pointer
past the closing parenthesis, or null. -/
def CheckCastType (expr : List Nat) : Option (Nat × List Nat) :=
  let c0 := peek expr 0 &&& 0xDF
  let c1 := peek expr 1
  let c2 := peek expr 2
  let close (type : Nat) (e : List Nat) : Option (Nat × List Nat) :=
    if peek e 0 ≠ ch ')' then none else some (type, e.drop 1)
  if c0 = ch 'I' ∨ c0 = ch 'U' then
    let type := if c0 = ch 'I' then 2 else 1
    if c1 = ch '6' then (if c2 ≠ ch '4' then none else close (type + 6) (expr.drop 3))
    else if c1 = ch '3' then (if c2 ≠ ch '2' then none else close (type + 4) (expr.drop 3))
    else if c1 = ch '1' then (if c2 ≠ ch '6' then none else close (type + 2) (expr.drop 3))
    else if c1 = ch '8' then close type (expr.drop 2)
    else none
  else if c0 = ch 'F' then
    let type := PVT_FLOAT
    if c1 = ch '8' then (if c2 ≠ ch '0' then none else close (type + 2) (expr.drop 3))
    else if c1 = ch '6' then (if c2 ≠ ch '4' then none else close (type + 1) (expr.drop 3))
    else if c1 = ch '3' then (if c2 ≠ ch '2' then none else close type (expr.drop 3))
    else none
  else none

/-! ## Registers -/

/-- The register ordinals of `is_reg_name`: under `TH_X64` the eight
ordinals of `R15` to `R8` come first. -/
def REG_R9 : Nat := 6
def REG_R8 : Nat := 7
def REG_EDI (x64 : Bool) : Nat := if x64 then 8 else 0
def REG_ESI (x64 : Bool) : Nat := REG_EDI x64 + 1
def REG_EBP (x64 : Bool) : Nat := REG_EDI x64 + 2
def REG_ESP (x64 : Bool) : Nat := REG_EDI x64 + 3
def REG_EBX (x64 : Bool) : Nat := REG_EDI x64 + 4
def REG_EDX (x64 : Bool) : Nat := REG_EDI x64 + 5
def REG_ECX (x64 : Bool) : Nat := REG_EDI x64 + 6
def REG_EAX (x64 : Bool) : Nat := REG_EDI x64 + 7
def REG_DW : Nat := 0
def REG_BL : Nat := 1
def REG_BH : Nat := 2
def REG_W : Nat := 3
def REG_QW : Nat := 4

/-- The part of `is_reg_name` from the label `RegEnd` on. -/
def is_reg_name_RegEnd (env : Env) (deref : Bool) (out_reg out_size : Nat) (expr : List Nat) :
    Option (Nat × List Nat) :=
  let temp := env.regs + (out_reg + 1) * (wordBits env.x64 / 8) + b2n (decide (out_size = REG_BH))
  if !deref then some (wrap env.x64 temp, expr)
  else if env.x64 ∧ out_size = REG_QW then some (env.load temp 8, expr)
  else if out_size = REG_DW then some (env.load temp 4, expr)
  else if out_size = REG_W then some (env.load temp 2, expr)
  else some (env.load temp 1, expr)

/-- The part of `is_reg_name` from the label `RexReg` on (on x86, from the
read of `letter2`). -/
def is_reg_name_RexReg (env : Env) (deref : Bool) (out_reg out_size letter1 : Nat)
    (expr : List Nat) : Option (Nat × List Nat) :=
  let x64 := env.x64
  let letter2 := peek expr 0 &&& 0xDF
  let expr := expr.drop 1
  -- the blocks `if (letter2 == 'P')` and `if (letter2 == 'I')`, after `out_reg` was updated
  let low (out_reg : Nat) : Option (Nat × List Nat) :=
    if x64 ∧ out_size = REG_W then
      let low_reg := decide ((peek expr 0 &&& 0xDF) = ch 'L')
      is_reg_name_RegEnd env deref out_reg (out_size - 2 * b2n low_reg) (expr.drop (b2n low_reg))
    else is_reg_name_RegEnd env deref out_reg out_size expr
  let final (out_reg : Nat) : Option (Nat × List Nat) :=
    let mask := b2n (decide (letter2 = ch 'L')) ||| (2 * b2n (decide (letter2 = ch 'H')))
    if letter2 ≠ ch 'X' ∧ (out_size &&& mask) = 0 then none
    else is_reg_name_RegEnd env deref out_reg
      (if letter2 ≠ ch 'X' then out_size &&& mask else out_size) expr
  let caseD (out_reg : Nat) : Option (Nat × List Nat) :=
    if letter2 = ch 'I' then
      if letter1 = ch 'B' then none else low out_reg
    else final (out_reg ||| (if letter1 = ch 'B' then REG_EBX x64 else REG_EDX x64))
  let caseB (out_reg : Nat) : Option (Nat × List Nat) :=
    if letter2 = ch 'P' then low (out_reg ||| REG_EBP x64) else caseD out_reg
  if letter1 = ch 'S' then caseB (out_reg ||| REG_ESI x64)
  else if letter1 = ch 'B' then caseB out_reg
  else if letter1 = ch 'D' then caseD out_reg
  else if letter1 = ch 'A' then final (out_reg ||| REG_EAX x64)
  else if letter1 = ch 'C' then final (out_reg ||| REG_ECX x64)
  else none

/-- The function `is_reg_name`: the value written to `*out` and the pointer
past the register name, or null.  `regs` is the address of the saved
register bank, an array of word-sized slots.  Under `TH_X64` the jump to
`RexReg` skips the initialisation of `out_reg`. -/
def is_reg_name (env : Env) (expr : List Nat) : Option (Nat × List Nat) :=
  let x64 := env.x64
  let deref := decide (peek expr 0 ≠ ch '&')
  let expr := expr.drop (b2n (!deref))
  let letter1 := peek expr 0 &&& 0xDF
  let expr := expr.drop 1
  if x64 ∧ letter1 = ch 'R' then
    let letter1 := peek expr 0
    let expr := expr.drop 1
    let suffix (out_reg : Nat) (expr : List Nat) : Option (Nat × List Nat) :=
      let letter1 := peek expr 0 &&& 0xDF
      if letter1 = ch 'B' then is_reg_name_RegEnd env deref out_reg REG_BL (expr.drop 1)
      else if letter1 = ch 'D' then is_reg_name_RegEnd env deref out_reg REG_DW (expr.drop 1)
      else if letter1 = ch 'W' then is_reg_name_RegEnd env deref out_reg REG_W (expr.drop 1)
      else is_reg_name_RegEnd env deref out_reg REG_QW expr
    if letter1 = ch '1' then
      let letter1 := peek expr 0
      let expr := expr.drop 1
      if letter1 > ch '0' + 5 then none
      else suffix (u8 (ch '5' + 256 - letter1)) expr
    else if letter1 = ch '9' then suffix REG_R9 expr
    else if letter1 = ch '8' then suffix REG_R8 expr
    else is_reg_name_RexReg env deref (u8 env.uninitialised) REG_QW letter1 expr
  else if letter1 = ch 'E' then
    is_reg_name_RexReg env deref (REG_EDI x64) REG_DW (peek expr 0 &&& 0xDF) (expr.drop 1)
  else is_reg_name_RexReg env deref (REG_EDI x64) REG_W letter1 expr

/-! ## CPU features and NOP strings -/

/-- The comparisons of `GetCPUFeatureTest` in the order of the source: the
name compared with and the field of `CPUID_Data` (or expression) read. -/
def CPUFeatureTable : List (String × String) :=
  [ ("avx512vpopcntdq", "HasAVX512VPOPCNTDQ"),
    ("avx512bitalg", "HasAVX512BITALG"), ("avx5124fmaps", "HasAVX5124FMAPS"),
    ("avx5124vnniw", "HasAVX5124VNNIW"),
    ("avx512vbmi1", "HasAVX512VBMI"), ("avx512vbmi2", "HasAVX512VBMI2"),
    ("cmpxchg16b", "HasCMPXCHG16B"), ("vpclmulqdq", "HasVPCLMULQDQ"),
    ("avx512ifma", "HasAVX512IFMA"), ("avx512vnni", "HasAVX512VNNI"),
    ("avx512vp2i", "HasAVX512VP2I"), ("avx512fp16", "HasAVX512FP16"),
    ("avx512bf16", "HasAVX512BF16"),
    ("thcrapver", "PROJECT_VERSION"), ("pclmulqdq", "HasPCLMULQDQ"),
    ("cmpxchg8", "HasCMPXCHG8"), ("avx512dq", "HasAVX512DQ"), ("avx512pf", "HasAVX512PF"),
    ("avx512er", "HasAVX512ER"), ("avx512cd", "HasAVX512CD"), ("avx512bw", "HasAVX512BW"),
    ("avx512vl", "HasAVX512VL"), ("3dnowext", "Has3DNOWEXT"),
    ("avx512f", "HasAVX512F"), ("amxfp16", "HasAMXBF16"), ("amxtile", "HasAMXTILE"),
    ("amxint8", "HasAMXINT8"),
    ("winver", "WindowsVersion.raw"), ("popcnt", "HasPOPCNT"), ("fxsave", "HasFXSAVE"),
    ("mmxext", "HasMMXEXT"),
    ("model", "FamilyData.raw"), ("intel", "Manufacturer == Intel"), ("ssse3", "HasSSSE3"),
    ("sse41", "HasSSE41"), ("sse42", "HasSSE42"), ("sse4a", "HasSSE4A"),
    ("movbe", "HasMOVBE"), ("3dnow", "Has3DNOW"), ("win64", "OSIsX64"), ("uintr", "HasUINTR"),
    ("cmov", "HasCMOV"), ("sse2", "HasSSE2"), ("sse3", "HasSSE3"), ("avx2", "HasAVX2"),
    ("bmi1", "HasBMI1"), ("bmi2", "HasBMI2"), ("erms", "HasERMS"), ("fsrm", "HasFSRM"),
    ("f16c", "HasF16C"), ("gfni", "HasGFNI"), ("fma4", "HasFMA4"),
    ("wine", "wine_version != NULL"),
    ("amd", "Manufacturer == AMD"), ("sse", "HasSSE"), ("fma", "HasFMA"), ("mmx", "HasMMX"),
    ("avx", "HasAVX"), ("adx", "HasADX"), ("sha", "HasSHA"), ("abm", "HasABM"),
    ("xop", "HasXOP"), ("tbm", "HasTBM") ]

/-- The function `GetCPUFeatureTest`: the switch on `name_length` selects
the comparisons with names of that length; `ret` starts as `false` and is
what is returned after the warning for an unknown name. -/
def GetCPUFeatureTest (env : Env) (s : State) (name : List Nat) (name_length : Nat) :
    Bool × State :=
  match CPUFeatureTable.find?
      (fun e => e.1.length == name_length && strnicmp_eq name (cstr e.1) name_length) with
  | some e => (env.CPUID_Data e.2, s)
  | none => (false, s.emit (Msg.InvalidCPUFeatureWarning (name.take name_length)))

/-- The table `NOP_Strings_Lookup`: row 0 for Intel and unknown vendors,
row 1 for AMD. -/
def NOP_Strings_Lookup : List (List String) :=
  [ [ "", "90", "6690", "0F1F00", "0F1F4000", "0F1F440000", "660F1F440000",
      "0F1F8000000000", "0F1F840000000000", "660F1F840000000000",
      "662E0F1F840000000000", "66662E0F1F840000000000", "6666662E0F1F840000000000",
      "666666662E0F1F840000000000", "66666666662E0F1F840000000000",
      "6666666666662E0F1F840000000000" ],
    [ "", "90", "6690", "0F1F00", "0F1F4000", "0F1F440000", "660F1F440000",
      "0F1F8000000000", "0F1F840000000000", "660F1F840000000000",
      "662E0F1F840000000000", "0F1F440000660F1F440000", "660F1F440000660F1F440000",
      "660F1F4400000F1F8000000000", "0F1F80000000000F1F8000000000",
      "0F1F80000000000F1F840000000000" ] ]

/-- The loop of `GetMultibyteNOP` that starts from `i = 16` and, for each
`--i` that is not 0, sets `count = len / i` and stops when `i` divides
`len`; it is entered here with `i` already decremented.  The result is the
pair (count, i) on leaving the loop. -/
def GetMultibyteNOP_loop (len : Nat) : Nat → Nat → Nat × Nat
  | 0, count => (count, 0)
  | i + 1, _ =>
    if len % (i + 1) = 0 then (len / (i + 1), i + 1)
    else GetMultibyteNOP_loop len i (len / (i + 1))

/-! ## The value consumer, the patch-value parser and the evaluator -/

/-- The label `PostfixCheck` of `consume_value_impl`. -/
def PostfixCheck (s : State) (out : Nat) (expr_next : List Nat) : Outcome (Nat × List Nat) :=
  let c := peek expr_next 0
  if (c = ch '+' ∨ c = ch '-') ∧ c = peek expr_next 1 then
    Outcome.ok (out, expr_next.drop 2) (PostIncDecWarningMessage s)
  else Outcome.ok (out, expr_next) s

/-- The label `RawValue` of `consume_value_impl`. -/
def RawValue (env : Env) (s : State) (expr : List Nat) : Outcome (Nat × List Nat) :=
  let r := env.str_address_value expr env.current_module
  if expr = r.2.1 ∨ r.2.2 then Outcome.null (s.emit Msg.BadCharacterError)
  else PostfixCheck s r.1 r.2.1

/-- The label `RawValueOrRegister` of `consume_value_impl`. -/
def RawValueOrRegister (env : Env) (s : State) (expr : List Nat) : Outcome (Nat × List Nat) :=
  if env.regs ≠ 0 then
    match is_reg_name env expr with
    | some r => PostfixCheck s r.1 r.2
    | none => RawValue env s expr
  else RawValue env s expr

/-- The conversions applied by a cast `(T)` of `consume_value_impl`. -/
def castValue (env : Env) (type out : Nat) : Nat :=
  let x64 := env.x64
  if type = PVT_DEFAULT x64 then out
  else if type = PVT_BYTE then out % 2 ^ 8
  else if type = PVT_SBYTE then signExtend x64 8 out
  else if type = PVT_WORD then out % 2 ^ 16
  else if type = PVT_SWORD then signExtend x64 16 out
  else if x64 ∧ type = PVT_DWORD then out % 2 ^ 32
  else if type = PVT_SDWORD then signExtend x64 32 out
  else if x64 ∧ type = PVT_SQWORD then signExtend x64 64 out
  else if type = PVT_FLOAT then wrap x64 (env.float_to_size (out % 2 ^ 32))
  else if x64 ∧ type = PVT_DOUBLE then wrap x64 (env.double_to_size (out % 2 ^ 64))
  else out

/-- The loads of the label `SharedDeref`, for a non-null address. -/
def derefValue (env : Env) (type addr : Nat) : Nat :=
  let x64 := env.x64
  if type = PVT_DEFAULT x64 then env.load addr (wordBits x64 / 8)
  else if type = PVT_BYTE then env.load addr 1
  else if type = PVT_SBYTE then signExtend x64 8 (env.load addr 1)
  else if type = PVT_WORD then env.load addr 2
  else if type = PVT_SWORD then signExtend x64 16 (env.load addr 2)
  else if x64 ∧ type = PVT_DWORD then env.load addr 4
  else if type = PVT_SDWORD then signExtend x64 32 (env.load addr 4)
  else if !x64 ∧ type = PVT_QWORD then wrap x64 (env.load addr 8)
  else if type = PVT_SQWORD then wrap x64 (env.load addr 8)
  else if type = PVT_FLOAT then wrap x64 (env.float_to_size (env.load addr 4))
  else if type = PVT_DOUBLE then wrap x64 (env.double_to_size (env.load addr 8))
  else if type = PVT_LONGDOUBLE then wrap x64 (env.longdouble_to_size (env.load addr 10))
  else addr

/-- The label `SharedDeref` of `consume_value_impl`; `expr` is the start of
the operand, which is what the label `NullDerefWarning` returns. -/
def SharedDeref (env : Env) (s : State) (expr : List Nat) (type out : Nat)
    (expr_next : List Nat) : Outcome (Nat × List Nat) :=
  if out = 0 then Outcome.ok (out, expr) (s.emit Msg.NullDerefWarning)
  else PostfixCheck (s.record (Event.load out type)) (derefValue env type out) expr_next

/-- The switch of `consume_value_impl` that turns a patch value into a
`size_t`; `none` is the jump to `InvalidPatchValueTypeError`. -/
def patchValueToSize (env : Env) (v : patch_val_t) : Option Nat :=
  let x64 := env.x64
  if v.type = PVT_BYTE then some (v.raw % 2 ^ 8)
  else if v.type = PVT_SBYTE then some (signExtend x64 8 v.raw)
  else if v.type = PVT_WORD then some (v.raw % 2 ^ 16)
  else if v.type = PVT_SWORD then some (signExtend x64 16 v.raw)
  else if v.type = PVT_DWORD then some (v.raw % 2 ^ 32)
  else if v.type = PVT_SDWORD then some (signExtend x64 32 v.raw)
  else if v.type = PVT_QWORD then some (wrap x64 (v.raw % 2 ^ 64))
  else if v.type = PVT_SQWORD then some (wrap x64 (v.raw % 2 ^ 64))
  else if v.type = PVT_FLOAT then some (wrap x64 (env.float_to_size (v.raw % 2 ^ 32)))
  else if v.type = PVT_DOUBLE then some (wrap x64 (env.double_to_size (v.raw % 2 ^ 64)))
  else if v.type = PVT_LONGDOUBLE then some (wrap x64 (env.longdouble_to_size (v.raw % 2 ^ 80)))
  else if v.type = PVT_STRING ∨ v.type = PVT_STRING16 ∨ v.type = PVT_STRING32 then
    some (wrap x64 v.raw)
  else none

/-- The function `GetOptionValue`. -/
def GetOptionValue (env : Env) (s : State) (name : List Nat) (name_length : Nat) :
    Option patch_val_t × State :=
  let s := s.record (Event.patch_opt_get_len (name.take name_length))
  match env.patch_opt_get_len (name.take name_length) with
  | some v => (some v, s)
  | none => (none, s.emit (Msg.OptionNotFoundError (name.take name_length)))

/-- The function `GetPatchTestValue`. -/
def GetPatchTestValue (env : Env) (s : State) (name : List Nat) (name_length : Nat) :
    Nat × State :=
  let s := s.record (Event.patch_opt_get_len (name.take name_length))
  match env.patch_opt_get_len (name.take name_length) with
  | some v => (v.raw % 2 ^ 32, s)
  | none => (0, s)

/-- The loop `while (*expr++ != ':');` of `eval_expr_impl`.  It has no
bound: `none` stands for a scan that leaves the modelled memory. -/
def skipPastColon : List Nat → Option (List Nat)
  | [] => none
  | c :: t => if c ≠ ch ':' then skipPastColon t else some t

/-- The result of `memchr(name, '+', name_length)`. -/
def memchr_plus : List Nat → Nat → Option (List Nat)
  | _, 0 => none
  | [], _ + 1 => none
  | c :: t, n + 1 => if c = ch '+' then some (c :: t) else memchr_plus t n

mutual

/-- The loop of `consume_value_impl`; `type` is `cur_value.type`, and `expr`
is the pointer after the increment of the loop head.  Each call and each
turn of a loop of the source spends one unit of `fuel`. -/
def consume_value_loop (env : Env) (fuel : Nat) (s : State) (expr : List Nat) (type : Nat) :
    Outcome (Nat × List Nat) :=
  match fuel with
  | 0 => Outcome.fuel
  | fuel + 1 =>
    let x64 := env.x64
    let c := peek expr 0
    let keyword (kw : String) (t : Nat) (other : Outcome (Nat × List Nat)) :=
      if strnicmp_eq expr (cstr kw) kw.length then
        consume_value_loop env fuel s (expr.drop kw.length) t
      else other
    let InvalidCharacterError : Outcome (Nat × List Nat) :=
      Outcome.null (s.emit Msg.BadCharacterError)
    if c = ch '&' ∨ c = ch 'a' ∨ c = ch 'A' ∨ c = ch 'c' ∨ c = ch 'C' ∨ c = ch 'e' ∨ c = ch 'E'
        ∨ c = ch 's' ∨ c = ch 'S' ∨ (x64 ∧ (c = ch 'r' ∨ c = ch 'R')) then
      RawValueOrRegister env s expr
    else if (c = ch 'r' ∨ c = ch 'R') ∨ (ch '0' ≤ c ∧ c ≤ ch '9') then RawValue env s expr
    else if c = 0 then Outcome.null (s.emit (Msg.InvalidValueError expr))
    else if c = ch ' ' ∨ c = 9 ∨ c = 11 ∨ c = 12 then
      consume_value_loop env fuel s (expr.drop 1) type
    else if c = ch 'b' ∨ c = ch 'B' then
      keyword "byte ptr" PVT_BYTE (RawValueOrRegister env s expr)
    else if c = ch 'w' ∨ c = ch 'W' then keyword "word ptr" PVT_WORD InvalidCharacterError
    else if c = ch 'd' ∨ c = ch 'D' then
      keyword "dword ptr" PVT_DWORD
        (keyword "double ptr" PVT_DOUBLE (RawValueOrRegister env s expr))
    else if c = ch 'f' ∨ c = ch 'F' then keyword "float ptr" PVT_FLOAT (RawValue env s expr)
    else if c = ch 'q' ∨ c = ch 'Q' then keyword "qword ptr" PVT_QWORD InvalidCharacterError
    else if c = ch 't' ∨ c = ch 'T' then
      keyword "tbyte ptr" PVT_LONGDOUBLE InvalidCharacterError
    else if c = ch '!' ∨ c = ch '~' ∨ c = ch '+' ∨ c = ch '-' then
      let doubled := decide (peek expr 0 = peek expr 1)
      match consume_value_impl env fuel s (expr.drop (1 + b2n doubled)) with
      | Outcome.null s => Outcome.null (s.emit (Msg.InvalidValueError expr))
      | Outcome.trap s => Outcome.trap s
      | Outcome.fuel => Outcome.fuel
      | Outcome.ok r s =>
        let out := r.1
        if !doubled then
          if c = ch '~' then PostfixCheck s (notW x64 out) r.2
          else if c = ch '!' then PostfixCheck s (b2n (decide (out = 0))) r.2
          else if c = ch '-' then PostfixCheck s (wrap x64 (out * SIZE_MAX x64)) r.2
          else PostfixCheck s out r.2
        else
          if c = ch '~' then PostfixCheck s (notW x64 (notW x64 out)) r.2
          else if c = ch '!' then PostfixCheck s (b2n (decide (out ≠ 0))) r.2
          else if c = ch '-' then
            PostfixCheck (IncDecWarningMessage s) (wrap x64 (out + SIZE_MAX x64)) r.2
          else PostfixCheck (IncDecWarningMessage s) (wrap x64 (out + 1)) r.2
    else if c = ch '*' then
      match consume_value_impl env fuel s (expr.drop 1) with
      | Outcome.null s => Outcome.null (s.emit (Msg.InvalidValueError expr))
      | Outcome.trap s => Outcome.trap s
      | Outcome.fuel => Outcome.fuel
      | Outcome.ok r s => SharedDeref env s expr type r.1 r.2
    else if c = ch '(' then
      let expr := expr.drop 1
      match CheckCastType expr with
      | some cast =>
        match consume_value_impl env fuel s cast.2 with
        | Outcome.null s => Outcome.null (s.emit (Msg.InvalidValueError expr))
        | Outcome.trap s => Outcome.trap s
        | Outcome.fuel => Outcome.fuel
        | Outcome.ok r s => PostfixCheck s (castValue env cast.1 r.1) (r.2.drop 1)
      | none =>
        match eval_expr_impl env fuel s expr (ch ')') StartNoOp 0 with
        | Outcome.null s => Outcome.null (s.emit Msg.ExpressionError)
        | Outcome.trap s => Outcome.trap s
        | Outcome.fuel => Outcome.fuel
        | Outcome.ok r s => PostfixCheck s r.1 (r.2.drop 1)
    else if c = ch '[' ∧ env.regs ≠ 0 then
      match eval_expr_impl env fuel s (expr.drop 1) (ch ']') StartNoOp 0 with
      | Outcome.null s => Outcome.null (s.emit Msg.ExpressionError)
      | Outcome.trap s => Outcome.trap s
      | Outcome.fuel => Outcome.fuel
      | Outcome.ok r s => SharedDeref env s expr type r.1 (r.2.drop 1)
    else if c = ch '[' ∨ c = ch '<' then
      match get_patch_value_impl env fuel s expr ⟨type, env.uninitialised, [], 0, 0, 0⟩ with
      | Outcome.null s => Outcome.null (s.emit Msg.ValueBracketError)
      | Outcome.trap s => Outcome.trap s
      | Outcome.fuel => Outcome.fuel
      | Outcome.ok r s =>
        match patchValueToSize env r.1 with
        | some out => PostfixCheck s out r.2
        | none => Outcome.null (s.emit Msg.InvalidPatchValueTypeError)
    else InvalidCharacterError
termination_by structural fuel

/-- The function `consume_value_impl`: the value written to `*out` and the
pointer returned.  `cur_value.type` starts as `PVT_DEFAULT`. -/
def consume_value_impl (env : Env) (fuel : Nat) (s : State) (expr : List Nat) :
    Outcome (Nat × List Nat) :=
  match fuel with
  | 0 => Outcome.fuel
  | fuel + 1 => consume_value_loop env fuel s expr (PVT_DEFAULT env.x64)
termination_by structural fuel

/-- The function `GetCodecaveAddress`. -/
def GetCodecaveAddress (env : Env) (fuel : Nat) (s : State) (name : List Nat)
    (name_length : Nat) (is_relative : Bool) : Outcome Nat :=
  match fuel with
  | 0 => Outcome.fuel
  | fuel + 1 =>
    let x64 := env.x64
    let user_offset_expr := memchr_plus name name_length
    let name_length_before_offset :=
      match user_offset_expr with
      | some e => PtrDiffStrlen x64 e name
      | none => name_length
    let key := name.take name_length_before_offset
    let cave_addr := env.func_get_len key
    let s := s.record (Event.func_get_len key)
    let relative (cave_addr : Nat) : Nat :=
      if is_relative then wrap x64 (cave_addr + (wordMod x64 - wrap x64 (env.rel_source + 4)))
      else cave_addr
    if cave_addr = 0 then Outcome.ok cave_addr (CodecaveNotFoundWarningMessage s key)
    else
      match user_offset_expr with
      | none => Outcome.ok (relative cave_addr) s
      | some e =>
        let user_offset_expr := e.drop 1
        let r := env.strtouz user_offset_expr 16
        if user_offset_expr = r.2 then
          match eval_expr_impl env fuel s user_offset_expr
              (if is_relative then ch ']' else ch '>') StartNoOp 0 with
          | Outcome.null s => Outcome.ok (relative cave_addr) (s.emit Msg.ExpressionError)
          | Outcome.trap s => Outcome.trap s
          | Outcome.fuel => Outcome.fuel
          | Outcome.ok v s => Outcome.ok (relative (wrap x64 (cave_addr + v.1))) s
        else Outcome.ok (relative (wrap x64 (cave_addr + r.1))) s
termination_by structural fuel

/-- The function `GetBPFuncOrRawAddress`. -/
def GetBPFuncOrRawAddress (env : Env) (fuel : Nat) (s : State) (name : List Nat)
    (name_length : Nat) (is_relative : Bool) : Outcome Nat :=
  match fuel with
  | 0 => Outcome.fuel
  | fuel + 1 =>
    let x64 := env.x64
    let addr := env.func_get_len (name.take name_length)
    let s := s.record (Event.func_get_len (name.take name_length))
    let relative (addr : Nat) : Nat :=
      if is_relative then wrap x64 (addr + (wordMod x64 - wrap x64 (env.rel_source + 4)))
      else addr
    if addr = 0 then
      match eval_expr_impl env fuel s name (if is_relative then ch ']' else ch '>') StartNoOp 0 with
      | Outcome.null s => Outcome.ok addr (s.emit Msg.ExpressionError)
      | Outcome.trap s => Outcome.trap s
      | Outcome.fuel => Outcome.fuel
      | Outcome.ok v s => Outcome.ok (relative v.1) s
    else Outcome.ok (relative addr) s
termination_by structural fuel

/-- The function `GetMultibyteNOP`.  The address held by `code.ptr` is not
modelled, only the string it points to. -/
def GetMultibyteNOP (env : Env) (fuel : Nat) (s : State) (name : List Nat) (end_char : Nat) :
    Outcome patch_val_t :=
  match fuel with
  | 0 => Outcome.fuel
  | fuel + 1 =>
    let finish (len : Nat) (s : State) : Outcome patch_val_t :=
      if len ≠ 0 then
        let r := if len > 15 then GetMultibyteNOP_loop len 15 env.uninitialised else (1, len)
        let row := NOP_Strings_Lookup.getD (b2n (env.CPUID_Data "Manufacturer == AMD")) []
        Outcome.ok ⟨PVT_CODE, 0, cstr (row.getD r.2 ""), r.2, r.1, env.uninitialised⟩ s
      else Outcome.ok ⟨PVT_CODE, env.uninitialised, [], len, 0, env.uninitialised⟩ s
    match eval_expr_impl env fuel s name end_char StartNoOp 0 with
    | Outcome.null s => finish 0 s
    | Outcome.trap s => Outcome.trap s
    | Outcome.fuel => Outcome.fuel
    | Outcome.ok v s => finish v.1 s
termination_by structural fuel

/-- The function `GetMultibyteInt3`: `code.len` is read before anything
was stored in it. -/
def GetMultibyteInt3 (env : Env) (fuel : Nat) (s : State) (name : List Nat) (end_char : Nat) :
    Outcome patch_val_t :=
  match fuel with
  | 0 => Outcome.fuel
  | fuel + 1 =>
    let finish (count : Nat) (s : State) : Outcome patch_val_t :=
      Outcome.ok ⟨PVT_CODE, 0, cstr "CC", b2n (decide (env.uninitialised ≠ 0)), count,
        env.uninitialised⟩ s
    match eval_expr_impl env fuel s name end_char StartNoOp 0 with
    | Outcome.null s => finish 0 s
    | Outcome.trap s => Outcome.trap s
    | Outcome.fuel => Outcome.fuel
    | Outcome.ok v s => finish v.1 s
termination_by structural fuel

/-- The function `get_patch_value_impl`: the value stored in `*out` and the
pointer returned; `out` is the content of `*out` on entry. -/
def get_patch_value_impl (env : Env) (fuel : Nat) (s : State) (expr : List Nat)
    (out : patch_val_t) : Outcome (patch_val_t × List Nat) :=
  match fuel with
  | 0 => Outcome.fuel
  | fuel + 1 =>
    let x64 := env.x64
    let is_relative := decide (peek expr 0 = ch '[')
    match find_matching_end x64 expr (if is_relative then ch '[' else ch '<')
        (if is_relative then ch ']' else ch '>') with
    | none => Outcome.null s
    | some patch_val_end =>
      let ret := patch_val_end.drop 1
      let expr := expr.drop 1
      let end_char := if is_relative then ch ']' else ch '>'
      let addrType := if is_relative then PVT_DWORD else PVT_POINTER x64
      if strnicmp_eq expr (cstr "codecave:") 9 then
        match GetCodecaveAddress env fuel s expr (PtrDiffStrlen x64 patch_val_end expr)
            is_relative with
        | Outcome.ok p s => Outcome.ok ({ out with type := addrType, raw := p }, ret) s
        | Outcome.null s => Outcome.null s
        | Outcome.trap s => Outcome.trap s
        | Outcome.fuel => Outcome.fuel
      else if strnicmp_eq expr (cstr "option:") 7 then
        let expr := expr.drop 7
        let r := GetOptionValue env s expr (PtrDiffStrlen x64 patch_val_end expr)
        match r.1 with
        | some option => Outcome.ok (option, ret) r.2
        | none => Outcome.ok ({ out with type := PVT_UNKNOWN }, ret) r.2
      else if strnicmp_eq expr (cstr "patch:") 6 then
        let r := GetPatchTestValue env s expr (PtrDiffStrlen x64 patch_val_end expr)
        Outcome.ok ({ out with type := PVT_DWORD, raw := r.1 }, ret) r.2
      else if strnicmp_eq expr (cstr "cpuid:") 6 then
        let expr := expr.drop 6
        let r := GetCPUFeatureTest env s expr (PtrDiffStrlen x64 patch_val_end expr)
        Outcome.ok ({ out with type := PVT_BOOL, raw := b2n r.1 }, ret) r.2
      else if strnicmp_eq expr (cstr "nop:") 4 then
        match GetMultibyteNOP env fuel s (expr.drop 4) end_char with
        | Outcome.ok v s => Outcome.ok (v, ret) s
        | Outcome.null s => Outcome.null s
        | Outcome.trap s => Outcome.trap s
        | Outcome.fuel => Outcome.fuel
      else if strnicmp_eq expr (cstr "int3:") 5 then
        match GetMultibyteInt3 env fuel s (expr.drop 5) end_char with
        | Outcome.ok v s => Outcome.ok (v, ret) s
        | Outcome.null s => Outcome.null s
        | Outcome.trap s => Outcome.trap s
        | Outcome.fuel => Outcome.fuel
      else
        match GetBPFuncOrRawAddress env fuel s expr (PtrDiffStrlen x64 patch_val_end expr)
            is_relative with
        | Outcome.ok p s => Outcome.ok ({ out with type := addrType, raw := p }, ret) s
        | Outcome.null s => Outcome.null s
        | Outcome.trap s => Outcome.trap s
        | Outcome.fuel => Outcome.fuel
termination_by structural fuel

/-- The function `eval_expr_impl`: the value written to `*out` and the
pointer returned. -/
def eval_expr_impl (env : Env) (fuel : Nat) (s : State) (expr : List Nat)
    (end_ start_op start_value : Nat) : Outcome (Nat × List Nat) :=
  match fuel with
  | 0 => Outcome.fuel
  | fuel + 1 => eval_expr_loop env fuel s expr end_ start_value start_op 0
termination_by structural fuel

/-- The do-while loop of `eval_expr_impl`, entered at the top of its body
with the locals `expr`, `end`, `value`, `ops_cur` and `cur_value`. -/
def eval_expr_loop (env : Env) (fuel : Nat) (s : State) (expr : List Nat)
    (end_ value ops_cur cur_value : Nat) : Outcome (Nat × List Nat) :=
  match fuel with
  | 0 => Outcome.fuel
  | fuel + 1 =>
    -- the operand
    let operand : Outcome (Nat × List Nat) :=
      if ops_cur ≠ NullOp then
        match consume_value_impl env fuel s expr with
        | Outcome.null s => Outcome.null (s.emit (Msg.InvalidValueError expr))
        | o => o
      else Outcome.ok (cur_value, expr) s
    match operand with
    | Outcome.null s => Outcome.null s
    | Outcome.trap s => Outcome.trap s
    | Outcome.fuel => Outcome.fuel
    | Outcome.ok r s =>
      let cur_value := r.1
      let expr := r.2
      let next := find_next_op_impl expr end_
      let ops_next := next.1
      let expr_next_op := next.2
      let cur_prec := Precedence ops_cur
      let next_prec := Precedence ops_next
      -- the code after the switch, and the loop condition
      let apply (s : State) (expr : List Nat) (end_ cur_value ops_next : Nat) :
          Outcome (Nat × List Nat) :=
        match ApplyOperator env.x64 env.uninitialised s value cur_value ops_cur with
        | Outcome.ok value s =>
          if peek expr 0 ≠ end_ then eval_expr_loop env fuel s expr end_ value ops_next cur_value
          else Outcome.ok (value, expr) s
        | Outcome.null s => Outcome.null s
        | Outcome.trap s => Outcome.trap s
        | Outcome.fuel => Outcome.fuel
      -- the code from the label `case TernaryConditional` on
      let ternary (s : State) (expr : List Nat) (cur_value : Nat) : Outcome (Nat × List Nat) :=
        if cur_value ≠ 0 then
          let branch : Outcome (Nat × List Nat) :=
            if peek expr 0 ≠ ch ':' then
              match eval_expr_impl env fuel s expr (ch ':') StartNoOp 0 with
              | Outcome.null s => Outcome.null (s.emit Msg.ExpressionError)
              | o => o
            else Outcome.ok (cur_value, expr) s
          match branch with
          | Outcome.ok r s =>
            match skip_value r.2 end_ with
            | some expr => apply s expr end_ r.1 ops_next
            | none => Outcome.null (s.emit Msg.ExpressionError)
          | Outcome.null s => Outcome.null s
          | Outcome.trap s => Outcome.trap s
          | Outcome.fuel => Outcome.fuel
        else
          match eval_expr_impl env fuel { s with DisableCodecaveNotFound := true } expr (ch ':')
              StartNoOp 0 with
          | Outcome.ok r s =>
            let s := { s with DisableCodecaveNotFound := false }
            match skipPastColon r.2 with
            | some expr =>
              if peek expr 0 ≠ end_ then
                eval_expr_loop env fuel s expr end_ value ops_cur cur_value
              else Outcome.ok (value, expr) s
            | none => Outcome.fuel
          | Outcome.null s =>
            Outcome.null ({ s with DisableCodecaveNotFound := false }.emit Msg.ExpressionError)
          | Outcome.trap s => Outcome.trap s
          | Outcome.fuel => Outcome.fuel
      if cur_prec < next_prec then
        let expr := expr_next_op
        if ops_next = TernaryConditional then ternary s expr cur_value
        else
          match eval_expr_impl env fuel s expr end_ ops_next cur_value with
          | Outcome.ok r s =>
            let cur_value := r.1
            let expr := r.2
            if peek expr 0 = ch '?' then ternary s (expr.drop 1) cur_value
            else if peek expr 0 ≠ end_ then apply s expr end_ cur_value NullOp
            else apply s expr end_ cur_value ops_next
          | Outcome.null s => Outcome.null (s.emit Msg.ExpressionError)
          | Outcome.trap s => Outcome.trap s
          | Outcome.fuel => Outcome.fuel
      else if cur_prec = next_prec then
        let expr := expr_next_op
        if u8 (cur_prec + 256 - Precedence Assign) ≤ Precedence TernaryConditional - Precedence Assign
        then
          match eval_expr_impl env fuel s expr end_ ops_next cur_value with
          | Outcome.ok r s => apply s r.2 end_ r.1 ops_next
          | Outcome.null s => Outcome.null (s.emit Msg.ExpressionError)
          | Outcome.trap s => Outcome.trap s
          | Outcome.fuel => Outcome.fuel
        else apply s expr end_ cur_value ops_next
      else apply s expr (peek expr 0) cur_value ops_next
termination_by structural fuel

end

/-- The function `eval_expr`: the pointer returned (`none` for null) and the
content of `*out` on return. -/
def eval_expr (env : Env) (fuel : Nat) (s : State) (expr : List Nat) (end_ : Nat) :
    Outcome (Option (List Nat) × Nat) :=
  match eval_expr_impl env fuel s expr end_ StartNoOp 0 with
  | Outcome.ok r s => Outcome.ok (some r.2, r.1) s
  | Outcome.null s => Outcome.ok (none, 0) (s.emit Msg.ExpressionError)
  | Outcome.trap s => Outcome.trap s
  | Outcome.fuel => Outcome.fuel

/-! ## A concrete environment -/

/-- Value of a digit character in a base, if it is one. -/
def digitValue (base c : Nat) : Option Nat :=
  let v :=
    if ch '0' ≤ c ∧ c ≤ ch '9' then c - ch '0'
    else if ch 'a' ≤ c ∧ c ≤ ch 'f' then c - ch 'a' + 10
    else if ch 'A' ≤ c ∧ c ≤ ch 'F' then c - ch 'A' + 10
    else base
  if v < base then some v else none

/-- Reads the longest run of digits of the base: the number read so far
and the rest of the string. -/
def readDigits (base : Nat) : List Nat → Nat → Nat × List Nat
  | [], acc => (acc, [])
  | c :: t, acc =>
    match digitValue base c with
    | some v => readDigits base t (acc * base + v)
    | none => (acc, c :: t)

/-- Modelled from the spec: `str_address_value` is defined outside of the
sources at hand.  The spec has it read a numeric literal, "hex with `0x`,
decimal, octal with leading `0`; overflow is a hard error", and resolve
module-relative hex addresses (`Rx`) against `current_module`.  The result
is the value, the end pointer (the start pointer when nothing was read)
and the overflow bit. -/
def str_address_value (x64 : Bool) (str : List Nat) (current_module : Nat) :
    Nat × List Nat × Bool :=
  let c0 := peek str 0
  let c1 := peek str 1
  let hex (base_addr : Nat) : Nat × List Nat × Bool :=
    let r := readDigits 16 (str.drop 2) 0
    if r.2 = str.drop 2 then (0, str, false)
    else (wrap x64 (base_addr + r.1), r.2, decide (wordMod x64 ≤ base_addr + r.1))
  if (c0 = ch 'R' ∨ c0 = ch 'r') ∧ (c1 = ch 'x' ∨ c1 = ch 'X') then hex current_module
  else if c0 = ch '0' ∧ (c1 = ch 'x' ∨ c1 = ch 'X') then hex 0
  else
    let r := readDigits (if c0 = ch '0' then 8 else 10) str 0
    (wrap x64 r.1, r.2, decide (wordMod x64 ≤ r.1))

/-- Modelled from the spec: `strtouz` is defined outside of the sources at
hand; `GetCodecaveAddress` uses it to read a hex offset ("`OFFSET` is
parsed first as hex"). -/
def strtouz (x64 : Bool) (str : List Nat) (base : Nat) : Nat × List Nat :=
  let r := readDigits base str 0
  (wrap x64 r.1, r.2)

/-- An environment without a register bank (`regs` is null), with
`rel_source = 0`, an empty option store and an empty function registry. -/
def plainEnv (x64 : Bool) : Env where
  x64 := x64
  regs := 0
  rel_source := 0
  current_module := 0
  mem := fun _ => 0
  str_address_value := str_address_value x64
  strtouz := strtouz x64
  patch_opt_get_len := fun _ => none
  func_get_len := fun _ => 0
  CPUID_Data := fun _ => false
  float_to_size := fun _ => 0
  double_to_size := fun _ => 0
  longdouble_to_size := fun _ => 0
  uninitialised := 0

/-- The function `get_patch_value`: the pointer returned (`none` for null)
and the content of `*out` on return; `out` is the content of `*out` on
entry.  After a failure `out->type` is `PVT_DEFAULT` and `out->z` is 0. -/
def get_patch_value (env : Env) (fuel : Nat) (s : State) (expr : List Nat) (out : patch_val_t) :
    Outcome (Option (List Nat) × patch_val_t) :=
  match get_patch_value_impl env fuel s expr out with
  | Outcome.ok r s => Outcome.ok (some r.2, r.1) s
  | Outcome.null s =>
    Outcome.ok (none, { out with type := PVT_DEFAULT env.x64, raw := 0 })
      (s.emit Msg.ExpressionError)
  | Outcome.trap s => Outcome.trap s
  | Outcome.fuel => Outcome.fuel

/-! ## Arithmetic on tagged values -/

/-- What the functions on tagged values use but the source does not
define: the floating point arithmetic of the processor on the bit patterns
of the members `f`, `d` and `ld` (operator character, tag, the two
patterns), the result of an expression that C leaves undefined (operator
character, tag, the two operands), and the content of an uninitialised
local of type `patch_val_t`. -/
structure ValueMachine where
  float_op : Nat → Nat → Nat → Nat → Nat
  undefined : Nat → Nat → Int → Int → Int
  uninitialised : patch_val_t

/-- The integer member that a `case` of `MakePatchOpFunc` reads and writes
for a tag: its width in bits and whether it is signed. -/
def integerMember (type : Nat) : Option (Nat × Bool) :=
  if type = PVT_BYTE then some (8, false)
  else if type = PVT_SBYTE then some (8, true)
  else if type = PVT_WORD then some (16, false)
  else if type = PVT_SWORD then some (16, true)
  else if type = PVT_DWORD then some (32, false)
  else if type = PVT_SDWORD then some (32, true)
  else if type = PVT_QWORD then some (64, false)
  else if type = PVT_SQWORD then some (64, true)
  else none

/-- The floating point member for a tag (`f`, `d`, `ld`): its width in
bits. -/
def floatMember (type : Nat) : Option Nat :=
  if type = PVT_FLOAT then some 32
  else if type = PVT_DOUBLE then some 64
  else if type = PVT_LONGDOUBLE then some 80
  else none

/-- Width of the type in which C computes with a member: `int` after the
integer promotions for the members narrower than `int`. -/
def promotedBits (bits : Nat) : Nat := if bits = 64 then 64 else 32

/-- The value of an integer member of the union. -/
def readMember (bits : Nat) (signed : Bool) (v : patch_val_t) : Int :=
  let t := v.raw % 2 ^ bits
  if signed ∧ 2 ^ (bits - 1) ≤ t then (t : Int) - 2 ^ bits else t

/-- A store to a member of the union of `ret`: the low `bits` bits of the
union take the value, converted to the type of the member; everything else
in `ret` is kept. -/
def writeMember (bits : Nat) (ret : patch_val_t) (x : Int) : patch_val_t :=
  { ret with raw := ret.raw / 2 ^ bits * 2 ^ bits + (x % 2 ^ bits).toNat }

/-- The body that `MakePatchOpFunc(op_name, op)` generates.  `int_op` is the
operator on the promoted operands, given the width and signedness of the
member (`none` is an exception of the processor); `float_char` is the
operator character while `PatchOpFloatVals` has its cases and `none` after
it was redefined as empty.  The local `ret` is uninitialised apart from
what the function stores.  Signed arithmetic is taken modulo the width on
the store, as the arithmetic instructions of the processor compute it. -/
def MakePatchOpFunc (m : ValueMachine) (int_op : Nat → Bool → Int → Int → Option Int)
    (float_char : Option Nat) (Val1 Val2 : patch_val_t) : Option patch_val_t :=
  let ret : patch_val_t := { m.uninitialised with type := Val1.type }
  match integerMember Val1.type with
  | some (bits, signed) =>
    match int_op bits signed (readMember bits signed Val1) (readMember bits signed Val2) with
    | some x => some (writeMember bits ret x)
    | none => none
  | none =>
    match floatMember Val1.type, float_char with
    | some bits, some c =>
      some (writeMember bits ret
        (m.float_op c Val1.type (Val1.raw % 2 ^ bits) (Val2.raw % 2 ^ bits)))
    | _, _ => some { ret with type := PVT_NONE }

/-- The two's complement pattern of an integer in 64 bits, on which the
bitwise operators are computed. -/
def bits64 (x : Int) : Nat := (x % 2 ^ 64).toNat

/-- The operators `/` and `%` of C on the promoted operands: the quotient
is truncated toward zero; the processor raises an exception for a zero
divisor and for the quotient of the least `int` or `long long` by -1. -/
def divisionTraps (bits : Nat) (signed : Bool) (a b : Int) : Bool :=
  decide (b = 0) || (signed && decide (bits = promotedBits bits)
    && decide (a = -(2 ^ (bits - 1))) && decide (b = -1))

def patch_val_add (m : ValueMachine) (Val1 Val2 : patch_val_t) : Option patch_val_t :=
  MakePatchOpFunc m (fun _ _ a b => some (a + b)) (some (ch '+')) Val1 Val2

def patch_val_sub (m : ValueMachine) (Val1 Val2 : patch_val_t) : Option patch_val_t :=
  MakePatchOpFunc m (fun _ _ a b => some (a - b)) (some (ch '-')) Val1 Val2

def patch_val_mul (m : ValueMachine) (Val1 Val2 : patch_val_t) : Option patch_val_t :=
  MakePatchOpFunc m (fun _ _ a b => some (a * b)) (some (ch '*')) Val1 Val2

def patch_val_div (m : ValueMachine) (Val1 Val2 : patch_val_t) : Option patch_val_t :=
  MakePatchOpFunc m
    (fun bits signed a b => if divisionTraps bits signed a b then none else some (Int.tdiv a b))
    (some (ch '/')) Val1 Val2

def patch_val_mod (m : ValueMachine) (Val1 Val2 : patch_val_t) : Option patch_val_t :=
  MakePatchOpFunc m
    (fun bits signed a b => if divisionTraps bits signed a b then none else some (Int.tmod a b))
    none Val1 Val2

/-- The function `patch_val_shl`, made with the operator `<<`: defined by C
for a count from 0 to one less than the width of the promoted left
operand. -/
def patch_val_shl (m : ValueMachine) (Val1 Val2 : patch_val_t) : Option patch_val_t :=
  MakePatchOpFunc m
    (fun bits _ a b =>
      if 0 ≤ b ∧ b < promotedBits bits then some (a * 2 ^ b.toNat)
      else some (m.undefined (ch '<') Val1.type a b))
    none Val1 Val2

/-- The function `patch_val_shr`, made with the operator `>>`: the shift of
a signed operand keeps the sign. -/
def patch_val_shr (m : ValueMachine) (Val1 Val2 : patch_val_t) : Option patch_val_t :=
  MakePatchOpFunc m
    (fun bits _ a b =>
      if 0 ≤ b ∧ b < promotedBits bits then some (a / 2 ^ b.toNat)
      else some (m.undefined (ch '>') Val1.type a b))
    none Val1 Val2

def patch_val_and (m : ValueMachine) (Val1 Val2 : patch_val_t) : Option patch_val_t :=
  MakePatchOpFunc m (fun _ _ a b => some (Nat.land (bits64 a) (bits64 b))) none Val1 Val2

def patch_val_or (m : ValueMachine) (Val1 Val2 : patch_val_t) : Option patch_val_t :=
  MakePatchOpFunc m (fun _ _ a b => some (Nat.lor (bits64 a) (bits64 b))) none Val1 Val2

def patch_val_xor (m : ValueMachine) (Val1 Val2 : patch_val_t) : Option patch_val_t :=
  MakePatchOpFunc m (fun _ _ a b => some (Nat.xor (bits64 a) (bits64 b))) none Val1 Val2

/-- The function `patch_val_rol`: `Val1 << Val2 | Val1 >> (width - Val2)` on
the promoted operands; both shifts have to be defined. -/
def patch_val_rol (m : ValueMachine) (Val1 Val2 : patch_val_t) : Option patch_val_t :=
  MakePatchOpFunc m
    (fun bits _ a b =>
      if 0 ≤ b ∧ b < promotedBits bits ∧ b ≤ bits ∧ (bits : Int) - b < promotedBits bits then
        some (Nat.lor (bits64 (a * 2 ^ b.toNat)) (bits64 (a / 2 ^ (bits - b.toNat))))
      else some (m.undefined (ch 'l') Val1.type a b))
    none Val1 Val2

/-- The function `patch_val_ror`: `Val1 >> Val2 | Val1 << (width - Val2)`. -/
def patch_val_ror (m : ValueMachine) (Val1 Val2 : patch_val_t) : Option patch_val_t :=
  MakePatchOpFunc m
    (fun bits _ a b =>
      if 0 ≤ b ∧ b < promotedBits bits ∧ b ≤ bits ∧ (bits : Int) - b < promotedBits bits then
        some (Nat.lor (bits64 (a / 2 ^ b.toNat)) (bits64 (a * 2 ^ (bits - b.toNat))))
      else some (m.undefined (ch 'r') Val1.type a b))
    none Val1 Val2

/-- The function `patch_val_not`: the member `q` is complemented, whatever
the tag. -/
def patch_val_not (Val : patch_val_t) : patch_val_t :=
  { Val with raw := Val.raw / 2 ^ 64 * 2 ^ 64 + (2 ^ 64 - 1 - Val.raw % 2 ^ 64) }

/-- The function `patch_val_set_op`; a null `op_str` is `none`. -/
def patch_val_set_op (op_str : Option (List Nat)) (Val : patch_val_t) : patch_val_t :=
  match op_str with
  | some text =>
    let op := (find_next_op_impl text 0).1
    if op = MultiplyAssign ∨ op = DivideAssign ∨ op = ModuloAssign ∨ op = AddAssign
        ∨ op = SubtractAssign ∨ op = ArithmeticLeftShiftAssign ∨ op = LogicalLeftShiftAssign
        ∨ op = ArithmeticRightShiftAssign ∨ op = LogicalRightShiftAssign
        ∨ op = CircularLeftShiftAssign ∨ op = CircularRightShiftAssign ∨ op = AndAssign
        ∨ op = NandAssign ∨ op = XorAssign ∨ op = XnorAssign ∨ op = OrAssign ∨ op = NorAssign then
      { Val with merge_op := u8 (op + 256 - ch '=') }
    else if op = Multiply ∨ op = Divide ∨ op = Modulo ∨ op = Add ∨ op = Subtract
        ∨ op = ArithmeticLeftShift ∨ op = LogicalLeftShift ∨ op = ArithmeticRightShift
        ∨ op = LogicalRightShift ∨ op = CircularLeftShift ∨ op = CircularRightShift
        ∨ op = BitwiseAnd ∨ op = BitwiseNand ∨ op = BitwiseXor ∨ op = BitwiseXnor
        ∨ op = BitwiseOr ∨ op = BitwiseNor then
      { Val with merge_op := op }
    else { Val with merge_op := Add }
  | none => { Val with merge_op := Add }

/-- The function `patch_val_op_str`: the value returned and the lines sent
to the log, or `none` for an exception of the processor; a null `op_str`
is `none`.  The local `bad_ret` is uninitialised apart from its tag. -/
def patch_val_op_str (m : ValueMachine) (op_str : Option (List Nat)) (Val1 Val2 : patch_val_t) :
    Option (patch_val_t × List String) :=
  let op :=
    match op_str with
    | some text => (find_next_op_impl text 0).1
    | none => Val1.merge_op
  let quiet (r : Option patch_val_t) : Option (patch_val_t × List String) :=
    r.map (fun v => (v, []))
  let bad_ret (log : List String) : Option (patch_val_t × List String) :=
    some ({ m.uninitialised with type := PVT_NONE }, log)
  if op = MultiplyAssign ∨ op = Multiply then quiet (patch_val_mul m Val1 Val2)
  else if op = DivideAssign ∨ op = Divide then quiet (patch_val_div m Val1 Val2)
  else if op = ModuloAssign ∨ op = Modulo then quiet (patch_val_mod m Val1 Val2)
  else if op = AddAssign ∨ op = Add then quiet (patch_val_add m Val1 Val2)
  else if op = SubtractAssign ∨ op = Subtract then quiet (patch_val_sub m Val1 Val2)
  else if op = ArithmeticLeftShiftAssign ∨ op = ArithmeticLeftShift
      ∨ op = LogicalLeftShiftAssign ∨ op = LogicalLeftShift then
    quiet (patch_val_shr m Val1 Val2)
  else if op = ArithmeticRightShiftAssign ∨ op = ArithmeticRightShift
      ∨ op = LogicalRightShiftAssign ∨ op = LogicalRightShift then
    quiet (patch_val_shl m Val1 Val2)
  else if op = CircularLeftShiftAssign ∨ op = CircularLeftShift then
    quiet (patch_val_rol m Val1 Val2)
  else if op = CircularRightShiftAssign ∨ op = CircularRightShift then
    quiet (patch_val_ror m Val1 Val2)
  else if op = AndAssign ∨ op = BitwiseAnd then quiet (patch_val_and m Val1 Val2)
  else if op = NandAssign ∨ op = BitwiseNand then
    quiet ((patch_val_and m Val1 Val2).map patch_val_not)
  else if op = XorAssign ∨ op = BitwiseXor then quiet (patch_val_xor m Val1 Val2)
  else if op = XnorAssign ∨ op = BitwiseXnor then
    quiet ((patch_val_xor m Val1 Val2).map patch_val_not)
  else if op = OrAssign ∨ op = BitwiseOr then quiet (patch_val_or m Val1 Val2)
  else if op = NorAssign ∨ op = BitwiseNor then
    quiet ((patch_val_or m Val1 Val2).map patch_val_not)
  else if op = ThreeWay ∨ op = Less ∨ op = LessEqual ∨ op = Greater ∨ op = GreaterEqual
      ∨ op = Equal ∨ op = NotEqual ∨ op = LogicalAnd ∨ op = LogicalNand ∨ op = LogicalXor
      ∨ op = LogicalXnor ∨ op = LogicalOr ∨ op = LogicalNor then
    bad_ret ["Options cannot use logical or comparison operators!\n"]
  else if op = Assign then bad_ret ["Options cannot use assignment!\n"]
  else if op = Comma ∨ op = Gomma then bad_ret ["but why tho\n"]
  else bad_ret []

/-! ## Definitions used to state the properties -/

/-- The comparison and logical opcodes of `ApplyOperator`. -/
def comparisonAndLogicalOps : List Nat :=
  [Less, LessEqual, Greater, GreaterEqual, Equal, NotEqual,
   LogicalAnd, LogicalNand, LogicalXor, LogicalXnor, LogicalOr, LogicalNor]

/-- The text `t`, followed by `rest`, is read by the literal parser of `env`
as a literal of value `v` that ends where `rest` starts; the text starts
with a decimal digit, so that `consume_value_impl` takes it as a raw value. -/
structure LiteralAt (env : Env) (t : List Nat) (v : Nat) (rest : List Nat) : Prop where
  digit : ch '0' ≤ peek t 0 ∧ peek t 0 ≤ ch '9'
  parse : env.str_address_value (t ++ rest) env.current_module = (v, rest, false)

/-- The end of a turn of the loop of `eval_expr_impl`: the operator is
applied, and the loop goes on unless the cursor is on `end`. -/
def applyThen (env : Env) (fuel value ops_cur : Nat) (s : State) (expr : List Nat)
    (end_ cur_value ops_next : Nat) : Outcome (Nat × List Nat) :=
  match ApplyOperator env.x64 env.uninitialised s value cur_value ops_cur with
  | Outcome.ok value s =>
    if peek expr 0 ≠ end_ then eval_expr_loop env fuel s expr end_ value ops_next cur_value
    else Outcome.ok (value, expr) s
  | Outcome.null s => Outcome.null s
  | Outcome.trap s => Outcome.trap s
  | Outcome.fuel => Outcome.fuel

/-- The turn of the loop from the label `case TernaryConditional` on. -/
def ternaryThen (env : Env) (fuel value ops_cur end_ ops_next : Nat) (s : State)
    (expr : List Nat) (cur_value : Nat) : Outcome (Nat × List Nat) :=
  if cur_value ≠ 0 then
    let branch : Outcome (Nat × List Nat) :=
      if peek expr 0 ≠ ch ':' then
        match eval_expr_impl env fuel s expr (ch ':') StartNoOp 0 with
        | Outcome.null s => Outcome.null (s.emit Msg.ExpressionError)
        | o => o
      else Outcome.ok (cur_value, expr) s
    match branch with
    | Outcome.ok r s =>
      match skip_value r.2 end_ with
      | some expr => applyThen env fuel value ops_cur s expr end_ r.1 ops_next
      | none => Outcome.null (s.emit Msg.ExpressionError)
    | Outcome.null s => Outcome.null s
    | Outcome.trap s => Outcome.trap s
    | Outcome.fuel => Outcome.fuel
  else
    match eval_expr_impl env fuel { s with DisableCodecaveNotFound := true } expr (ch ':')
        StartNoOp 0 with
    | Outcome.ok r s =>
      let s := { s with DisableCodecaveNotFound := false }
      match skipPastColon r.2 with
      | some expr =>
        if peek expr 0 ≠ end_ then
          eval_expr_loop env fuel s expr end_ value ops_cur cur_value
        else Outcome.ok (value, expr) s
      | none => Outcome.fuel
    | Outcome.null s =>
      Outcome.null ({ s with DisableCodecaveNotFound := false }.emit Msg.ExpressionError)
    | Outcome.trap s => Outcome.trap s
    | Outcome.fuel => Outcome.fuel

/-- What the loop does with the result of the recursive call made for an
operator that binds tighter than the current one. -/
def afterLower (env : Env) (fuel value ops_cur end_ ops_next : Nat)
    (r : Outcome (Nat × List Nat)) : Outcome (Nat × List Nat) :=
  match r with
  | Outcome.ok r s =>
    if peek r.2 0 = ch '?' then ternaryThen env fuel value ops_cur end_ ops_next s (r.2.drop 1) r.1
    else if peek r.2 0 ≠ end_ then applyThen env fuel value ops_cur s r.2 end_ r.1 NullOp
    else applyThen env fuel value ops_cur s r.2 end_ r.1 ops_next
  | Outcome.null s => Outcome.null (s.emit Msg.ExpressionError)
  | Outcome.trap s => Outcome.trap s
  | Outcome.fuel => Outcome.fuel

/-- What the loop does with the result of the recursive call made for an
operator of the same precedence in the right-associative band. -/
def afterSame (env : Env) (fuel value ops_cur end_ ops_next : Nat)
    (r : Outcome (Nat × List Nat)) : Outcome (Nat × List Nat) :=
  match r with
  | Outcome.ok r s => applyThen env fuel value ops_cur s r.2 end_ r.1 ops_next
  | Outcome.null s => Outcome.null (s.emit Msg.ExpressionError)
  | Outcome.trap s => Outcome.trap s
  | Outcome.fuel => Outcome.fuel

/-- The test of the evaluator for a right-associative operator. -/
def inRightBand (prec : Nat) : Prop :=
  u8 (prec + 256 - Precedence Assign) ≤ Precedence TernaryConditional - Precedence Assign

instance (prec : Nat) : Decidable (inRightBand prec) := by unfold inRightBand; infer_instance

/-- The turn of the loop after the operand was obtained. -/
def afterOperand (env : Env) (fuel : Nat) (s : State) (expr : List Nat)
    (end_ value ops_cur cur_value : Nat) : Outcome (Nat × List Nat) :=
  let next := find_next_op_impl expr end_
  if Precedence ops_cur < Precedence next.1 then
    if next.1 = TernaryConditional then
      ternaryThen env fuel value ops_cur end_ next.1 s next.2 cur_value
    else afterLower env fuel value ops_cur end_ next.1
      (eval_expr_impl env fuel s next.2 end_ next.1 cur_value)
  else if Precedence ops_cur = Precedence next.1 then
    if inRightBand (Precedence ops_cur) then
      afterSame env fuel value ops_cur end_ next.1
        (eval_expr_impl env fuel s next.2 end_ next.1 cur_value)
    else applyThen env fuel value ops_cur s next.2 end_ cur_value next.1
  else applyThen env fuel value ops_cur s expr (peek expr 0) cur_value next.1

/-- The operand step of a turn of the loop. -/
def operandOf (env : Env) (fuel : Nat) (s : State) (expr : List Nat) (ops_cur cur_value : Nat) :
    Outcome (Nat × List Nat) :=
  if ops_cur ≠ NullOp then
    match consume_value_impl env fuel s expr with
    | Outcome.null s => Outcome.null (s.emit (Msg.InvalidValueError expr))
    | o => o
  else Outcome.ok (cur_value, expr) s

/-- The binary operators of the expression language with their spellings:
every operator of the tokenizer except the ternary `?`. -/
def binaryOperators : List (String × Nat) :=
  [ ("**", Power), ("*", Multiply), ("/", Divide), ("%", Modulo), ("+", Add), ("-", Subtract),
    ("<<", ArithmeticLeftShift), (">>", ArithmeticRightShift), ("<<<", LogicalLeftShift),
    (">>>", LogicalRightShift), ("r<<", CircularLeftShift), ("r>>", CircularRightShift),
    ("<", Less), ("<=", LessEqual), (">", Greater), (">=", GreaterEqual),
    ("==", Equal), ("!=", NotEqual), ("<=>", ThreeWay),
    ("&", BitwiseAnd), ("~&", BitwiseNand), ("^", BitwiseXor), ("~^", BitwiseXnor),
    ("|", BitwiseOr), ("~|", BitwiseNor),
    ("&&", LogicalAnd), ("!&&", LogicalNand), ("^^", LogicalXor), ("!^^", LogicalXnor),
    ("||", LogicalOr), ("!||", LogicalNor),
    ("=", Assign), ("+=", AddAssign), ("-=", SubtractAssign), ("*=", MultiplyAssign),
    ("/=", DivideAssign), ("%=", ModuloAssign), ("<<=", ArithmeticLeftShiftAssign),
    (">>=", ArithmeticRightShiftAssign), ("<<<=", LogicalLeftShiftAssign),
    (">>>=", LogicalRightShiftAssign), ("r<<=", CircularLeftShiftAssign),
    ("r>>=", CircularRightShiftAssign), ("&=", AndAssign), ("|=", OrAssign), ("^=", XorAssign),
    ("~&=", NandAssign), ("~^=", XnorAssign), ("~|=", NorAssign),
    (",", Comma), (";", Gomma) ]

/-- The text `p`, followed by a blank, is read by the tokenizer (with the
end character NUL) as the operator `op`, and the cursor is left on the
blank. -/
def Spells (p : List Nat) (op : Nat) : Prop :=
  ∀ (expr R : List Nat), find_next_op_loop expr 0 (p ++ 32 :: R) = (op, 32 :: R)

/-- A value with the cursor it was obtained at. -/
def finish (o : Outcome Nat) (e : List Nat) : Outcome (Nat × List Nat) :=
  match o with
  | Outcome.ok v s => Outcome.ok (v, e) s
  | Outcome.null s => Outcome.null s
  | Outcome.trap s => Outcome.trap s
  | Outcome.fuel => Outcome.fuel

/-- An outcome that is a value or a division by zero. -/
def Outcome.okOrTrap {α : Type} (o : Outcome α) : Prop :=
  match o with
  | Outcome.ok _ _ => True
  | Outcome.trap _ => True
  | _ => False

/-- The value of `(a o1 b) o2 c`. -/
def leftGrouping (x64 : Bool) (u : Nat) (s : State) (a b c o1 o2 : Nat) : Outcome Nat :=
  (ApplyOperator x64 u s a b o1).bind (fun v s1 => ApplyOperator x64 u s1 v c o2)

/-- The value of `a o1 (b o2 c)`. -/
def rightGrouping (x64 : Bool) (u : Nat) (s : State) (a b c o1 o2 : Nat) : Outcome Nat :=
  (ApplyOperator x64 u s b c o2).bind (fun v s1 => ApplyOperator x64 u s1 a v o1)

/-- The result of `eval_expr` that returns a value with the cursor on the
terminating NUL. -/
def atEnd (o : Outcome Nat) : Outcome (Option (List Nat) × Nat) :=
  o.bind (fun v s => Outcome.ok (some [0], v) s)

/-- The text `ta p1 tb p2 tc` with single blanks between the five pieces and
the terminating NUL. -/
def tripleText (ta p1 tb p2 tc : List Nat) : List Nat :=
  ta ++ 32 :: (p1 ++ 32 :: (tb ++ 32 :: (p2 ++ 32 :: (tc ++ [0]))))

/-- A text without NUL and without grouping brackets. -/
def Plain (t : List Nat) : Prop :=
  ∀ x ∈ t, x ≠ 0 ∧ x ≠ ch '(' ∧ x ≠ ch '[' ∧ x ≠ ch ')' ∧ x ≠ ch ']'

instance (t : List Nat) : Decidable (Plain t) := by unfold Plain; infer_instance

/-- The environment `plainEnv` with one patch option, `foo`, a dword of
value 42. -/
def optionEnv (x64 : Bool) : Env :=
  { plainEnv x64 with
    patch_opt_get_len := fun name =>
      if name = txt "foo" then some ⟨PVT_DWORD, 42, [], 0, 0, 0⟩ else none }

/-- The logical operators that the claim about short-circuit evaluation
names, with their spellings. -/
def shortCircuitCandidates : List (String × Nat) :=
  [("&&", LogicalAnd), ("||", LogicalOr), ("!&&", LogicalNand), ("!||", LogicalNor)]

/-- The integer casts: spelling, width in bits, and whether the type is
signed.  The first letter is accepted in both cases. -/
def integerCasts : List (String × Nat × Bool) :=
  [ ("I8", 8, true), ("U8", 8, false), ("I16", 16, true), ("U16", 16, false),
    ("I32", 32, true), ("U32", 32, false), ("I64", 64, true), ("U64", 64, false),
    ("i8", 8, true), ("u8", 8, false), ("i16", 16, true), ("u16", 16, false),
    ("i32", 32, true), ("u32", 32, false), ("i64", 64, true), ("u64", 64, false) ]

/-- The low `bits` bits of `x`, sign-extended or zero-extended to a machine
word. -/
def castResult (x64 : Bool) (bits : Nat) (signed : Bool) (x : Nat) : Nat :=
  if signed then signExtend x64 bits x else wrap x64 (x % 2 ^ bits)

/-- The tag that `CheckCastType` gives to an integer cast. -/
def integerCastTag (bits : Nat) (signed : Bool) : Nat :=
  (if bits = 8 then 1 else if bits = 16 then 3 else if bits = 32 then 5 else 7) + b2n signed

/-- What the value consumer makes of a patch value: the conversion by its
tag, or the failure for a tag without a conversion. -/
def patchValueOperand (env : Env) (s1 : State) (v : patch_val_t) (rest : List Nat) :
    Outcome (Nat × List Nat) :=
  match patchValueToSize env v with
  | some out => PostfixCheck s1 out rest
  | none => Outcome.null (s1.emit Msg.InvalidPatchValueTypeError)

/-- The characters of a name inside the brackets `open_` ... `close`: no
NUL and neither of the two brackets. -/
def NameChars (open_ close : Nat) (N : List Nat) : Prop :=
  ∀ c ∈ N, c ≠ 0 ∧ c ≠ open_ ∧ c ≠ close

instance (open_ close : Nat) (N : List Nat) : Decidable (NameChars open_ close N) := by
  unfold NameChars; infer_instance

/-- The integer tags of a patch value: tag, width in bits, and whether the
member read for the tag is signed. -/
def integerTags : List (Nat × Nat × Bool) :=
  [ (PVT_BYTE, 8, false), (PVT_SBYTE, 8, true), (PVT_WORD, 16, false), (PVT_SWORD, 16, true),
    (PVT_DWORD, 32, false), (PVT_SDWORD, 32, true), (PVT_QWORD, 64, false),
    (PVT_SQWORD, 64, true) ]

/-- The plain environment whose option store has one entry, `big`, a qword
with the value 0x100000001. -/
def qwordOptionEnv (x64 : Bool) : Env :=
  { plainEnv x64 with
    patch_opt_get_len := fun name =>
      if name = txt "big" then some ⟨PVT_QWORD, 0x100000001, [], 0, 0, 0⟩ else none }

/-- The integer that the low `bits` bits of `raw` denote: the number itself
for an unsigned tag, the two's complement reading for a signed tag. -/
def memberValue (bits : Nat) (signed : Bool) (raw : Nat) : Int :=
  if signed ∧ 2 ^ (bits - 1) ≤ raw % 2 ^ bits then
    ((raw % 2 ^ bits : Nat) : Int) - ((2 ^ bits : Nat) : Int)
  else ((raw % 2 ^ bits : Nat) : Int)

/-- An integer member converted to `size_t`: the residue of its value
modulo `2 ^ W`. -/
def widened (x64 : Bool) (bits : Nat) (signed : Bool) (raw : Nat) : Nat :=
  (memberValue bits signed raw % ((wordMod x64 : Nat) : Int)).toNat

/-- The plain environment whose option store has the signed byte `neg`
(0xFF), the signed word `pos` (0x7FFF), the signed dword `min` (0x80000000)
and the unsigned byte `ub` (0xFF). -/
def signedOptionEnv (x64 : Bool) : Env :=
  { plainEnv x64 with
    patch_opt_get_len := fun name =>
      if name = txt "neg" then some ⟨PVT_SBYTE, 0xFF, [], 0, 0, 0⟩
      else if name = txt "pos" then some ⟨PVT_SWORD, 0x7FFF, [], 0, 0, 0⟩
      else if name = txt "min" then some ⟨PVT_SDWORD, 0x80000000, [], 0, 0, 0⟩
      else if name = txt "ub" then some ⟨PVT_BYTE, 0xFF, [], 0, 0, 0⟩
      else none }

/-- The state after the failed evaluation of an expression `E` whose first
operand is `<option:N>` with `N` not in the option store: the lookup, the
message of `GetOptionValue`, and the messages of the three failing levels. -/
def optionMissingState (s : State) (N E : List Nat) : State :=
  ((((s.record (Event.patch_opt_get_len N)).emit (Msg.OptionNotFoundError N)).emit
    Msg.InvalidPatchValueTypeError).emit (Msg.InvalidValueError E)).emit Msg.ExpressionError

/-- The difference `target - (rel_source + 4)` modulo the machine word. -/
def relativeAddress (x64 : Bool) (target rel_source : Nat) : Nat :=
  (((target : Int) - ((rel_source : Int) + 4)) % (wordMod x64 : Int)).toNat

/-- The plain environment with the given `rel_source` and one function
registered, `codecave:bar` at 0x2000. -/
def caveEnv (x64 : Bool) (rel_source : Nat) : Env :=
  { plainEnv x64 with
    rel_source := rel_source
    func_get_len := fun name => if name = txt "codecave:bar" then 0x2000 else 0 }

/-- What `GetCodecaveAddress` returns for a found address: the address
itself, or for a relative patch value its distance from `rel_source + 4`. -/
def codecaveValue (env : Env) (is_relative : Bool) (addr : Nat) : Nat :=
  if is_relative then relativeAddress env.x64 addr env.rel_source else addr

/-- The opening and closing bracket of a patch value. -/
def bracketOpen (is_relative : Bool) : Nat := if is_relative then ch '[' else ch '<'

def bracketClose (is_relative : Bool) : Nat := if is_relative then ch ']' else ch '>'

/-- The tag that `get_patch_value_impl` gives to an address. -/
def addressTag (x64 : Bool) (is_relative : Bool) : Nat :=
  if is_relative then PVT_DWORD else PVT_POINTER x64

/-- The characters allowed here in the name of a codecave: no NUL, no
bracket of a patch value and no `+`. -/
def CaveName (NAME : List Nat) : Prop :=
  ∀ c ∈ NAME, c ≠ 0 ∧ c ≠ 91 ∧ c ≠ 93 ∧ c ≠ 60 ∧ c ≠ 62 ∧ c ≠ 43

instance (NAME : List Nat) : Decidable (CaveName NAME) := by unfold CaveName; infer_instance

/-- The plain environment whose option store has one entry, under the key
`patch:foo`, a dword with the value 7. -/
def patchTestEnv (x64 : Bool) : Env :=
  { plainEnv x64 with
    patch_opt_get_len := fun name =>
      if name = txt "patch:foo" then some ⟨PVT_DWORD, 7, [], 0, 0, 0⟩ else none }

/-- The dword that `GetPatchTestValue` returns for a key. -/
def patchTestValue (env : Env) (key : List Nat) : Nat :=
  match env.patch_opt_get_len key with
  | some v => v.raw % 2 ^ 32
  | none => 0

/-- The plain environment on a processor whose only feature flag set is
`HasSSE`. -/
def sseEnv (x64 : Bool) : Env :=
  { plainEnv x64 with CPUID_Data := fun field => decide (field = "HasSSE") }

/-- The plain environment in which an uninitialised local holds 0xDEAD. -/
def garbageEnv (x64 : Bool) : Env :=
  { plainEnv x64 with uninitialised := 0xDEAD }

/-- The row of `NOP_Strings_Lookup` for the vendor of the processor. -/
def nopRow (env : Env) : List String :=
  NOP_Strings_Lookup.getD (b2n (env.CPUID_Data "Manufacturer == AMD")) []

/-- A character that no case of the switch of `find_next_op_impl` takes:
not the NUL, not a bracket, and not the first character of an operator. -/
def Skipped (c : Nat) : Prop :=
  c ∉ [0, 40, 91, 41, 93, 126, 33, 62, 60, 114, 82, 38, 124, 42, 94, 43, 45, 47, 37, 61, 63,
    44, 59, 58]

instance (c : Nat) : Decidable (Skipped c) := by unfold Skipped; infer_instance

/-- The operators that the tokenizer can return for a text that starts
with `>` when the end character is not `>`. -/
def greaterOperators : List Nat :=
  [ Greater, GreaterEqual, ArithmeticRightShift, ArithmeticRightShiftAssign, LogicalRightShift,
    LogicalRightShiftAssign, ThreeWay ]

/-- The operator list of the specification: spelling, the opcode it names,
and its precedence level. -/
def specOperatorLevels : List (String × Nat × Nat) :=
  [ ("**", Power, 19), ("*", Multiply, 17), ("/", Divide, 17), ("%", Modulo, 17),
    ("+", Add, 16), ("-", Subtract, 16),
    ("<<", ArithmeticLeftShift, 15), (">>", ArithmeticRightShift, 15),
    ("<<<", LogicalLeftShift, 15), (">>>", LogicalRightShift, 15),
    ("r<<", CircularLeftShift, 15), ("r>>", CircularRightShift, 15),
    ("<", Less, 14), ("<=", LessEqual, 14), (">", Greater, 14), (">=", GreaterEqual, 14),
    ("==", Equal, 13), ("!=", NotEqual, 13), ("<=>", ThreeWay, 12),
    ("&", BitwiseAnd, 11), ("~&", BitwiseNand, 11), ("^", BitwiseXor, 10), ("~^", BitwiseXnor, 10),
    ("|", BitwiseOr, 9), ("~|", BitwiseNor, 9),
    ("&&", LogicalAnd, 8), ("!&&", LogicalNand, 8), ("^^", LogicalXor, 7), ("!^^", LogicalXnor, 7),
    ("||", LogicalOr, 6), ("!||", LogicalNor, 6), ("?", TernaryConditional, 5),
    ("=", Assign, 4), ("+=", AddAssign, 4), ("-=", SubtractAssign, 4), ("*=", MultiplyAssign, 4),
    ("/=", DivideAssign, 4), ("%=", ModuloAssign, 4), ("<<=", ArithmeticLeftShiftAssign, 4),
    (">>=", ArithmeticRightShiftAssign, 4), ("<<<=", LogicalLeftShiftAssign, 4),
    (">>>=", LogicalRightShiftAssign, 4), ("r<<=", CircularLeftShiftAssign, 4),
    ("r>>=", CircularRightShiftAssign, 4), ("&=", AndAssign, 4), ("|=", OrAssign, 4),
    ("^=", XorAssign, 4), ("~&=", NandAssign, 4), ("~^=", XnorAssign, 4), ("~|=", NorAssign, 4),
    (",", Comma, 3), (";", Gomma, 2) ]

/-- The state after the failed evaluation of an expression `E` whose first
operand starts with a character that the value consumer does not accept. -/
def badCharacterState (s : State) (E : List Nat) : State :=
  ((s.emit Msg.BadCharacterError).emit (Msg.InvalidValueError E)).emit Msg.ExpressionError

/-- The plain environment with a register bank at the address 0x5000. -/
def regsEnv (x64 : Bool) : Env :=
  { plainEnv x64 with regs := 0x5000 }

/-- A machine whose uninitialised locals hold zeroes and whose undefined
results and floating point results are 0. -/
def plainMachine : ValueMachine :=
  ⟨fun _ _ _ _ => 0, fun _ _ _ _ => 0, ⟨0, 0, [], 0, 0, 0⟩⟩

/-- The operator names that `patch_val_op_str` refuses with a line in the
log: the comparisons, the logical operators, the plain assignment and the
two sequencing operators. -/
def refusedOperatorNames : List String :=
  [ "<=>", "<", "<=", ">", ">=", "==", "!=", "&&", "!&&", "^^", "!^^", "||", "!||", "=", ",",
    ";" ]

/-- The compound assignments with the operator each is made from. -/
def compoundAssignmentNames : List (String × String) :=
  [ ("*=", "*"), ("/=", "/"), ("%=", "%"), ("+=", "+"), ("-=", "-"), ("<<=", "<<"),
    ("<<<=", "<<<"), (">>=", ">>"), (">>>=", ">>>"), ("r<<=", "r<<"), ("r>>=", "r>>"),
    ("&=", "&"), ("~&=", "~&"), ("^=", "^"), ("~^=", "~^"), ("|=", "|"), ("~|=", "~|") ]

/-- The opcodes for which the switch of `patch_val_op_str` calls one of the
functions on tagged values. -/
def operatedOpcodes : List Nat :=
  [ MultiplyAssign, Multiply, DivideAssign, Divide, ModuloAssign, Modulo, AddAssign, Add,
    SubtractAssign, Subtract, ArithmeticLeftShiftAssign, ArithmeticLeftShift,
    LogicalLeftShiftAssign, LogicalLeftShift, ArithmeticRightShiftAssign, ArithmeticRightShift,
    LogicalRightShiftAssign, LogicalRightShift, CircularLeftShiftAssign, CircularLeftShift,
    CircularRightShiftAssign, CircularRightShift, AndAssign, BitwiseAnd, NandAssign, BitwiseNand,
    XorAssign, BitwiseXor, XnorAssign, BitwiseXnor, OrAssign, BitwiseOr, NorAssign, BitwiseNor ]

/-- The opcodes for which the switch of `patch_val_op_str` logs a line. -/
def refusedOpcodes : List Nat :=
  [ ThreeWay, Less, LessEqual, Greater, GreaterEqual, Equal, NotEqual, LogicalAnd, LogicalNand,
    LogicalXor, LogicalXnor, LogicalOr, LogicalNor, Assign, Comma, Gomma ]

/-- The arithmetic, shift and bitwise operators that can be a merge
operator, with their opcodes. -/
def mergeOperators : List (String × Nat) :=
  [ ("*", Multiply), ("/", Divide), ("%", Modulo), ("+", Add), ("-", Subtract),
    ("<<", ArithmeticLeftShift), ("<<<", LogicalLeftShift), (">>", ArithmeticRightShift),
    (">>>", LogicalRightShift), ("r<<", CircularLeftShift), ("r>>", CircularRightShift),
    ("&", BitwiseAnd), ("~&", BitwiseNand), ("^", BitwiseXor), ("~^", BitwiseXnor),
    ("|", BitwiseOr), ("~|", BitwiseNor) ]

/-- The enumerators of the opcode enumeration, in the order of the source. -/
def namedOpcodes : List Nat :=
  [ NullOp, StartNoOp, EndGroupOp, StandaloneTernaryEnd, BadBrackets, Power, Multiply, Divide,
    Modulo, Add, Subtract, ArithmeticLeftShift, ArithmeticRightShift, LogicalLeftShift,
    LogicalRightShift, CircularLeftShift, CircularRightShift, ThreeWay, Less, LessEqual, Greater,
    GreaterEqual, Equal, NotEqual, BitwiseAnd, BitwiseNand, BitwiseXor, BitwiseXnor, BitwiseOr,
    BitwiseNor, LogicalAnd, LogicalAndSC, LogicalNand, LogicalNandSC, LogicalXor, LogicalXnor,
    LogicalOr, LogicalOrSC, LogicalNor, LogicalNorSC, TernaryConditional, Assign, AddAssign,
    SubtractAssign, MultiplyAssign, DivideAssign, ModuloAssign, ArithmeticLeftShiftAssign,
    ArithmeticRightShiftAssign, LogicalLeftShiftAssign, LogicalRightShiftAssign,
    CircularLeftShiftAssign, CircularRightShiftAssign, AndAssign, NandAssign, XorAssign,
    XnorAssign, OrAssign, NorAssign, Comma, Gomma ]

/-- A character that is a hexadecimal digit of the NOP strings: a decimal
digit or an upper-case letter from A to F. -/
def isHexDigit (c : Char) : Bool :=
  (decide ('0' ≤ c) && decide (c ≤ '9')) || (decide ('A' ≤ c) && decide (c ≤ 'F'))

/-- The expression of `ApplyOperator` for `CircularLeftShift`. -/
def rolW (x64 : Bool) (value arg : Nat) : Nat :=
  shlW x64 value arg
    ||| shrW x64 value (wrap x64 (wordBits x64 + (wordMod x64 - wrap x64 arg)))

/-- The expression of `ApplyOperator` for `CircularRightShift`. -/
def rorW (x64 : Bool) (value arg : Nat) : Nat :=
  shrW x64 value arg
    ||| shlW x64 value (wrap x64 (wordBits x64 + (wordMod x64 - wrap x64 arg)))

/-- The compound assignment opcodes, each with its base opcode. -/
def compoundAssignments : List (Nat × Nat) :=
  [ (AddAssign, Add), (SubtractAssign, Subtract), (MultiplyAssign, Multiply),
    (DivideAssign, Divide), (ModuloAssign, Modulo),
    (ArithmeticLeftShiftAssign, ArithmeticLeftShift),
    (ArithmeticRightShiftAssign, ArithmeticRightShift),
    (LogicalLeftShiftAssign, LogicalLeftShift), (LogicalRightShiftAssign, LogicalRightShift),
    (CircularLeftShiftAssign, CircularLeftShift), (CircularRightShiftAssign, CircularRightShift),
    (AndAssign, BitwiseAnd), (NandAssign, BitwiseNand), (XorAssign, BitwiseXor),
    (XnorAssign, BitwiseXnor), (OrAssign, BitwiseOr), (NorAssign, BitwiseNor) ]

/-- A sequence of calls of `ApplyOperator`, each given as (value, arg, op),
made one after the other in one process: the state a call leaves is the
state the next one starts from. -/
def applyAll (x64 : Bool) (u : Nat) : State → List (Nat × Nat × Nat) → State
  | s, [] => s
  | s, c :: cs =>
    match (ApplyOperator x64 u s c.1 c.2.1 c.2.2).state? with
    | some s1 => applyAll x64 u s1 cs
    | none => s

/-- Number of times the warning about assignments is in the log. -/
def assignmentWarnings (s : State) : Nat := s.messages.count Msg.AssignmentWarning

/-- An outcome that leaves the state as it was, or as
`AssignmentWarningMessage` makes it. -/
def Outcome.warnsAtMost {α : Type} (o : Outcome α) (s : State) : Prop :=
  o.state? = some s ∨ o.state? = some (AssignmentWarningMessage s)

/-- The operator that starts with the character `c` (`<` or `>`), as a
function of the second and third characters with bit 1 cleared (`m1`,
`m2`) and of the fourth character `d`: the opcode and the number of
characters consumed. -/
def angleByMask (c m1 m2 d : Nat) : Nat × Nat :=
  if m1 = ch '<' ∧ m2 = ch '<' ∧ d = ch '=' then (u8 (c * 3 + ch '='), 4)
  else if m1 = ch '=' ∧ m2 = ch '<' then (ThreeWay, 3)
  else if m1 = ch '<' ∧ m2 = ch '=' then (u8 (c * 2 + ch '='), 3)
  else if m1 = ch '<' ∧ m2 = ch '<' then (u8 (c * 3), 3)
  else if m1 = ch '=' then (u8 (c + ch '='), 2)
  else if m1 = ch '<' then (u8 (c * 2), 2)
  else (u8 c, 1)

theorem wordMod_pos (x64 : Bool) : 0 < wordMod x64 := by
  unfold wordMod; positivity

theorem highestBit_spec : ∀ (n m : Nat), 0 < m → m < 2 ^ n →
    2 ^ highestBit n m ≤ m ∧ m < 2 ^ (highestBit n m + 1)
  | 0, m, h0, h => by simp at h; omega
  | n + 1, m, h0, h => by
    unfold highestBit
    by_cases hm : m / 2 = 0
    · simp only [hm, if_true]
      have : m < 2 := by omega
      constructor
      · simpa using h0
      · simpa using this
    · simp only [hm, if_false]
      have h1 : 0 < m / 2 := Nat.pos_of_ne_zero hm
      have h2 : m / 2 < 2 ^ n := by
        rw [Nat.div_lt_iff_lt_mul (by norm_num)]
        rw [pow_succ] at h; exact h
      obtain ⟨a, b⟩ := highestBit_spec n (m / 2) h1 h2
      constructor
      · rw [pow_succ]; omega
      · rw [pow_succ]; omega

theorem ApplyPower_from_eq (x64 : Bool) : ∀ (n : Nat) (t : Nat × Nat × Nat), t.2.1 < 2 ^ (n + 1) →
    ApplyPower_from x64 n t = (t.1 * t.2.2 ^ t.2.1) % wordMod x64
  | 0, (r, a, v), h => by
    simp only [ApplyPower_from, wrap]
    simp at h
    interval_cases a <;> simp
  | n + 1, (r, a, v), h => by
    simp only [ApplyPower_from, ApplyPower_block]
    have ha : a / 2 < 2 ^ (n + 1) := by
      rw [Nat.div_lt_iff_lt_mul (by norm_num)]
      simp only [] at h
      rw [pow_succ] at h; exact h
    rw [ApplyPower_from_eq x64 n _ ha]
    simp only [wrap]
    have hsplit : v ^ a = (if a % 2 = 1 then v else 1) * (v * v) ^ (a / 2) := by
      conv_lhs => rw [← Nat.div_add_mod a 2]
      rw [pow_add, pow_mul, pow_two, mul_comm]
      rcases Nat.mod_two_eq_zero_or_one a with h0 | h1
      · simp [h0]
      · simp [h1]
    rw [hsplit, ← mul_assoc]
    conv_rhs => rw [Nat.mul_mod, Nat.pow_mod]
    conv_lhs => rw [Nat.mul_mod, Nat.pow_mod]
    simp

theorem ApplyPower_small (x64 : Bool) (u : Nat) (value arg : Nat) (h0 : 0 < arg)
    (h : arg < wordBits x64) : ApplyPower x64 u value arg = value ^ arg % wordMod x64 := by
  have h32 : arg < 2 ^ 32 := by cases x64 <;> simp [wordBits] at h <;> omega
  have hs := highestBit_spec 32 arg h0 h32
  have hp : highestBit 32 arg ≤ (if x64 then 5 else 4) := by
    by_contra hc
    have hlt : wordBits x64 ≤ 2 ^ highestBit 32 arg := by
      cases x64
      · simp only [Bool.false_eq_true, if_false, not_le] at hc
        calc wordBits false = 2 ^ 5 := by decide
          _ ≤ 2 ^ highestBit 32 arg := Nat.pow_le_pow_right (by norm_num) hc
      · simp only [if_true, not_le] at hc
        calc wordBits true = 2 ^ 6 := by decide
          _ ≤ 2 ^ highestBit 32 arg := Nat.pow_le_pow_right (by norm_num) hc
    omega
  unfold ApplyPower BitScanReverse
  rw [Nat.mod_eq_of_lt h32]
  simp only [Nat.pos_iff_ne_zero.mp h0, if_false, hp, if_true]
  rw [ApplyPower_from_eq x64 _ _ hs.2]
  simp

theorem ApplyPower_large (x64 : Bool) (u : Nat) (value arg : Nat) (h : wordBits x64 ≤ arg)
    (h32 : arg < 2 ^ 32) : ApplyPower x64 u value arg = SIZE_MAX x64 := by
  have h0 : 0 < arg := by cases x64 <;> simp [wordBits] at h <;> omega
  have hs := highestBit_spec 32 arg h0 h32
  have hp : ¬ highestBit 32 arg ≤ (if x64 then 5 else 4) := by
    intro hc
    have hlt : 2 ^ (highestBit 32 arg + 1) ≤ wordBits x64 := by
      cases x64
      · simp only [Bool.false_eq_true, if_false] at hc
        calc 2 ^ (highestBit 32 arg + 1) ≤ 2 ^ 5 := Nat.pow_le_pow_right (by norm_num) (by omega)
          _ = wordBits false := by decide
      · simp only [if_true] at hc
        calc 2 ^ (highestBit 32 arg + 1) ≤ 2 ^ 6 := Nat.pow_le_pow_right (by norm_num) (by omega)
          _ = wordBits true := by decide
    omega
  unfold ApplyPower BitScanReverse
  rw [Nat.mod_eq_of_lt h32]
  simp only [Nat.pos_iff_ne_zero.mp h0, if_false, hp]

/-- On the 64-bit target an exponent that is a non-zero multiple of `2 ^ 32`
has a zero mask: the intrinsic writes nothing, the switch reads the content
`u` of the index as it was, and every content above 5 gives `SIZE_MAX`. -/
theorem ApplyPower_zero_mask (u value m : Nat) (hm : 0 < m) (hu : 5 < u % 2 ^ 32) :
    ApplyPower true u value (2 ^ 32 * m) = SIZE_MAX true := by
  have h0 : 2 ^ 32 * m ≠ 0 := by positivity
  have hp : ¬ u % 2 ^ 32 ≤ 5 := by omega
  unfold ApplyPower BitScanReverse
  rw [Nat.mul_mod_right]
  simp only [h0, if_false, if_true, hp]

/-- C9, as stated, fails: on the 32-bit target the exponent 32 fits in 31
bits, and `ApplyPower 1 32` is `SIZE_MAX`, not `1 ^ 32 mod 2 ^ 32`. -/
theorem C9_counterexample :
    ¬ (∀ (x64 : Bool) (u : Nat) (value arg : Nat), value < wordMod x64 → arg < 2 ^ (wordBits x64 - 1) →
        ApplyPower x64 u value arg = value ^ arg % wordMod x64) := by
  intro h
  have := h false 0 1 32 (by decide) (by decide)
  revert this
  decide

/-- C9, amended: `ApplyPower` returns 1 for the exponent 0, `value ^ arg`
modulo `2 ^ W` for every exponent from 1 to `W - 1` (31 on the 32-bit
target, 63 on the 64-bit target), and `SIZE_MAX` for every exponent from
`W` up to `2 ^ 32 - 1`; on both targets "2 ** 10" evaluates to 1024 with
the cursor on the terminating NUL, for every fuel of 20 or more.  None of
this depends on the content `u` of the index before the intrinsic runs. -/
theorem C9_ApplyPower (x64 : Bool) (u : Nat) (value arg : Nat) :
    (arg = 0 → ApplyPower x64 u value arg = 1)
    ∧ (0 < arg → arg < wordBits x64 → ApplyPower x64 u value arg = value ^ arg % wordMod x64)
    ∧ (wordBits x64 ≤ arg → arg < 2 ^ 32 → ApplyPower x64 u value arg = SIZE_MAX x64)
    ∧ (∀ (k : Nat) (s : State), eval_expr (plainEnv x64) (k + 20) s (cstr "2 ** 10") 0
          = Outcome.ok (some [0], 1024) s) := by
  refine ⟨?_, ApplyPower_small x64 u value arg, ApplyPower_large x64 u value arg, ?_⟩
  · intro h; simp [ApplyPower, h]
  · intro k s; cases x64 <;> rfl

/-- Witness for C9: the exponents 0, 31 and 40 on the 32-bit target with
the base 3. -/
theorem C9_ApplyPower_witness :
    ApplyPower false 0 3 0 = 1 ∧ ApplyPower false 0 3 31 = 3 ^ 31 % wordMod false
    ∧ ApplyPower false 0 3 40 = SIZE_MAX false :=
  ⟨(C9_ApplyPower false 0 3 0).1 rfl,
   (C9_ApplyPower false 0 3 31).2.1 (by decide) (by decide),
   (C9_ApplyPower false 0 3 40).2.2.1 (by decide) (by decide)⟩

theorem b2n_le_one (b : Bool) : b2n b ≤ 1 := by cases b <;> simp [b2n]

/-- C10: `ApplyOperator` with `ThreeWay` gives `SIZE_MAX` when `v < a`, 0
when `v = a` and 1 when `v > a`, without touching the state; every
comparison and logical opcode gives 0 or 1; and "1 <=> 2" evaluates to
`SIZE_MAX` on both targets for every fuel of 20 or more. -/
theorem C10_ThreeWay_and_truth_values (x64 : Bool) (u : Nat) (s : State) (v a : Nat) :
    ApplyOperator x64 u s v a ThreeWay
        = Outcome.ok (if v < a then SIZE_MAX x64 else if v = a then 0 else 1) s
    ∧ (∀ op ∈ comparisonAndLogicalOps, ∃ r, (r = 0 ∨ r = 1) ∧
          ApplyOperator x64 u s v a op = Outcome.ok r s)
    ∧ (∀ k : Nat, eval_expr (plainEnv x64) (k + 20) s (cstr "1 <=> 2") 0
          = Outcome.ok (some [0], SIZE_MAX x64) s) := by
  have hb : ∀ b : Bool, b2n b = 0 ∨ b2n b = 1 := by intro b; cases b <;> simp [b2n]
  refine ⟨?_, ?_, ?_⟩
  · have h1 : ApplyOperator x64 u s v a ThreeWay
        = Outcome.ok (wrap x64 (wordMod x64 + b2n (decide (v > a)) - b2n (decide (v < a)))) s :=
      rfl
    rw [h1]
    have hm : 1 < wordMod x64 := by cases x64 <;> decide
    congr 1
    rcases Nat.lt_trichotomy v a with h | h | h
    · have h' : ¬ v > a := by omega
      simp only [h, h', decide_True, decide_False, b2n, if_true, wrap, SIZE_MAX]
      simp only [Bool.false_eq_true, if_false, Nat.add_zero]
      exact Nat.mod_eq_of_lt (by omega)
    · subst h
      simp [b2n, wrap]
    · have h' : ¬ v < a := by omega
      have h'' : ¬ v = a := by omega
      simp only [h, h', h'', decide_True, decide_False, b2n, if_true, wrap]
      simp only [Bool.false_eq_true, if_false, Nat.sub_zero]
      rw [Nat.add_mod_left]; exact Nat.mod_eq_of_lt hm
  · intro op hop
    simp only [comparisonAndLogicalOps, List.mem_cons, List.mem_singleton, List.not_mem_nil,
      or_false] at hop
    rcases hop with h | h | h | h | h | h | h | h | h | h | h | h <;> subst h
    · exact ⟨_, hb _, rfl⟩
    · exact ⟨_, hb _, rfl⟩
    · exact ⟨_, hb _, rfl⟩
    · exact ⟨_, hb _, rfl⟩
    · exact ⟨_, hb _, rfl⟩
    · exact ⟨_, hb _, rfl⟩
    · exact ⟨_, hb _, rfl⟩
    · exact ⟨_, hb _, rfl⟩
    · exact ⟨_, hb _, rfl⟩
    · exact ⟨_, hb _, rfl⟩
    · exact ⟨_, hb _, rfl⟩
    · exact ⟨_, hb _, rfl⟩
  · intro k; cases x64 <;> rfl

theorem append_ne_self_of_digit (t rest : List Nat) (h : ch '0' ≤ peek t 0) :
    t ++ rest ≠ rest := by
  intro he
  have : t = [] := List.append_left_eq_self.mp he
  subst this
  simp [peek, ch] at h

theorem peek_append_of_digit (t rest : List Nat) (h : ch '0' ≤ peek t 0) :
    peek (t ++ rest) 0 = peek t 0 := by
  cases t with
  | nil => simp [peek, ch] at h
  | cons c t => simp [peek]

/-- A literal followed by something that is not a postfix `++` or `--` is
consumed as one operand. -/
theorem consume_literal (env : Env) (fuel : Nat) (s : State) (t rest : List Nat) (v : Nat)
    (h : LiteralAt env t v rest)
    (hp : ¬ ((peek rest 0 = ch '+' ∨ peek rest 0 = ch '-') ∧ peek rest 0 = peek rest 1)) :
    consume_value_impl env (fuel + 2) s (t ++ rest) = Outcome.ok (v, rest) s := by
  obtain ⟨⟨h0, h9⟩, hparse⟩ := h
  have hne := append_ne_self_of_digit t rest h0
  have hpk := peek_append_of_digit t rest h0
  have hraw : RawValue env s (t ++ rest) = Outcome.ok (v, rest) s := by
    simp [RawValue, hparse, hne, PostfixCheck, hp]
  simp only [consume_value_impl, consume_value_loop, hpk]
  generalize peek t 0 = c at h0 h9
  simp only [ch] at h0 h9 ⊢
  have h0' : 48 ≤ c := h0
  have h9' : c ≤ 57 := h9
  interval_cases c <;> simp [hraw]

/-- A blank in front of an operand is skipped. -/
theorem consume_blank (env : Env) (fuel : Nat) (s : State) (X : List Nat) :
    consume_value_impl env (fuel + 2) s (32 :: X) = consume_value_impl env (fuel + 1) s X := by
  simp [consume_value_impl, consume_value_loop, peek, ch]

theorem ApplyOperator_StartNoOp (x64 : Bool) (u : Nat) (s : State) (v a : Nat) :
    ApplyOperator x64 u s v a StartNoOp = Outcome.ok a s := rfl

theorem ApplyOperator_NullOp (x64 : Bool) (u : Nat) (s : State) (v a : Nat) :
    ApplyOperator x64 u s v a NullOp = Outcome.ok a s := rfl

theorem ApplyOperator_Add (x64 : Bool) (u : Nat) (s : State) (v a : Nat) :
    ApplyOperator x64 u s v a Add = Outcome.ok (wrap x64 (v + a)) s := rfl

theorem ApplyOperator_Multiply (x64 : Bool) (u : Nat) (s : State) (v a : Nat) :
    ApplyOperator x64 u s v a Multiply = Outcome.ok (wrap x64 (v * a)) s := rfl

theorem loop_unfold (env : Env) (fuel : Nat) (s : State) (expr : List Nat)
    (end_ value ops_cur cur0 : Nat) :
    eval_expr_loop env (fuel + 1) s expr end_ value ops_cur cur0
      = match operandOf env fuel s expr ops_cur cur0 with
        | Outcome.ok r s => afterOperand env fuel s r.2 end_ value ops_cur r.1
        | Outcome.null s => Outcome.null s
        | Outcome.trap s => Outcome.trap s
        | Outcome.fuel => Outcome.fuel := by
  rw [eval_expr_loop, operandOf]
  generalize (if ops_cur ≠ NullOp then
      match consume_value_impl env fuel s expr with
      | Outcome.null s => Outcome.null (s.emit (Msg.InvalidValueError expr))
      | o => o
    else Outcome.ok (cur0, expr) s) = o
  cases o with
  | ok r s1 =>
    show _ = afterOperand env fuel s1 r.2 end_ value ops_cur r.1
    simp only [afterOperand]
    split
    · split
      · rfl
      · rfl
    · split
      · split
        · rename_i h; rw [if_pos (show inRightBand (Precedence ops_cur) from h)]; rfl
        · rename_i h; rw [if_neg (show ¬ inRightBand (Precedence ops_cur) from h)]; rfl
      · rfl
  | null s1 => rfl
  | trap s1 => rfl
  | fuel => rfl

theorem loop_of_operand (env : Env) (fuel : Nat) (s s1 : State) (expr e1 : List Nat)
    (end_ value ops_cur cur0 cv : Nat) (hne : ops_cur ≠ NullOp)
    (hc : consume_value_impl env fuel s expr = Outcome.ok (cv, e1) s1) :
    eval_expr_loop env (fuel + 1) s expr end_ value ops_cur cur0
      = afterOperand env fuel s1 e1 end_ value ops_cur cv := by
  rw [loop_unfold, operandOf, if_pos hne, hc]

theorem loop_of_NullOp (env : Env) (fuel : Nat) (s : State) (expr : List Nat)
    (end_ value cur0 : Nat) :
    eval_expr_loop env (fuel + 1) s expr end_ value NullOp cur0
      = afterOperand env fuel s expr end_ value NullOp cur0 := by
  rw [loop_unfold, operandOf, if_neg (by simp)]

theorem loop_of_operand_null (env : Env) (fuel : Nat) (s s1 : State) (expr : List Nat)
    (end_ value ops_cur cur0 : Nat) (hne : ops_cur ≠ NullOp)
    (hc : consume_value_impl env fuel s expr = Outcome.null s1) :
    eval_expr_loop env (fuel + 1) s expr end_ value ops_cur cur0
      = Outcome.null (s1.emit (Msg.InvalidValueError expr)) := by
  rw [loop_unfold, operandOf, if_pos hne, hc]

theorem impl_unfold (env : Env) (fuel : Nat) (s : State) (expr : List Nat)
    (end_ start_op start_value : Nat) :
    eval_expr_impl env (fuel + 1) s expr end_ start_op start_value
      = eval_expr_loop env fuel s expr end_ start_value start_op 0 := by
  rw [eval_expr_impl]

theorem binaryOperators_prec :
    ∀ e ∈ binaryOperators, 1 < Precedence e.2 ∧ e.2 ≠ TernaryConditional ∧ e.2 < 256 := by
  decide

set_option maxHeartbeats 1000000 in
theorem binaryOperators_spell : ∀ e ∈ binaryOperators, Spells (txt e.1) e.2 := by
  intro e he
  simp only [binaryOperators, List.mem_cons, List.mem_singleton, List.not_mem_nil, or_false] at he
  rcases he with h | h | h | h | h | h | h | h | h | h | h | h | h | h | h | h | h | h | h | h
    | h | h | h | h | h | h | h | h | h | h | h | h | h | h | h | h | h | h | h | h
    | h | h | h | h | h | h | h | h | h | h | h <;> subst h <;> intro expr R <;>
    simp [show (60 : Nat) &&& 253 = 60 by decide, show (62 : Nat) &&& 253 = 60 by decide,
      show (61 : Nat) &&& 253 = 61 by decide, show (32 : Nat) &&& 253 = 32 by decide,
      show (60 : Nat) &&& 255 = 60 by decide, show (62 : Nat) &&& 255 = 62 by decide,
      show (61 : Nat) &&& 255 = 61 by decide, show (32 : Nat) &&& 255 = 32 by decide,
      show (114 : Nat) &&& 255 = 114 by decide, show (114 : Nat) ||| 32 = 114 by decide, txt, find_next_op_loop, find_next_op_angle, peek, ch, u8, and32, or32, read32, read16,
      TextInt, PreventOverlap, Power, Multiply, Divide, Modulo, Add, Subtract,
      ArithmeticLeftShift, ArithmeticRightShift, LogicalLeftShift, LogicalRightShift,
      CircularLeftShift, CircularRightShift, Less, LessEqual, Greater, GreaterEqual, Equal,
      NotEqual, ThreeWay, BitwiseAnd, BitwiseNand, BitwiseXor, BitwiseXnor, BitwiseOr,
      BitwiseNor, LogicalAnd, LogicalNand, LogicalXor, LogicalXnor, LogicalOr, LogicalNor,
      Assign, AddAssign, SubtractAssign, MultiplyAssign, DivideAssign, ModuloAssign,
      ArithmeticLeftShiftAssign, ArithmeticRightShiftAssign, LogicalLeftShiftAssign,
      LogicalRightShiftAssign, CircularLeftShiftAssign, CircularRightShiftAssign, AndAssign,
      OrAssign, XorAssign, NandAssign, XnorAssign, NorAssign, Comma, Gomma]

theorem afterOperand_lower (env : Env) (fuel : Nat) (s : State) (e eo : List Nat)
    (end_ v oc cv nx : Nat) (ht : find_next_op_impl e end_ = (nx, eo))
    (hp : Precedence oc < Precedence nx) (hnt : nx ≠ TernaryConditional) :
    afterOperand env fuel s e end_ v oc cv
      = afterLower env fuel v oc end_ nx (eval_expr_impl env fuel s eo end_ nx cv) := by
  simp only [afterOperand, ht, hp, hnt, if_true, if_false]

theorem afterOperand_ternary (env : Env) (fuel : Nat) (s : State) (e eo : List Nat)
    (end_ v oc cv : Nat) (ht : find_next_op_impl e end_ = (TernaryConditional, eo))
    (hp : Precedence oc < Precedence TernaryConditional) :
    afterOperand env fuel s e end_ v oc cv
      = ternaryThen env fuel v oc end_ TernaryConditional s eo cv := by
  simp only [afterOperand, ht, hp, if_true]

theorem afterOperand_same_left (env : Env) (fuel : Nat) (s : State) (e eo : List Nat)
    (end_ v oc cv nx : Nat) (ht : find_next_op_impl e end_ = (nx, eo))
    (hp : Precedence oc = Precedence nx) (hb : ¬ inRightBand (Precedence oc)) :
    afterOperand env fuel s e end_ v oc cv = applyThen env fuel v oc s eo end_ cv nx := by
  simp only [afterOperand, ht, hp, lt_irrefl, if_true, if_false]
  rw [← hp, if_neg hb]

theorem afterOperand_same_right (env : Env) (fuel : Nat) (s : State) (e eo : List Nat)
    (end_ v oc cv nx : Nat) (ht : find_next_op_impl e end_ = (nx, eo))
    (hp : Precedence oc = Precedence nx) (hb : inRightBand (Precedence oc)) :
    afterOperand env fuel s e end_ v oc cv
      = afterSame env fuel v oc end_ nx (eval_expr_impl env fuel s eo end_ nx cv) := by
  simp only [afterOperand, ht, hp, lt_irrefl, if_true, if_false]
  rw [← hp, if_pos hb]

theorem afterOperand_higher (env : Env) (fuel : Nat) (s : State) (e eo : List Nat)
    (end_ v oc cv nx : Nat) (ht : find_next_op_impl e end_ = (nx, eo))
    (hp : Precedence nx < Precedence oc) :
    afterOperand env fuel s e end_ v oc cv = applyThen env fuel v oc s e (peek e 0) cv nx := by
  have h1 : ¬ Precedence oc < Precedence nx := by omega
  have h2 : ¬ Precedence oc = Precedence nx := by omega
  simp only [afterOperand, ht, h1, h2, if_false]

theorem applyThen_end (env : Env) (fuel v oc : Nat) (s : State) (e : List Nat)
    (end_ cv nx : Nat) (h : peek e 0 = end_) :
    applyThen env fuel v oc s e end_ cv nx = finish (ApplyOperator env.x64 env.uninitialised s v cv oc) e := by
  unfold applyThen finish
  cases ApplyOperator env.x64 env.uninitialised s v cv oc <;> simp [h]

theorem applyThen_more (env : Env) (fuel v oc : Nat) (s : State) (e : List Nat)
    (end_ cv nx : Nat) (h : peek e 0 ≠ end_) :
    applyThen env fuel v oc s e end_ cv nx
      = match ApplyOperator env.x64 env.uninitialised s v cv oc with
        | Outcome.ok value s => eval_expr_loop env fuel s e end_ value nx cv
        | Outcome.null s => Outcome.null s
        | Outcome.trap s => Outcome.trap s
        | Outcome.fuel => Outcome.fuel := by
  unfold applyThen
  cases ApplyOperator env.x64 env.uninitialised s v cv oc <;> simp [h]

theorem okOrTrap_ite {α : Type} (c : Prop) [Decidable c] (a b : Outcome α)
    (ha : a.okOrTrap) (hb : b.okOrTrap) : (if c then a else b).okOrTrap := by
  split <;> assumption

theorem ApplyOperator_okOrTrap (x64 : Bool) (u : Nat) (s : State) (v a op : Nat) :
    (ApplyOperator x64 u s v a op).okOrTrap := by
  unfold ApplyOperator
  repeat' (first | exact True.intro | apply okOrTrap_ite)

theorem ApplyOperator_ok_or_trap (x64 : Bool) (u : Nat) (s : State) (v a op : Nat) :
    (∃ r s1, ApplyOperator x64 u s v a op = Outcome.ok r s1)
      ∨ (∃ s1, ApplyOperator x64 u s v a op = Outcome.trap s1) := by
  have h := ApplyOperator_okOrTrap x64 u s v a op
  cases hc : ApplyOperator x64 u s v a op with
  | ok r s1 => exact Or.inl ⟨r, s1, rfl⟩
  | trap s1 => exact Or.inr ⟨s1, rfl⟩
  | null s1 => rw [hc] at h; exact h.elim
  | fuel => rw [hc] at h; exact h.elim

theorem tok_blank (p R : List Nat) (op : Nat) (h : Spells p op) :
    find_next_op_impl (32 :: (p ++ 32 :: R)) 0 = (op, 32 :: R) := by
  unfold find_next_op_impl
  rw [find_next_op_loop]
  simp [ch]
  exact h _ _

theorem tok_nul : find_next_op_impl [0] 0 = (NullOp, [0]) := by decide

theorem blank_no_incdec (R : List Nat) :
    ¬ ((peek (32 :: R) 0 = ch '+' ∨ peek (32 :: R) 0 = ch '-')
        ∧ peek (32 :: R) 0 = peek (32 :: R) 1) := by
  simp [peek, ch]

theorem nul_no_incdec :
    ¬ ((peek [0] 0 = ch '+' ∨ peek [0] 0 = ch '-') ∧ peek [0] 0 = peek [0] 1) := by
  decide

theorem afterLower_ok_end (env : Env) (fuel v oc nx w : Nat) (s1 : State) :
    afterLower env fuel v oc 0 nx (Outcome.ok (w, [0]) s1)
      = finish (ApplyOperator env.x64 env.uninitialised s1 v w oc) [0] := by
  have h1 : peek [0] 0 ≠ ch '?' := by decide
  have h2 : ¬ (peek [0] 0 ≠ 0) := by decide
  simp only [afterLower, h1, h2, if_false]
  exact applyThen_end env fuel v oc s1 [0] 0 w nx rfl

theorem afterSame_ok_end (env : Env) (fuel v oc nx w : Nat) (s1 : State) :
    afterSame env fuel v oc 0 nx (Outcome.ok (w, [0]) s1)
      = finish (ApplyOperator env.x64 env.uninitialised s1 v w oc) [0] := by
  simp only [afterSame]
  exact applyThen_end env fuel v oc s1 [0] 0 w nx rfl

theorem afterLower_ok_more (env : Env) (fuel v oc end_ nx w : Nat) (s1 : State) (e : List Nat)
    (h1 : peek e 0 ≠ ch '?') (h2 : peek e 0 ≠ end_) :
    afterLower env fuel v oc end_ nx (Outcome.ok (w, e) s1)
      = applyThen env fuel v oc s1 e end_ w NullOp := by
  simp only [afterLower, h1, h2, if_false, ne_eq, not_false_eq_true, if_true]

/-- The last operand of an expression: a blank, a literal and the
terminating NUL. -/
theorem lastOperand (env : Env) (f : Nat) (s : State) (tc : List Nat) (c v o cur0 : Nat)
    (hc : LiteralAt env tc c [0]) (ho : 0 < Precedence o) :
    eval_expr_loop env (f + 4) s (32 :: (tc ++ [0])) 0 v o cur0
      = finish (ApplyOperator env.x64 env.uninitialised s v c o) [0] := by
  have hne : o ≠ NullOp := by
    intro h; rw [h] at ho; revert ho; decide
  have hcons : consume_value_impl env (f + 3) s (32 :: (tc ++ [0])) = Outcome.ok (c, [0]) s := by
    rw [consume_blank, consume_literal env f s tc [0] c hc nul_no_incdec]
  have hp : Precedence NullOp < Precedence o := by
    have : Precedence NullOp = 0 := by decide
    omega
  rw [loop_of_operand env (f + 3) s s _ [0] 0 v o cur0 c hne hcons,
    afterOperand_higher env (f + 3) s [0] [0] 0 v o c NullOp tok_nul hp,
    applyThen_end env (f + 3) v o s [0] (peek [0] 0) c NullOp rfl]

theorem eval_expr_of_impl (env : Env) (f : Nat) (s : State) (E : List Nat) (o : Outcome Nat)
    (ho : o.okOrTrap)
    (h : eval_expr_loop env f s E 0 0 StartNoOp 0 = finish o [0]) :
    eval_expr env (f + 1) s E 0 = atEnd o := by
  unfold eval_expr
  rw [impl_unfold, h]
  cases o with
  | ok v s1 => rfl
  | trap s1 => rfl
  | null s1 => exact ho.elim
  | fuel => exact ho.elim

theorem finish_okOrTrap_bind (o : Outcome Nat) (f : Nat → State → Outcome Nat)
    (ho : o.okOrTrap) (hf : ∀ v s, (f v s).okOrTrap) : (o.bind f).okOrTrap := by
  cases o with
  | ok v s1 => exact hf v s1
  | trap s1 => exact True.intro
  | null s1 => exact ho.elim
  | fuel => exact ho.elim

/-- The three ways in which the evaluator reads `a o1 b o2 c`. -/
theorem eval_triple (env : Env) (k : Nat) (s : State) (ta tb tc p1 p2 : List Nat)
    (a b c o1 o2 : Nat)
    (ha : LiteralAt env ta a (32 :: (p1 ++ 32 :: (tb ++ 32 :: (p2 ++ 32 :: (tc ++ [0]))))))
    (hb : LiteralAt env tb b (32 :: (p2 ++ 32 :: (tc ++ [0]))))
    (hc : LiteralAt env tc c [0])
    (hs1 : Spells p1 o1) (hs2 : Spells p2 o2)
    (hp1 : 1 < Precedence o1) (hp2 : 1 < Precedence o2)
    (hn1 : o1 ≠ TernaryConditional) (hn2 : o2 ≠ TernaryConditional) :
    eval_expr env (k + 20) s (tripleText ta p1 tb p2 tc) 0
      = atEnd (if Precedence o2 < Precedence o1
            ∨ (Precedence o1 = Precedence o2 ∧ ¬ inRightBand (Precedence o1))
          then leftGrouping env.x64 env.uninitialised s a b c o1 o2
          else rightGrouping env.x64 env.uninitialised s a b c o1 o2) := by
  have pS : Precedence StartNoOp = 1 := by decide
  have pN : Precedence NullOp = 0 := by decide
  have nS : StartNoOp ≠ NullOp := by decide
  have hne1 : o1 ≠ NullOp := by intro h; rw [h, pN] at hp1; omega
  have hne2 : o2 ≠ NullOp := by intro h; rw [h, pN] at hp2; omega
  have ca : ∀ s, consume_value_impl env (k + 18) s (tripleText ta p1 tb p2 tc)
      = Outcome.ok (a, 32 :: (p1 ++ 32 :: (tb ++ 32 :: (p2 ++ 32 :: (tc ++ [0]))))) s :=
    fun s => consume_literal env (k + 16) s ta _ a ha (blank_no_incdec _)
  have cb : ∀ s, consume_value_impl env (k + 16) s (32 :: (tb ++ 32 :: (p2 ++ 32 :: (tc ++ [0]))))
      = Outcome.ok (b, 32 :: (p2 ++ 32 :: (tc ++ [0]))) s := by
    intro s
    rw [consume_blank, consume_literal env (k + 13) s tb _ b hb (blank_no_incdec _)]
  have t1 := tok_blank p1 (tb ++ 32 :: (p2 ++ 32 :: (tc ++ [0]))) o1 hs1
  have t2 := tok_blank p2 (tc ++ [0]) o2 hs2
  -- the frame of `o1`
  have inner : eval_expr_impl env (k + 18) s (32 :: (tb ++ 32 :: (p2 ++ 32 :: (tc ++ [0])))) 0 o1 a
      = afterOperand env (k + 16) s (32 :: (p2 ++ 32 :: (tc ++ [0]))) 0 a o1 b := by
    rw [impl_unfold, loop_of_operand env (k + 16) s s _ _ 0 a o1 0 b hne1 (cb s)]
  -- the outermost frame
  have top : eval_expr_loop env (k + 19) s (tripleText ta p1 tb p2 tc) 0 0 StartNoOp 0
      = afterLower env (k + 18) 0 StartNoOp 0 o1
          (afterOperand env (k + 16) s (32 :: (p2 ++ 32 :: (tc ++ [0]))) 0 a o1 b) := by
    rw [loop_of_operand env (k + 18) s s _ _ 0 0 StartNoOp 0 a nS (ca s),
      afterOperand_lower env (k + 18) s _ _ 0 0 StartNoOp a o1 t1 (by omega) hn1, inner]
  have last : ∀ (f : Nat) (s : State) (v cur0 : Nat),
      eval_expr_loop env (f + 4) s (32 :: (tc ++ [0])) 0 v o2 cur0
        = finish (ApplyOperator env.x64 env.uninitialised s v c o2) [0] :=
    fun f s v cur0 => lastOperand env f s tc c v o2 cur0 hc (by omega)
  have right : eval_expr_impl env (k + 16) s (32 :: (tc ++ [0])) 0 o2 b
      = finish (ApplyOperator env.x64 env.uninitialised s b c o2) [0] := by
    rw [impl_unfold]; exact last (k + 11) s b 0
  apply eval_expr_of_impl
  · split
    · exact finish_okOrTrap_bind _ _ (ApplyOperator_okOrTrap _ _ _ _ _ _)
        (fun _ _ => ApplyOperator_okOrTrap _ _ _ _ _ _)
    · exact finish_okOrTrap_bind _ _ (ApplyOperator_okOrTrap _ _ _ _ _ _)
        (fun _ _ => ApplyOperator_okOrTrap _ _ _ _ _ _)
  rw [top]
  rcases Nat.lt_trichotomy (Precedence o1) (Precedence o2) with hlt | heq | hgt
  · -- `o2` binds tighter
    have hcond : ¬ (Precedence o2 < Precedence o1
        ∨ (Precedence o1 = Precedence o2 ∧ ¬ inRightBand (Precedence o1))) := by omega
    rw [if_neg hcond, afterOperand_lower env (k + 16) s _ _ 0 a o1 b o2 t2 hlt hn2, right]
    unfold rightGrouping
    rcases ApplyOperator_ok_or_trap env.x64 env.uninitialised s b c o2 with ⟨v, s1, hv⟩ | ⟨s1, hv⟩
    · rw [hv]
      simp only [finish, Outcome.bind]
      rw [afterLower_ok_end]
      rcases ApplyOperator_ok_or_trap env.x64 env.uninitialised s1 a v o1 with ⟨w, s2, hw⟩ | ⟨s2, hw⟩
      · rw [hw]; simp only [finish]; rw [afterLower_ok_end]; rfl
      · rw [hw]; rfl
    · rw [hv]; rfl
  · -- equal precedence
    by_cases hband : inRightBand (Precedence o1)
    · have hcond : ¬ (Precedence o2 < Precedence o1
          ∨ (Precedence o1 = Precedence o2 ∧ ¬ inRightBand (Precedence o1))) := by
        intro h
        rcases h with h | h
        · omega
        · exact h.2 hband
      rw [if_neg hcond, afterOperand_same_right env (k + 16) s _ _ 0 a o1 b o2 t2 heq hband, right]
      unfold rightGrouping
      rcases ApplyOperator_ok_or_trap env.x64 env.uninitialised s b c o2 with ⟨v, s1, hv⟩ | ⟨s1, hv⟩
      · rw [hv]
        simp only [finish, Outcome.bind]
        rw [afterSame_ok_end]
        rcases ApplyOperator_ok_or_trap env.x64 env.uninitialised s1 a v o1 with ⟨w, s2, hw⟩ | ⟨s2, hw⟩
        · rw [hw]; simp only [finish]; rw [afterLower_ok_end]; rfl
        · rw [hw]; rfl
      · rw [hv]; rfl
    · have hcond : Precedence o2 < Precedence o1
          ∨ (Precedence o1 = Precedence o2 ∧ ¬ inRightBand (Precedence o1)) :=
        Or.inr ⟨heq, hband⟩
      rw [if_pos hcond, afterOperand_same_left env (k + 16) s _ _ 0 a o1 b o2 t2 heq hband,
        applyThen_more env (k + 16) a o1 s _ 0 b o2 (by simp [peek])]
      unfold leftGrouping
      rcases ApplyOperator_ok_or_trap env.x64 env.uninitialised s a b o1 with ⟨v, s1, hv⟩ | ⟨s1, hv⟩
      · rw [hv]
        simp only [Outcome.bind]
        rw [last (k + 12) s1 v b]
        rcases ApplyOperator_ok_or_trap env.x64 env.uninitialised s1 v c o2 with ⟨w, s2, hw⟩ | ⟨s2, hw⟩
        · rw [hw]; simp only [finish]; rw [afterLower_ok_end]; rfl
        · rw [hw]; rfl
      · rw [hv]; rfl
  · -- `o1` binds tighter
    have hcond : Precedence o2 < Precedence o1
        ∨ (Precedence o1 = Precedence o2 ∧ ¬ inRightBand (Precedence o1)) := Or.inl hgt
    rw [if_pos hcond, afterOperand_higher env (k + 16) s _ _ 0 a o1 b o2 t2 hgt,
      applyThen_end env (k + 16) a o1 s _ _ b o2 rfl]
    unfold leftGrouping
    rcases ApplyOperator_ok_or_trap env.x64 env.uninitialised s a b o1 with ⟨v, s1, hv⟩ | ⟨s1, hv⟩
    · rw [hv]
      simp only [finish, Outcome.bind]
      rw [afterLower_ok_more env (k + 18) 0 StartNoOp 0 o1 v s1 _ (by simp [peek, ch])
          (by simp [peek]),
        applyThen_more env (k + 18) 0 StartNoOp s1 _ 0 v NullOp (by simp [peek])]
      simp only [ApplyOperator_StartNoOp]
      rw [loop_of_NullOp env (k + 17) s1 _ 0 v v,
        afterOperand_lower env (k + 17) s1 _ _ 0 v NullOp v o2 t2 (by omega) hn2,
        impl_unfold, last (k + 12) s1 v 0]
      rcases ApplyOperator_ok_or_trap env.x64 env.uninitialised s1 v c o2 with ⟨w, s2, hw⟩ | ⟨s2, hw⟩
      · rw [hw]; simp only [finish]; rw [afterLower_ok_end]; rfl
      · rw [hw]; rfl
    · rw [hv]; rfl

theorem binaryOperators_assoc :
    ∀ e ∈ binaryOperators,
      (inRightBand (Precedence e.2) ↔ Associativity e.2 = RightAssociative)
      ∧ (Associativity e.2 = LeftAssociative ∨ Associativity e.2 = RightAssociative) := by
  decide

theorem band_of_prec_eq :
    ∀ e1 ∈ binaryOperators, ∀ e2 ∈ binaryOperators, Precedence e1.2 = Precedence e2.2 →
      (inRightBand (Precedence e1.2) ↔ Associativity e2.2 = RightAssociative) := by
  intro e1 _ e2 h2 heq
  rw [heq]
  exact (binaryOperators_assoc e2 h2).1

/-- C1: for binary operators `o1`, `o2` (given with their spellings) and
literals `a`, `b`, `c`, `eval_expr` on the text `a o1 b o2 c` with the end
character NUL returns, for every fuel of 20 or more, the cursor on the
terminating NUL and the value of `(a o1 b) o2 c` when `prec(o1) >= prec(o2)`
and `o2` is left-associative or `prec(o1) > prec(o2)` and `o2` is
right-associative, and the value of `a o1 (b o2 c)` otherwise.  Precedence
and associativity are those of `OpData`, the values are those of
`ApplyOperator` (a division by zero in the grouping is a division by zero
of the evaluation). -/
theorem C1_precedence_and_associativity (env : Env) (k : Nat) (s : State)
    (ta tb tc : List Nat) (a b c : Nat) (e1 e2 : String × Nat)
    (h1 : e1 ∈ binaryOperators) (h2 : e2 ∈ binaryOperators)
    (ha : LiteralAt env ta a
      (32 :: (txt e1.1 ++ 32 :: (tb ++ 32 :: (txt e2.1 ++ 32 :: (tc ++ [0]))))))
    (hb : LiteralAt env tb b (32 :: (txt e2.1 ++ 32 :: (tc ++ [0]))))
    (hc : LiteralAt env tc c [0]) :
    eval_expr env (k + 20) s (tripleText ta (txt e1.1) tb (txt e2.1) tc) 0
      = atEnd (if (Associativity e2.2 = LeftAssociative ∧ Precedence e1.2 ≥ Precedence e2.2)
              ∨ (Associativity e2.2 = RightAssociative ∧ Precedence e1.2 > Precedence e2.2)
          then leftGrouping env.x64 env.uninitialised s a b c e1.2 e2.2
          else rightGrouping env.x64 env.uninitialised s a b c e1.2 e2.2) := by
  have p1 := binaryOperators_prec e1 h1
  have p2 := binaryOperators_prec e2 h2
  have as2 := binaryOperators_assoc e2 h2
  rw [eval_triple env k s ta tb tc (txt e1.1) (txt e2.1) a b c e1.2 e2.2 ha hb hc
    (binaryOperators_spell e1 h1) (binaryOperators_spell e2 h2) p1.1 p2.1 p1.2.1 p2.2.1]
  have hiff : (Precedence e2.2 < Precedence e1.2
        ∨ (Precedence e1.2 = Precedence e2.2 ∧ ¬ inRightBand (Precedence e1.2)))
      ↔ ((Associativity e2.2 = LeftAssociative ∧ Precedence e1.2 ≥ Precedence e2.2)
        ∨ (Associativity e2.2 = RightAssociative ∧ Precedence e1.2 > Precedence e2.2)) := by
    have hLR : LeftAssociative ≠ RightAssociative := by decide
    constructor
    · rintro (h | ⟨heq, hb⟩)
      · rcases as2.2 with hl | hr
        · exact Or.inl ⟨hl, le_of_lt h⟩
        · exact Or.inr ⟨hr, h⟩
      · have hnr : ¬ Associativity e2.2 = RightAssociative :=
          fun hr => hb ((band_of_prec_eq e1 h1 e2 h2 heq).2 hr)
        rcases as2.2 with hl | hr
        · exact Or.inl ⟨hl, le_of_eq heq.symm⟩
        · exact (hnr hr).elim
    · rintro (⟨hl, hge⟩ | ⟨_, hgt⟩)
      · rcases Nat.lt_or_eq_of_le hge with h | h
        · exact Or.inl h
        · refine Or.inr ⟨h.symm, fun hb => ?_⟩
          have := (band_of_prec_eq e1 h1 e2 h2 h.symm).1 hb
          rw [hl] at this
          exact hLR this
      · exact Or.inl hgt
  by_cases hcond : (Associativity e2.2 = LeftAssociative ∧ Precedence e1.2 ≥ Precedence e2.2)
      ∨ (Associativity e2.2 = RightAssociative ∧ Precedence e1.2 > Precedence e2.2)
  · rw [if_pos hcond, if_pos (hiff.2 hcond)]
  · rw [if_neg hcond, if_neg (fun h => hcond (hiff.1 h))]

/-- Witness for C1: "1 + 2 * 3" on the 32-bit target groups to the right
and gives 7. -/
theorem C1_precedence_and_associativity_witness :
    eval_expr (plainEnv false) 20 State.init (cstr "1 + 2 * 3") 0
      = Outcome.ok (some [0], 7) State.init :=
  C1_precedence_and_associativity (plainEnv false) 0 State.init (txt "1") (txt "2") (txt "3")
    1 2 3 ("+", Add) ("*", Multiply) (by decide) (by decide)
    ⟨by decide, by decide⟩ ⟨by decide, by decide⟩ ⟨by decide, by decide⟩

theorem digit_not_cast_letter (c : Nat) (h0 : ch '0' ≤ c) (h9 : c ≤ ch '9') :
    c &&& 0xDF ≠ ch 'I' ∧ c &&& 0xDF ≠ ch 'U' ∧ c &&& 0xDF ≠ ch 'F' := by
  have h0' : 48 ≤ c := h0
  have h9' : c ≤ 57 := h9
  interval_cases c <;> decide

theorem CheckCastType_digit (X : List Nat) (h0 : ch '0' ≤ peek X 0) (h9 : peek X 0 ≤ ch '9') :
    CheckCastType X = none := by
  obtain ⟨h1, h2, h3⟩ := digit_not_cast_letter _ h0 h9
  simp only [CheckCastType, h1, h2, h3, or_self, if_false]

/-- A parenthesised sub-expression that starts with a digit is one operand. -/
theorem consume_paren (env : Env) (fuel : Nat) (s s1 : State) (X R : List Nat) (v : Nat)
    (h0 : ch '0' ≤ peek X 0) (h9 : peek X 0 ≤ ch '9')
    (h : eval_expr_impl env fuel s X (ch ')') StartNoOp 0 = Outcome.ok (v, R) s1) :
    consume_value_impl env (fuel + 2) s (40 :: X) = PostfixCheck s1 v (R.drop 1) := by
  have hc := CheckCastType_digit X h0 h9
  simp [consume_value_impl, consume_value_loop, peek, ch, hc] at h ⊢
  rw [h]

theorem afterLower_ok_at_end (env : Env) (fuel v oc end_ nx w : Nat) (s1 : State) (e : List Nat)
    (h1 : peek e 0 ≠ ch '?') (h2 : peek e 0 = end_) :
    afterLower env fuel v oc end_ nx (Outcome.ok (w, e) s1)
      = finish (ApplyOperator env.x64 env.uninitialised s1 v w oc) e := by
  have h3 : ¬ (peek e 0 ≠ end_) := by simp [h2]
  simp only [afterLower, h1, h3, if_false]
  exact applyThen_end env fuel v oc s1 e end_ w nx h2

theorem tok_plus_any_end (R : List Nat) (end_ : Nat) :
    find_next_op_impl (32 :: 43 :: 32 :: R) end_ = (Add, 32 :: R) := by
  simp [find_next_op_impl, find_next_op_loop, peek, ch, u8, Add]

theorem tok_close (R : List Nat) : find_next_op_impl (41 :: R) 41 = (EndGroupOp, 41 :: R) := by
  simp [find_next_op_impl, find_next_op_loop, peek, ch, u8]

theorem wrap_add_wrap_mul (x64 : Bool) (a b c : Nat) :
    wrap x64 (a + wrap x64 (b * c)) = (a + b * c) % wordMod x64 := by
  simp [wrap, Nat.add_mod]

theorem wrap_wrap_add_mul (x64 : Bool) (a b c : Nat) :
    wrap x64 (wrap x64 (a + b) * c) = ((a + b) * c) % wordMod x64 := by
  simp [wrap, Nat.mul_mod]

/-- C4: for literals `a`, `b`, `c`, `eval_expr` with the end character NUL
evaluates "a + b * c" to `(a + b * c) mod 2 ^ W` and "(a + b) * c" to
`((a + b) * c) mod 2 ^ W`, with the cursor on the terminating NUL, for every
fuel of 20 or more; with the literals 1, 2, 3 the results are 7 and 9 on
both targets. -/
theorem C4_parenthesised_operand (env : Env) (k : Nat) (s : State) (ta tb tc : List Nat)
    (a b c : Nat)
    (ha1 : LiteralAt env ta a (txt " + " ++ (tb ++ (txt " * " ++ (tc ++ [0])))))
    (hb1 : LiteralAt env tb b (txt " * " ++ (tc ++ [0])))
    (ha2 : LiteralAt env ta a (txt " + " ++ (tb ++ (txt ") * " ++ (tc ++ [0])))))
    (hb2 : LiteralAt env tb b (txt ") * " ++ (tc ++ [0])))
    (hc : LiteralAt env tc c [0]) :
    eval_expr env (k + 20) s (ta ++ (txt " + " ++ (tb ++ (txt " * " ++ (tc ++ [0]))))) 0
        = Outcome.ok (some [0], (a + b * c) % wordMod env.x64) s
    ∧ eval_expr env (k + 20) s
          (txt "(" ++ (ta ++ (txt " + " ++ (tb ++ (txt ") * " ++ (tc ++ [0])))))) 0
        = Outcome.ok (some [0], ((a + b) * c) % wordMod env.x64) s
    ∧ (∀ x64 : Bool,
        eval_expr (plainEnv x64) (k + 20) s (cstr "1 + 2 * 3") 0 = Outcome.ok (some [0], 7) s
        ∧ eval_expr (plainEnv x64) (k + 20) s (cstr "(1 + 2) * 3") 0
            = Outcome.ok (some [0], 9) s) := by
  have e1 : txt " + " = [32, 43, 32] := by decide
  have e2 : txt " * " = [32, 42, 32] := by decide
  have e3 : txt ") * " = [41, 32, 42, 32] := by decide
  have e4 : txt "(" = [40] := by decide
  simp only [e1, e2, e3, e4, List.cons_append, List.nil_append] at ha1 hb1 ha2 hb2 ⊢
  have sAdd : Spells [43] Add := binaryOperators_spell ("+", Add) (by decide)
  have sMul : Spells [42] Multiply := binaryOperators_spell ("*", Multiply) (by decide)
  refine ⟨?_, ?_, ?_⟩
  · have h := eval_triple env k s ta tb tc [43] [42] a b c Add Multiply ha1 hb1 hc sAdd sMul
      (by decide) (by decide) (by decide) (by decide)
    simp only [tripleText, List.cons_append, List.nil_append] at h
    rw [h, if_neg (by decide)]
    simp only [rightGrouping, ApplyOperator_Multiply, ApplyOperator_Add, Outcome.bind, atEnd,
      wrap_add_wrap_mul]
  · have pS : Precedence StartNoOp = 1 := by decide
    have nS : StartNoOp ≠ NullOp := by decide
    have nA : Add ≠ NullOp := by decide
    -- inside the parentheses
    have inner : eval_expr_impl env (k + 16) s
        (ta ++ 32 :: 43 :: 32 :: (tb ++ 41 :: 32 :: 42 :: 32 :: (tc ++ [0]))) (ch ')') StartNoOp 0
        = Outcome.ok (wrap env.x64 (a + b), 41 :: 32 :: 42 :: 32 :: (tc ++ [0])) s := by
      have hch : ch ')' = 41 := by decide
      rw [hch, impl_unfold,
        loop_of_operand env (k + 14) s s _ _ 41 0 StartNoOp 0 a nS
          (consume_literal env (k + 12) s ta _ a ha2 (blank_no_incdec _)),
        afterOperand_lower env (k + 14) s _ _ 41 0 StartNoOp a Add (tok_plus_any_end _ 41)
          (by decide) (by decide),
        impl_unfold,
        loop_of_operand env (k + 12) s s _ _ 41 a Add 0 b nA
          (by rw [consume_blank, consume_literal env (k + 9) s tb _ b hb2 (by simp [peek, ch])]),
        afterOperand_higher env (k + 12) s _ _ 41 a Add b EndGroupOp (tok_close _) (by decide),
        applyThen_end env (k + 12) a Add s _ _ b EndGroupOp rfl]
      simp only [ApplyOperator_Add, finish]
      rw [afterLower_ok_at_end env (k + 14) 0 StartNoOp 41 Add _ s _ (by simp [peek, ch])
        (by simp [peek])]
      simp only [ApplyOperator_StartNoOp, finish]
    have paren : consume_value_impl env (k + 18) s
        (40 :: (ta ++ 32 :: 43 :: 32 :: (tb ++ 41 :: 32 :: 42 :: 32 :: (tc ++ [0]))))
        = Outcome.ok (wrap env.x64 (a + b), 32 :: 42 :: 32 :: (tc ++ [0])) s := by
      rw [consume_paren env (k + 16) s s _ _ _
        (by rw [peek_append_of_digit _ _ ha2.digit.1]; exact ha2.digit.1)
        (by rw [peek_append_of_digit _ _ ha2.digit.1]; exact ha2.digit.2) inner]
      simp [PostfixCheck, peek, ch]
    have tM : find_next_op_impl (32 :: 42 :: 32 :: (tc ++ [0])) 0
        = (Multiply, 32 :: (tc ++ [0])) := tok_blank [42] (tc ++ [0]) Multiply sMul
    have h : eval_expr_loop env (k + 19) s
        (40 :: (ta ++ 32 :: 43 :: 32 :: (tb ++ 41 :: 32 :: 42 :: 32 :: (tc ++ [0])))) 0 0
          StartNoOp 0
        = finish (Outcome.ok (wrap env.x64 (wrap env.x64 (a + b) * c)) s) [0] := by
      rw [loop_of_operand env (k + 18) s s _ _ 0 0 StartNoOp 0 _ nS paren,
        afterOperand_lower env (k + 18) s _ _ 0 0 StartNoOp _ Multiply tM (by decide) (by decide),
        impl_unfold, lastOperand env (k + 13) s tc c _ Multiply 0 hc (by decide)]
      simp only [ApplyOperator_Multiply, finish]
      rw [afterLower_ok_end]
      simp only [ApplyOperator_StartNoOp, finish]
    rw [eval_expr_of_impl env (k + 19) s _
      (Outcome.ok (wrap env.x64 (wrap env.x64 (a + b) * c)) s) True.intro h]
    simp only [atEnd, Outcome.bind, wrap_wrap_add_mul]
  · intro x64
    cases x64 <;> exact ⟨rfl, rfl⟩

/-- Witness for C4: the literals 1, 2, 3 on the 32-bit target give 7 and 9. -/
theorem C4_parenthesised_operand_witness :
    eval_expr (plainEnv false) 20 State.init (cstr "1 + 2 * 3") 0
        = Outcome.ok (some [0], 7) State.init
    ∧ eval_expr (plainEnv false) 20 State.init (cstr "(1 + 2) * 3") 0
        = Outcome.ok (some [0], 9) State.init :=
  have h := C4_parenthesised_operand (plainEnv false) 0 State.init (txt "1") (txt "2") (txt "3")
    1 2 3 ⟨by decide, by decide⟩ ⟨by decide, by decide⟩ ⟨by decide, by decide⟩
    ⟨by decide, by decide⟩ ⟨by decide, by decide⟩
  ⟨h.1, h.2.1⟩

theorem neg_one_mul_wrap (x64 : Bool) (x : Nat) (hx : x < wordMod x64) :
    wrap x64 (x * SIZE_MAX x64) = (wordMod x64 - x) % wordMod x64 := by
  unfold wrap SIZE_MAX
  have hm := wordMod_pos x64
  rcases Nat.eq_zero_or_pos x with h0 | hpos
  · subst h0; simp
  · have : x * (wordMod x64 - 1) = (wordMod x64 - x) + (x - 1) * wordMod x64 := by
      obtain ⟨m, hm'⟩ : ∃ m, wordMod x64 = m + 1 := ⟨wordMod x64 - 1, by omega⟩
      obtain ⟨y, hy⟩ : ∃ y, x = y + 1 := ⟨x - 1, by omega⟩
      rw [hm', hy]
      have : m + 1 - (y + 1) = m - y := by omega
      rw [this]
      simp only [Nat.add_sub_cancel]
      obtain ⟨d, rfl⟩ : ∃ d, m = y + d := ⟨m - y, by omega⟩
      simp only [Nat.add_sub_cancel_left]
      ring
    rw [this, Nat.add_mul_mod_self_right]

theorem notW_notW (x64 : Bool) (x : Nat) (hx : x < wordMod x64) : notW x64 (notW x64 x) = x := by
  have h1 : wrap x64 x = x := Nat.mod_eq_of_lt hx
  unfold notW SIZE_MAX
  rw [h1]
  have h2 : wrap x64 (wordMod x64 - 1 - x) = wordMod x64 - 1 - x :=
    Nat.mod_eq_of_lt (by omega)
  rw [h2]
  omega

theorem messages_IncDecWarningMessage (s : State) :
    (IncDecWarningMessage s).messages
      = (if s.warnedIncDec then s.messages else s.messages ++ [Msg.IncDecWarning])
    ∧ (IncDecWarningMessage s).warnedIncDec = true := by
  unfold IncDecWarningMessage
  cases h : s.warnedIncDec
  · simp [State.messages, State.emit, List.filterMap_append]
  · simp [h]

/-- C8: for an operand `X` that the value consumer evaluates to the machine
word `x` (leaving the cursor at `rest` and the state `s1`), the doubled
prefixes give `!!X = (x != 0)`, `~~X = x`, `--X = (x - 1) mod 2 ^ W` and
`++X = (x + 1) mod 2 ^ W`, the last two after `IncDecWarningMessage`; the
single prefixes, when `X` does not start with the same character, give
`!X = (x == 0)`, `~X = SIZE_MAX - x` (the bitwise complement),
`-X = (0 - x) mod 2 ^ W` and `+X = x`.  Each result then goes through the
postfix check of the outer operand.  On both targets "!!3", "~~3" and "--3"
evaluate to 1, 3 and 2 (with the warning) for every fuel of 20 or more.
`IncDecWarningMessage` is the warn-once diagnostic of the prefix forms: it
appends the warning to the log unless the process displayed it before, and
sets the flag.  In a fresh process "--3" and "++3" give 2 and 4 with the
warning as the only line of the log, "--3 + ++3" gives 6 with the warning
logged once, and the single forms "-3" and "+3" log nothing. -/
theorem C8_unary_prefixes (env : Env) (fuel : Nat) (s s1 : State) (X rest : List Nat) (x : Nat)
    (hx : x < wordMod env.x64)
    (h : consume_value_impl env fuel s X = Outcome.ok (x, rest) s1) :
    consume_value_impl env (fuel + 2) s (ch '!' :: ch '!' :: X)
        = PostfixCheck s1 (if x ≠ 0 then 1 else 0) rest
    ∧ consume_value_impl env (fuel + 2) s (ch '~' :: ch '~' :: X) = PostfixCheck s1 x rest
    ∧ consume_value_impl env (fuel + 2) s (ch '-' :: ch '-' :: X)
        = PostfixCheck (IncDecWarningMessage s1) ((x + wordMod env.x64 - 1) % wordMod env.x64) rest
    ∧ consume_value_impl env (fuel + 2) s (ch '+' :: ch '+' :: X)
        = PostfixCheck (IncDecWarningMessage s1) ((x + 1) % wordMod env.x64) rest
    ∧ (peek X 0 ≠ ch '!' → consume_value_impl env (fuel + 2) s (ch '!' :: X)
        = PostfixCheck s1 (if x = 0 then 1 else 0) rest)
    ∧ (peek X 0 ≠ ch '~' → consume_value_impl env (fuel + 2) s (ch '~' :: X)
        = PostfixCheck s1 (SIZE_MAX env.x64 - x) rest)
    ∧ (peek X 0 ≠ ch '-' → consume_value_impl env (fuel + 2) s (ch '-' :: X)
        = PostfixCheck s1 ((wordMod env.x64 - x) % wordMod env.x64) rest)
    ∧ (peek X 0 ≠ ch '+' → consume_value_impl env (fuel + 2) s (ch '+' :: X)
        = PostfixCheck s1 x rest)
    ∧ (∀ (x64 : Bool) (k : Nat) (s : State),
        eval_expr (plainEnv x64) (k + 20) s (cstr "!!3") 0 = Outcome.ok (some [0], 1) s
        ∧ eval_expr (plainEnv x64) (k + 20) s (cstr "~~3") 0 = Outcome.ok (some [0], 3) s
        ∧ eval_expr (plainEnv x64) (k + 20) s (cstr "--3") 0
            = Outcome.ok (some [0], 2) (IncDecWarningMessage s))
    ∧ (IncDecWarningMessage s1).messages
        = (if s1.warnedIncDec then s1.messages else s1.messages ++ [Msg.IncDecWarning])
    ∧ (IncDecWarningMessage s1).warnedIncDec = true
    ∧ (∀ (x64 : Bool) (k : Nat),
        eval_expr (plainEnv x64) (k + 20) State.init (cstr "--3") 0
          = Outcome.ok (some [0], 2) ⟨[Event.log Msg.IncDecWarning], false, true, false, false⟩
        ∧ eval_expr (plainEnv x64) (k + 20) State.init (cstr "++3") 0
          = Outcome.ok (some [0], 4) ⟨[Event.log Msg.IncDecWarning], false, true, false, false⟩
        ∧ eval_expr (plainEnv x64) (k + 20) State.init (cstr "--3 + ++3") 0
          = Outcome.ok (some [0], 6) ⟨[Event.log Msg.IncDecWarning], false, true, false, false⟩
        ∧ eval_expr (plainEnv x64) (k + 20) State.init (cstr "-3") 0
          = Outcome.ok (some [0], wordMod x64 - 3) State.init
        ∧ eval_expr (plainEnv x64) (k + 20) State.init (cstr "+3") 0
          = Outcome.ok (some [0], 3) State.init) := by
  have hw : wrap env.x64 x = x := Nat.mod_eq_of_lt hx
  have hnn := notW_notW env.x64 x hx
  have hneg := neg_one_mul_wrap env.x64 x hx
  have hdec : wrap env.x64 (x + SIZE_MAX env.x64) = (x + wordMod env.x64 - 1) % wordMod env.x64 := by
    have := wordMod_pos env.x64
    unfold wrap SIZE_MAX
    congr 1
    omega
  refine ⟨?_, ?_, ?_, ?_, ?_, ?_, ?_, ?_, ?_, (messages_IncDecWarningMessage s1).1,
    (messages_IncDecWarningMessage s1).2, ?_⟩
  · simp [consume_value_impl, consume_value_loop, peek, ch, h, b2n]
  · simp [consume_value_impl, consume_value_loop, peek, ch, h, b2n, hnn]
  · simp [consume_value_impl, consume_value_loop, peek, ch, h, b2n, hdec]
  · simp [consume_value_impl, consume_value_loop, peek, ch, h, b2n, wrap]
  · intro hne
    have hne1 : ¬ (33 = X[0]?.getD 0) := by
      intro e; apply hne; simp [peek, ch, ← e]
    simp [consume_value_impl, consume_value_loop, peek, ch, hne1, h, b2n]
  · intro hne
    have hne1 : ¬ (126 = X[0]?.getD 0) := by
      intro e; apply hne; simp [peek, ch, ← e]
    simp [consume_value_impl, consume_value_loop, peek, ch, hne1, h, b2n, notW, hw]
  · intro hne
    have hne1 : ¬ (45 = X[0]?.getD 0) := by
      intro e; apply hne; simp [peek, ch, ← e]
    simp [consume_value_impl, consume_value_loop, peek, ch, hne1, h, b2n, hneg]
  · intro hne
    have hne1 : ¬ (43 = X[0]?.getD 0) := by
      intro e; apply hne; simp [peek, ch, ← e]
    simp [consume_value_impl, consume_value_loop, peek, ch, hne1, h, b2n]
  · intro x64 k s
    cases x64 <;> exact ⟨rfl, rfl, rfl⟩
  · intro x64 k
    cases x64 <;> exact ⟨rfl, rfl, rfl, rfl, rfl⟩

/-- Witness for C8: the operand "3" on the 32-bit target; the decrement
logs the warning in a fresh process. -/
theorem C8_unary_prefixes_witness :
    consume_value_impl (plainEnv false) 5 State.init (cstr "!!3") = Outcome.ok (1, [0]) State.init
    ∧ consume_value_impl (plainEnv false) 5 State.init (cstr "-3")
        = Outcome.ok (4294967293, [0]) State.init
    ∧ consume_value_impl (plainEnv false) 5 State.init (cstr "--3")
        = Outcome.ok (2, [0]) ⟨[Event.log Msg.IncDecWarning], false, true, false, false⟩
    ∧ (IncDecWarningMessage State.init).messages = [Msg.IncDecWarning] :=
  have h := C8_unary_prefixes (plainEnv false) 3 State.init State.init (cstr "3") [0] 3
    (by decide) (by decide)
  ⟨h.1, h.2.2.2.2.2.2.1 (by decide), h.2.2.1, h.2.2.2.2.2.2.2.2.2.1⟩

theorem skip_value_plain (t : List Nat) (h : Plain t) : skip_value (t ++ [0]) 0 = some [0] := by
  unfold skip_value
  induction t with
  | nil => simp [skip_value_loop]
  | cons x t ih =>
    have hx := h x (List.mem_cons_self x t)
    have ht : Plain t := fun y hy => h y (List.mem_cons_of_mem x hy)
    simp only [ch] at hx
    obtain ⟨h0, h1, h2, h3, h4⟩ := hx
    simp only [List.cons_append, skip_value_loop, ch, h0, h1, h2, h3, h4, or_self, if_false,
      false_and]
    exact ih ht

theorem tok_question (R : List Nat) :
    find_next_op_impl (32 :: 63 :: 32 :: R) 0 = (TernaryConditional, 32 :: R) := by
  simp [find_next_op_impl, find_next_op_loop, peek, ch, u8, TernaryConditional, PreventOverlap]

theorem tok_colon (R : List Nat) :
    find_next_op_impl (32 :: 58 :: R) 58 = (StandaloneTernaryEnd, 58 :: R) := by
  simp [find_next_op_impl, find_next_op_loop, peek, ch, u8, StandaloneTernaryEnd]

/-- A branch of a ternary: a blank, a literal, a blank and the colon. -/
theorem eval_branch (env : Env) (f : Nat) (s : State) (tA R : List Nat) (A : Nat)
    (hA : LiteralAt env tA A (32 :: 58 :: R)) :
    eval_expr_impl env (f + 5) s (32 :: (tA ++ 32 :: 58 :: R)) (ch ':') StartNoOp 0
      = Outcome.ok (A, 32 :: 58 :: R) s := by
  have hch : ch ':' = 58 := by decide
  rw [hch, impl_unfold,
    loop_of_operand env (f + 3) s s _ _ 58 0 StartNoOp 0 A (by decide)
      (by rw [consume_blank, consume_literal env f s tA _ A hA (blank_no_incdec _)]),
    afterOperand_higher env (f + 3) s _ _ 58 0 StartNoOp A StandaloneTernaryEnd (tok_colon R)
      (by decide),
    applyThen_end env (f + 3) 0 StartNoOp s _ _ A StandaloneTernaryEnd rfl]
  rfl

/-- A true condition: the first branch is evaluated and the rest of the text
is skipped. -/
theorem ternary_true (env : Env) (f : Nat) (s : State) (tA T : List Nat) (c A : Nat)
    (hc : c ≠ 0) (hA : LiteralAt env tA A (32 :: 58 :: 32 :: (T ++ [0]))) (hT : Plain T) :
    ternaryThen env (f + 5) 0 StartNoOp 0 TernaryConditional s
        (32 :: (tA ++ 32 :: 58 :: 32 :: (T ++ [0]))) c
      = Outcome.ok (A, [0]) s := by
  have hskip : skip_value (32 :: 58 :: 32 :: (T ++ [0])) 0 = some [0] := by
    have : Plain (32 :: 58 :: 32 :: T) := by
      intro x hx
      simp only [List.mem_cons] at hx
      rcases hx with h | h | h | h
      · subst h; decide
      · subst h; decide
      · subst h; decide
      · exact hT x h
    exact skip_value_plain (32 :: 58 :: 32 :: T) this
  have hpk : peek (32 :: (tA ++ 32 :: 58 :: 32 :: (T ++ [0]))) 0 ≠ ch ':' := by
    simp [peek, ch]
  simp only [ternaryThen, hc, ne_eq, not_false_eq_true, if_true, hpk,
    eval_branch env f s tA _ A hA, hskip]
  rw [applyThen_end env (f + 5) 0 StartNoOp s [0] 0 A TernaryConditional rfl]
  rfl

/-- A false condition: the first branch is evaluated into the dummy with
the codecave warning disabled, and the loop goes on after the colon. -/
theorem ternary_false (env : Env) (f : Nat) (s : State) (tA R : List Nat) (A : Nat)
    (hA : LiteralAt env tA A (32 :: 58 :: 32 :: R)) :
    ternaryThen env (f + 5) 0 StartNoOp 0 TernaryConditional s (32 :: (tA ++ 32 :: 58 :: 32 :: R)) 0
      = eval_expr_loop env (f + 5) { s with DisableCodecaveNotFound := false } (32 :: R) 0 0
          StartNoOp 0 := by
  have hskip : skipPastColon (32 :: 58 :: 32 :: R) = some (32 :: R) := by
    simp [skipPastColon, ch]
  simp only [ternaryThen, ne_eq, not_true_eq_false, if_false,
    eval_branch env f _ tA _ A hA, hskip]
  simp [peek]

/-- The first operand of an expression, followed by a blank. -/
theorem consume_first (env : Env) (f : Nat) (s : State) (t R : List Nat) (v : Nat)
    (h : LiteralAt env t v (32 :: R)) :
    consume_value_impl env (f + 2) s (t ++ 32 :: R) = Outcome.ok (v, 32 :: R) s :=
  consume_literal env f s t _ v h (blank_no_incdec _)

/-- An operand after a blank, followed by a blank. -/
theorem consume_next (env : Env) (f : Nat) (s : State) (t R : List Nat) (v : Nat)
    (h : LiteralAt env t v (32 :: R)) :
    consume_value_impl env (f + 3) s (32 :: (t ++ 32 :: R)) = Outcome.ok (v, 32 :: R) s := by
  rw [consume_blank, consume_literal env f s t _ v h (blank_no_incdec _)]

/-- The loop of the outermost frame on `c ? A : T`, once the condition was
consumed, for a condition that is not 0. -/
theorem loop_ternary_true (env : Env) (f : Nat) (s : State) (E tA T : List Nat) (c A : Nat)
    (hcons : consume_value_impl env (f + 5) s E
      = Outcome.ok (c, 32 :: 63 :: 32 :: (tA ++ 32 :: 58 :: 32 :: (T ++ [0]))) s)
    (hc : c ≠ 0) (hA : LiteralAt env tA A (32 :: 58 :: 32 :: (T ++ [0]))) (hT : Plain T) :
    eval_expr_loop env (f + 6) s E 0 0 StartNoOp 0 = Outcome.ok (A, [0]) s := by
  rw [loop_of_operand env (f + 5) s s E _ 0 0 StartNoOp 0 c (by decide) hcons,
    afterOperand_ternary env (f + 5) s _ _ 0 0 StartNoOp c (tok_question _) (by decide),
    ternary_true env f s tA T c A hc hA hT]

/-- The same for the condition 0. -/
theorem loop_ternary_false (env : Env) (f : Nat) (s : State) (E tA R : List Nat) (A : Nat)
    (hcons : consume_value_impl env (f + 5) s E
      = Outcome.ok (0, 32 :: 63 :: 32 :: (tA ++ 32 :: 58 :: 32 :: R)) s)
    (hA : LiteralAt env tA A (32 :: 58 :: 32 :: R)) :
    eval_expr_loop env (f + 6) s E 0 0 StartNoOp 0
      = eval_expr_loop env (f + 5) { s with DisableCodecaveNotFound := false } (32 :: R) 0 0
          StartNoOp 0 := by
  rw [loop_of_operand env (f + 5) s s E _ 0 0 StartNoOp 0 0 (by decide) hcons,
    afterOperand_ternary env (f + 5) s _ _ 0 0 StartNoOp 0 (tok_question _) (by decide),
    ternary_false env f s tA R A hA]

theorem Plain_append (a b : List Nat) (ha : Plain a) (hb : Plain b) : Plain (a ++ b) := by
  intro x hx
  rcases List.mem_append.mp hx with h | h
  · exact ha x h
  · exact hb x h

/-- C5: for literals `c`, `A`, `B`, `eval_expr` on "c ? A : B" with the end
character NUL returns the cursor on the terminating NUL and the value `A`
when `c` is not 0, `B` when `c` is 0 (in which case the flag
`DisableCodecaveNotFound` is left cleared), for every fuel of 20 or more.
On "c1 ? A : c2 ? B : C" it returns `A` when `c1` is not 0 and otherwise
the value of "c2 ? B : C": the ternary in the false position groups to the
right.  "0 ? 5 : 7" gives 7 and "1 ? 5 : 7" gives 5 on both targets. -/
theorem C5_ternary (env : Env) (k : Nat) (s : State) :
    (∀ (tc tA tB : List Nat) (c A B : Nat),
      LiteralAt env tc c (txt " ? " ++ (tA ++ (txt " : " ++ (tB ++ [0])))) →
      LiteralAt env tA A (txt " : " ++ (tB ++ [0])) →
      LiteralAt env tB B [0] → Plain tB →
      eval_expr env (k + 20) s (tc ++ (txt " ? " ++ (tA ++ (txt " : " ++ (tB ++ [0]))))) 0
        = if c ≠ 0 then Outcome.ok (some [0], A) s
          else Outcome.ok (some [0], B) { s with DisableCodecaveNotFound := false })
    ∧ (∀ (tc1 tA tc2 tB tC : List Nat) (c1 A c2 B C : Nat),
      LiteralAt env tc1 c1
        (txt " ? " ++ (tA ++ (txt " : " ++ (tc2 ++ (txt " ? " ++ (tB ++ (txt " : " ++ (tC ++ [0])))))))) →
      LiteralAt env tA A (txt " : " ++ (tc2 ++ (txt " ? " ++ (tB ++ (txt " : " ++ (tC ++ [0])))))) →
      LiteralAt env tc2 c2 (txt " ? " ++ (tB ++ (txt " : " ++ (tC ++ [0])))) →
      LiteralAt env tB B (txt " : " ++ (tC ++ [0])) →
      LiteralAt env tC C [0] → Plain tc2 → Plain tB → Plain tC →
      eval_expr env (k + 20) s
          (tc1 ++ (txt " ? " ++ (tA ++ (txt " : " ++ (tc2 ++ (txt " ? " ++ (tB ++ (txt " : " ++ (tC ++ [0]))))))))) 0
        = if c1 ≠ 0 then Outcome.ok (some [0], A) s
          else if c2 ≠ 0 then Outcome.ok (some [0], B) { s with DisableCodecaveNotFound := false }
          else Outcome.ok (some [0], C) { s with DisableCodecaveNotFound := false })
    ∧ (∀ x64 : Bool,
        eval_expr (plainEnv x64) (k + 20) State.init (cstr "0 ? 5 : 7") 0
          = Outcome.ok (some [0], 7) State.init
        ∧ eval_expr (plainEnv x64) (k + 20) State.init (cstr "1 ? 5 : 7") 0
          = Outcome.ok (some [0], 5) State.init) := by
  have e1 : txt " ? " = [32, 63, 32] := by decide
  have e2 : txt " : " = [32, 58, 32] := by decide
  refine ⟨?_, ?_, ?_⟩
  · intro tc tA tB c A B hc hA hB hBp
    simp only [e1, e2, List.cons_append, List.nil_append] at hc hA ⊢
    unfold eval_expr
    rw [impl_unfold]
    by_cases h0 : c = 0
    · subst h0
      rw [loop_ternary_false env (k + 13) s _ tA (tB ++ [0]) A
          (consume_first env (k + 16) s tc _ 0 hc) hA,
        lastOperand env (k + 14) _ tB B 0 StartNoOp 0 hB (by decide)]
      simp [ApplyOperator_StartNoOp, finish]
    · rw [loop_ternary_true env (k + 13) s _ tA tB c A
          (consume_first env (k + 16) s tc _ c hc) h0 hA hBp]
      simp [h0]
  · intro tc1 tA tc2 tB tC c1 A c2 B C hc1 hA hc2 hB hC p2 pB pC
    simp only [e1, e2, List.cons_append, List.nil_append] at hc1 hA hc2 hB ⊢
    unfold eval_expr
    rw [impl_unfold]
    by_cases h1 : c1 = 0
    · subst h1
      rw [loop_ternary_false env (k + 13) s _ tA _ A
          (consume_first env (k + 16) s tc1 _ 0 hc1) hA]
      by_cases h2 : c2 = 0
      · subst h2
        rw [loop_ternary_false env (k + 12) _ _ tB (tC ++ [0]) B
            (consume_next env (k + 14) _ tc2 _ 0 hc2) hB,
          lastOperand env (k + 13) _ tC C 0 StartNoOp 0 hC (by decide)]
        simp [ApplyOperator_StartNoOp, finish]
      · rw [loop_ternary_true env (k + 12) _ _ tB tC c2 B
            (consume_next env (k + 14) _ tc2 _ c2 hc2) h2 hB pC]
        simp [h2]
    · have hT : Plain (tc2 ++ 32 :: 63 :: 32 :: (tB ++ 32 :: 58 :: 32 :: tC)) := by
        apply Plain_append _ _ p2
        have : Plain ([32, 63, 32] ++ (tB ++ ([32, 58, 32] ++ tC))) :=
          Plain_append _ _ (by intro x hx; simp at hx; rcases hx with h | h | h <;> subst h <;> decide)
            (Plain_append _ _ pB (Plain_append _ _
              (by intro x hx; simp at hx; rcases hx with h | h | h <;> subst h <;> decide) pC))
        simpa using this
      have hA1 : LiteralAt env tA A
          (32 :: 58 :: 32 :: ((tc2 ++ 32 :: 63 :: 32 :: (tB ++ 32 :: 58 :: 32 :: tC)) ++ [0])) := by
        simpa using hA
      have hc1a : LiteralAt env tc1 c1 (32 :: 63 :: 32 :: (tA ++ 32 :: 58 :: 32 ::
          ((tc2 ++ 32 :: 63 :: 32 :: (tB ++ 32 :: 58 :: 32 :: tC)) ++ [0]))) := by
        simpa using hc1
      have hcons := consume_first env (k + 16) s tc1 _ c1 hc1a
      have hE : tc1 ++ 32 :: 63 :: 32 :: (tA ++ 32 :: 58 :: 32 ::
            (tc2 ++ 32 :: 63 :: 32 :: (tB ++ 32 :: 58 :: 32 :: (tC ++ [0]))))
          = tc1 ++ 32 :: 63 :: 32 :: (tA ++ 32 :: 58 :: 32 ::
            ((tc2 ++ 32 :: 63 :: 32 :: (tB ++ 32 :: 58 :: 32 :: tC)) ++ [0])) := by
        simp
      rw [hE]
      rw [loop_ternary_true env (k + 13) s _ tA _ c1 A hcons h1 hA1 hT]
      simp [h1]
  · intro x64
    cases x64 <;> exact ⟨rfl, rfl⟩

/-- Witness for C5: "0 ? 5 : 7" and "1 ? 5 : 0 ? 6 : 7" on the 32-bit
target. -/
theorem C5_ternary_witness :
    eval_expr (plainEnv false) 20 State.init (cstr "0 ? 5 : 7") 0
        = Outcome.ok (some [0], 7) State.init
    ∧ eval_expr (plainEnv false) 20 State.init (cstr "1 ? 5 : 0 ? 6 : 7") 0
        = Outcome.ok (some [0], 5) State.init :=
  have h := C5_ternary (plainEnv false) 0 State.init
  ⟨h.1 (txt "0") (txt "5") (txt "7") 0 5 7 ⟨by decide, by decide⟩ ⟨by decide, by decide⟩
      ⟨by decide, by decide⟩ (by decide),
   h.2.1 (txt "1") (txt "5") (txt "0") (txt "6") (txt "7") 1 5 0 6 7 ⟨by decide, by decide⟩
      ⟨by decide, by decide⟩ ⟨by decide, by decide⟩ ⟨by decide, by decide⟩
      ⟨by decide, by decide⟩ (by decide) (by decide) (by decide)⟩

/-- C2, at the failing input "1 " with the end character NUL: `eval_expr`
succeeds with the value 1 and returns the cursor on the blank in front of
the terminating NUL, not on the NUL; the same happens inside parentheses,
where "(1 ) + 2" is left with the cursor on ") + 2" and the value 1. -/
theorem C2_cursor_on_trailing_blank (x64 : Bool) (k : Nat) (s : State) :
    eval_expr (plainEnv x64) (k + 20) s (cstr "1 ") 0 = Outcome.ok (some (cstr " "), 1) s
    ∧ peek (cstr " ") 0 ≠ 0
    ∧ eval_expr (plainEnv x64) (k + 20) s (cstr "(1 ) + 2") 0
        = Outcome.ok (some (cstr ") + 2"), 1) s := by
  cases x64 <;> exact ⟨rfl, by decide, rfl⟩

theorem tok_question_any (X : List Nat) :
    find_next_op_impl (32 :: 63 :: X) 0 = (TernaryConditional, X) := by
  simp [find_next_op_impl, find_next_op_loop, peek, ch, u8, TernaryConditional, PreventOverlap]

/-- A false condition, for any text of the first branch: the branch is
evaluated with the codecave warning disabled, and the loop goes on after
the colon in the state reached by that evaluation. -/
theorem ternary_false_of_branch (env : Env) (f : Nat) (s s1 : State) (X R Rest : List Nat)
    (v : Nat)
    (hb : eval_expr_impl env f { s with DisableCodecaveNotFound := true } X (ch ':') StartNoOp 0
      = Outcome.ok (v, R) s1)
    (hs : skipPastColon R = some (32 :: Rest)) :
    ternaryThen env f 0 StartNoOp 0 TernaryConditional s X 0
      = eval_expr_loop env f { s1 with DisableCodecaveNotFound := false } (32 :: Rest) 0 0
          StartNoOp 0 := by
  simp only [ternaryThen, ne_eq, not_true_eq_false, if_false, hb, hs]
  simp [peek]

theorem ternary_false_of_null (env : Env) (f : Nat) (s s1 : State) (X : List Nat)
    (hb : eval_expr_impl env f { s with DisableCodecaveNotFound := true } X (ch ':') StartNoOp 0
      = Outcome.null s1) :
    ternaryThen env f 0 StartNoOp 0 TernaryConditional s X 0
      = Outcome.null ({ s1 with DisableCodecaveNotFound := false }.emit Msg.ExpressionError) := by
  simp only [ternaryThen, ne_eq, not_true_eq_false, if_false, hb]

/-- C6, as stated, fails for the condition 0: in "0 ? <option:foo> : 1" the
option of the first branch is looked up although that branch is not
selected, and in "0 ? <option:x> : 1", where the option does not exist,
the messages of the first branch are logged and the evaluation fails. -/
theorem C6_counterexample :
    eval_expr (optionEnv false) 20 State.init (cstr "0 ? <option:foo> : 1") 0
      = Outcome.ok (some [0], 1) ⟨[Event.patch_opt_get_len (txt "foo")], false, false, false, false⟩
    ∧ eval_expr (plainEnv false) 20 State.init (cstr "0 ? <option:x> : 1") 0
      = Outcome.ok (none, 0) ⟨[Event.patch_opt_get_len (txt "x"),
          Event.log (Msg.OptionNotFoundError (txt "x")),
          Event.log Msg.InvalidPatchValueTypeError,
          Event.log (Msg.InvalidValueError (cstr " <option:x> : 1")),
          Event.log Msg.ExpressionError, Event.log Msg.ExpressionError],
          false, false, false, false⟩ := by
  constructor <;> decide

/-- C6, amended: in `c ? A : B` with a literal condition, when `c` is not 0
the branch `B` is skipped syntactically: whatever text without NUL and
grouping brackets stands there, the result is `A` and the state (the trace
of lookups and messages with it) is the one reached after `A`.  When `c`
is 0 the branch `A` is passed over by evaluating it with
`DisableCodecaveNotFound` set: the lookups and messages of that evaluation
stay in the state, its value is dropped and the result is `B`; if that
evaluation fails, the whole evaluation fails with `*out = 0`. -/
theorem C6_ternary_branches (env : Env) (k : Nat) (s : State) :
    (∀ (tc tA T : List Nat) (c A : Nat), c ≠ 0 →
      LiteralAt env tc c (txt " ? " ++ (tA ++ (txt " : " ++ (T ++ [0])))) →
      LiteralAt env tA A (txt " : " ++ (T ++ [0])) → Plain T →
      eval_expr env (k + 20) s (tc ++ (txt " ? " ++ (tA ++ (txt " : " ++ (T ++ [0]))))) 0
        = Outcome.ok (some [0], A) s)
    ∧ (∀ (tc X R tB : List Nat) (v B : Nat) (s1 : State),
      LiteralAt env tc 0 (txt " ?" ++ X) →
      eval_expr_impl env (k + 18) { s with DisableCodecaveNotFound := true } X (ch ':')
          StartNoOp 0 = Outcome.ok (v, R) s1 →
      skipPastColon R = some (32 :: (tB ++ [0])) → LiteralAt env tB B [0] →
      eval_expr env (k + 20) s (tc ++ (txt " ?" ++ X)) 0
        = Outcome.ok (some [0], B) { s1 with DisableCodecaveNotFound := false })
    ∧ (∀ (tc X : List Nat) (s1 : State),
      LiteralAt env tc 0 (txt " ?" ++ X) →
      eval_expr_impl env (k + 18) { s with DisableCodecaveNotFound := true } X (ch ':')
          StartNoOp 0 = Outcome.null s1 →
      eval_expr env (k + 20) s (tc ++ (txt " ?" ++ X)) 0
        = Outcome.ok (none, 0)
            (({ s1 with DisableCodecaveNotFound := false }.emit Msg.ExpressionError).emit
              Msg.ExpressionError)) := by
  have e1 : txt " ? " = [32, 63, 32] := by decide
  have e2 : txt " : " = [32, 58, 32] := by decide
  have e3 : txt " ?" = [32, 63] := by decide
  refine ⟨?_, ?_, ?_⟩
  · intro tc tA T c A h0 hc hA hT
    simp only [e1, e2, List.cons_append, List.nil_append] at hc hA ⊢
    unfold eval_expr
    rw [impl_unfold, loop_ternary_true env (k + 13) s _ tA T c A
      (consume_first env (k + 16) s tc _ c hc) h0 hA hT]
  · intro tc X R tB v B s1 hc hb hs hB
    simp only [e3, List.cons_append, List.nil_append] at hc ⊢
    unfold eval_expr
    rw [impl_unfold,
      loop_of_operand env (k + 18) s s _ _ 0 0 StartNoOp 0 0 (by decide)
        (consume_first env (k + 16) s tc _ 0 hc),
      afterOperand_ternary env (k + 18) s _ _ 0 0 StartNoOp 0 (tok_question_any X) (by decide),
      ternary_false_of_branch env (k + 18) s s1 X R (tB ++ [0]) v hb hs,
      lastOperand env (k + 14) _ tB B 0 StartNoOp 0 hB (by decide)]
    rfl
  · intro tc X s1 hc hb
    simp only [e3, List.cons_append, List.nil_append] at hc ⊢
    unfold eval_expr
    rw [impl_unfold,
      loop_of_operand env (k + 18) s s _ _ 0 0 StartNoOp 0 0 (by decide)
        (consume_first env (k + 16) s tc _ 0 hc),
      afterOperand_ternary env (k + 18) s _ _ 0 0 StartNoOp 0 (tok_question_any X) (by decide),
      ternary_false_of_null env (k + 18) s s1 X hb]

/-- Witness for C6: "1 ? 5 : <option:x>" leaves the state untouched, and
"0 ? <option:foo> : 1" keeps the lookup of the first branch. -/
theorem C6_ternary_branches_witness :
    eval_expr (plainEnv false) 20 State.init (cstr "1 ? 5 : <option:x>") 0
        = Outcome.ok (some [0], 5) State.init
    ∧ eval_expr (optionEnv false) 20 State.init (cstr "0 ? <option:foo> : 1") 0
        = Outcome.ok (some [0], 1)
            ⟨[Event.patch_opt_get_len (txt "foo")], false, false, false, false⟩ :=
  ⟨(C6_ternary_branches (plainEnv false) 0 State.init).1 (txt "1") (txt "5")
      (txt "<option:x>") 1 5 (by decide) ⟨by decide, by decide⟩ ⟨by decide, by decide⟩
      (by decide),
   (C6_ternary_branches (optionEnv false) 0 State.init).2.1 (txt "0")
      (cstr " <option:foo> : 1") (cstr " : 1") (txt "1") 42 1
      ⟨[Event.patch_opt_get_len (txt "foo")], true, false, false, false⟩
      ⟨by decide, by decide⟩ (by decide) (by decide) ⟨by decide, by decide⟩⟩

/-- C7, as stated, fails: in "0 && <option:x>" and "1 || <option:x>" the
right operand is consumed: the option is looked up, 'not found' is logged
and, the patch value having no type, the evaluation fails; with an
existing option, "0 && <option:foo>" evaluates to 0 after the lookup. -/
theorem C7_counterexample :
    eval_expr (plainEnv false) 20 State.init (cstr "0 && <option:x>") 0
      = Outcome.ok (none, 0) ⟨[Event.patch_opt_get_len (txt "x"),
          Event.log (Msg.OptionNotFoundError (txt "x")),
          Event.log Msg.InvalidPatchValueTypeError,
          Event.log (Msg.InvalidValueError (cstr " <option:x>")),
          Event.log Msg.ExpressionError, Event.log Msg.ExpressionError],
          false, false, false, false⟩
    ∧ eval_expr (plainEnv false) 20 State.init (cstr "1 || <option:x>") 0
      = Outcome.ok (none, 0) ⟨[Event.patch_opt_get_len (txt "x"),
          Event.log (Msg.OptionNotFoundError (txt "x")),
          Event.log Msg.InvalidPatchValueTypeError,
          Event.log (Msg.InvalidValueError (cstr " <option:x>")),
          Event.log Msg.ExpressionError, Event.log Msg.ExpressionError],
          false, false, false, false⟩
    ∧ eval_expr (optionEnv false) 20 State.init (cstr "0 && <option:foo>") 0
      = Outcome.ok (some [0], 0)
          ⟨[Event.patch_opt_get_len (txt "foo")], false, false, false, false⟩ := by
  refine ⟨?_, ?_, ?_⟩ <;> decide

/-- C7, amended: `&&`, `||`, `!&&` and `!||` do not short-circuit.  For a
literal `v` on the left and any right operand `X` that the value consumer
evaluates to `x` (reaching the state `s1` and the terminating NUL), the
evaluation of `v op X` consumes `X` whatever `v` is: its result is
`ApplyOperator` on `v` and `x` in the state `s1`, which holds the lookups
and messages of `X`.  The values are 0 for `0 && X`, 1 for `1 || X`, 1 for
`0 !&& X` and 0 for `1 !|| X`. -/
theorem C7_no_short_circuit (env : Env) (k : Nat) (s s1 : State) (e : String × Nat)
    (tv X : List Nat) (v x : Nat)
    (he : e ∈ shortCircuitCandidates)
    (hv : LiteralAt env tv v (32 :: (txt e.1 ++ 32 :: X)))
    (hX : consume_value_impl env (k + 16) s (32 :: X) = Outcome.ok (x, [0]) s1) :
    eval_expr env (k + 20) s (tv ++ 32 :: (txt e.1 ++ 32 :: X)) 0
        = atEnd (ApplyOperator env.x64 env.uninitialised s1 v x e.2)
    ∧ ApplyOperator env.x64 env.uninitialised s1 0 x LogicalAnd = Outcome.ok 0 s1
    ∧ ApplyOperator env.x64 env.uninitialised s1 1 x LogicalOr = Outcome.ok 1 s1
    ∧ ApplyOperator env.x64 env.uninitialised s1 0 x LogicalNand = Outcome.ok 1 s1
    ∧ ApplyOperator env.x64 env.uninitialised s1 1 x LogicalNor = Outcome.ok 0 s1 := by
  have hmem : e ∈ binaryOperators := by
    simp only [shortCircuitCandidates, List.mem_cons, List.mem_singleton, List.not_mem_nil,
      or_false] at he
    rcases he with h | h | h | h <;> subst h <;> decide
  have hp := binaryOperators_prec e hmem
  have hsp := binaryOperators_spell e hmem
  have pN : Precedence NullOp = 0 := by decide
  have hne : e.2 ≠ NullOp := by intro h; rw [h, pN] at hp; omega
  refine ⟨?_, rfl, rfl, rfl, rfl⟩
  have h : eval_expr_loop env (k + 19) s (tv ++ 32 :: (txt e.1 ++ 32 :: X)) 0 0 StartNoOp 0
      = finish (ApplyOperator env.x64 env.uninitialised s1 v x e.2) [0] := by
    rw [loop_of_operand env (k + 18) s s _ _ 0 0 StartNoOp 0 v (by decide)
        (consume_first env (k + 16) s tv _ v hv),
      afterOperand_lower env (k + 18) s _ _ 0 0 StartNoOp v e.2 (tok_blank _ X e.2 hsp)
        (by have : Precedence StartNoOp = 1 := by decide
            omega) hp.2.1,
      impl_unfold,
      loop_of_operand env (k + 16) s s1 _ _ 0 v e.2 0 x hne hX,
      afterOperand_higher env (k + 16) s1 [0] [0] 0 v e.2 x NullOp tok_nul (by omega),
      applyThen_end env (k + 16) v e.2 s1 [0] (peek [0] 0) x NullOp rfl]
    rcases ApplyOperator_ok_or_trap env.x64 env.uninitialised s1 v x e.2 with ⟨w, s2, hw⟩ | ⟨s2, hw⟩
    · rw [hw]; simp only [finish]; rw [afterLower_ok_end]; rfl
    · rw [hw]; rfl
  exact eval_expr_of_impl env (k + 19) s _ _ (ApplyOperator_okOrTrap _ _ _ _ _ _) h

/-- Witness for C7: "0 && <option:foo>" with the option `foo = 42`. -/
theorem C7_no_short_circuit_witness :
    eval_expr (optionEnv false) 20 State.init (cstr "0 && <option:foo>") 0
      = Outcome.ok (some [0], 0)
          ⟨[Event.patch_opt_get_len (txt "foo")], false, false, false, false⟩ :=
  (C7_no_short_circuit (optionEnv false) 0 State.init
    ⟨[Event.patch_opt_get_len (txt "foo")], false, false, false, false⟩ ("&&", LogicalAnd)
    (txt "0") (cstr "<option:foo>") 0 42 (by decide) ⟨by decide, by decide⟩ (by decide)).1

theorem signExtend_64_of_lt (x64 : Bool) (x : Nat) (h : x < wordMod x64) :
    signExtend x64 64 x = x := by
  cases x64
  · have h1 : x < 4294967296 := h
    have e : x % 18446744073709551616 = x := Nat.mod_eq_of_lt (by omega)
    simp only [signExtend, wrap, wordMod, wordBits, Bool.false_eq_true, if_false]
    norm_num
    rw [e]
    have : x < 9223372036854775808 := by omega
    simp [this, Nat.mod_eq_of_lt h1]
  · have h1 : x < 18446744073709551616 := h
    simp only [signExtend, wrap, wordMod, wordBits, if_true]
    norm_num
    rw [Nat.mod_eq_of_lt h1]
    split
    · rfl
    · omega

theorem castValue_integer (env : Env) (x : Nat) (h : x < wordMod env.x64) :
    castValue env 1 x = castResult env.x64 8 false x
    ∧ castValue env 2 x = castResult env.x64 8 true x
    ∧ castValue env 3 x = castResult env.x64 16 false x
    ∧ castValue env 4 x = castResult env.x64 16 true x
    ∧ castValue env 5 x = castResult env.x64 32 false x
    ∧ castValue env 6 x = castResult env.x64 32 true x
    ∧ castValue env 7 x = castResult env.x64 64 false x
    ∧ castValue env 8 x = castResult env.x64 64 true x := by
  have h64 := signExtend_64_of_lt env.x64 x h
  cases hb : env.x64
  · rw [hb] at h h64
    have h1 : x < 4294967296 := h
    have e1 : x % 4294967296 = x := Nat.mod_eq_of_lt h1
    have e2 : x % 256 % 4294967296 = x % 256 := Nat.mod_eq_of_lt (by omega)
    have e3 : x % 65536 % 4294967296 = x % 65536 := Nat.mod_eq_of_lt (by omega)
    have e4 : x % 18446744073709551616 = x := Nat.mod_eq_of_lt (by omega)
    refine ⟨?_, ?_, ?_, ?_, ?_, ?_, ?_, ?_⟩ <;>
      simp [castValue, castResult, PVT_DEFAULT, PVT_QWORD, PVT_DWORD, PVT_BYTE, PVT_SBYTE,
        PVT_WORD, PVT_SWORD, PVT_SDWORD, PVT_SQWORD, PVT_FLOAT, PVT_DOUBLE, wrap, wordMod,
        wordBits, h64, hb, e1, e2, e3, e4]
  · rw [hb] at h h64
    have h1 : x < 18446744073709551616 := h
    have e1 : x % 18446744073709551616 = x := Nat.mod_eq_of_lt h1
    have e2 : x % 256 % 18446744073709551616 = x % 256 := Nat.mod_eq_of_lt (by omega)
    have e3 : x % 65536 % 18446744073709551616 = x % 65536 := Nat.mod_eq_of_lt (by omega)
    have e4 : x % 4294967296 % 18446744073709551616 = x % 4294967296 :=
      Nat.mod_eq_of_lt (by omega)
    refine ⟨?_, ?_, ?_, ?_, ?_, ?_, ?_, ?_⟩ <;>
      simp [castValue, castResult, PVT_DEFAULT, PVT_QWORD, PVT_DWORD, PVT_BYTE, PVT_SBYTE,
        PVT_WORD, PVT_SWORD, PVT_SDWORD, PVT_SQWORD, PVT_FLOAT, PVT_DOUBLE, wrap, wordMod,
        wordBits, h64, hb, e1, e2, e3, e4]

/-- A cast in front of an operand, in terms of the result of
`CheckCastType`. -/
theorem consume_cast_of (env : Env) (fuel : Nat) (s s1 : State) (X Y rest : List Nat)
    (x tag : Nat) (hc : CheckCastType X = some (tag, Y))
    (h : consume_value_impl env fuel s Y = Outcome.ok (x, rest) s1) :
    consume_value_impl env (fuel + 2) s (40 :: X)
      = PostfixCheck s1 (castValue env tag x) (rest.drop 1) := by
  simp [consume_value_impl, consume_value_loop, peek, ch, hc, h]

/-- The integer casts are recognised by `CheckCastType`, which gives the
unsigned tags 1, 3, 5, 7 and the signed tags 2, 4, 6, 8 for the widths 8,
16, 32, 64. -/
theorem CheckCastType_integer (X : List Nat) :
    ∀ e ∈ integerCasts, CheckCastType (txt e.1 ++ 41 :: X)
      = some (integerCastTag e.2.1 e.2.2, X) := by
  intro e he
  simp only [integerCasts, List.mem_cons, List.mem_singleton, List.not_mem_nil, or_false] at he
  rcases he with rfl | rfl | rfl | rfl | rfl | rfl | rfl | rfl | rfl | rfl | rfl | rfl | rfl
    | rfl | rfl | rfl <;>
  simp [CheckCastType, txt, peek, ch, integerCastTag, b2n, PVT_FLOAT,
    show (73 : Nat) &&& 223 = 73 by decide, show (85 : Nat) &&& 223 = 85 by decide,
    show (105 : Nat) &&& 223 = 73 by decide, show (117 : Nat) &&& 223 = 85 by decide]

/-- At an angle bracket, and without a register bank at a square bracket,
the value consumer hands the text to `get_patch_value_impl` and converts
the patch value by its tag. -/
theorem consume_patch_value (env : Env) (fuel : Nat) (s s1 : State) (X rest : List Nat)
    (v : patch_val_t) (is_relative : Bool) (hregs : is_relative = true → env.regs = 0)
    (h : get_patch_value_impl env fuel s (bracketOpen is_relative :: X)
        ⟨PVT_DEFAULT env.x64, env.uninitialised, [], 0, 0, 0⟩ = Outcome.ok (v, rest) s1) :
    consume_value_impl env (fuel + 2) s (bracketOpen is_relative :: X)
      = patchValueOperand env s1 v rest := by
  cases is_relative
  · have h1 : get_patch_value_impl env fuel s (60 :: X)
        ⟨PVT_DEFAULT env.x64, env.uninitialised, [], 0, 0, 0⟩ = Outcome.ok (v, rest) s1 := h
    show consume_value_impl env (fuel + 2) s (60 :: X) = _
    simp [consume_value_impl, consume_value_loop, peek, ch, h1, patchValueOperand]
  · have h1 : get_patch_value_impl env fuel s (91 :: X)
        ⟨PVT_DEFAULT env.x64, env.uninitialised, [], 0, 0, 0⟩ = Outcome.ok (v, rest) s1 := h
    show consume_value_impl env (fuel + 2) s (91 :: X) = _
    simp [consume_value_impl, consume_value_loop, peek, ch, h1, patchValueOperand,
      hregs rfl]

/-- A cast in front of an operand: the operand is consumed, its value is
converted, and the pointer returned by the inner call is incremented once
more before the label `PostfixCheck`. -/
theorem consume_cast (env : Env) (fuel : Nat) (s s1 : State) (X rest : List Nat) (x : Nat)
    (e : String × Nat × Bool) (he : e ∈ integerCasts) (hx : x < wordMod env.x64)
    (h : consume_value_impl env fuel s X = Outcome.ok (x, rest) s1) :
    consume_value_impl env (fuel + 2) s (40 :: (txt e.1 ++ 41 :: X))
      = PostfixCheck s1 (castResult env.x64 e.2.1 e.2.2 x) (rest.drop 1) := by
  rw [consume_cast_of env fuel s s1 _ X rest x _ (CheckCastType_integer X e he) h]
  obtain ⟨c1, c2, c3, c4, c5, c6, c7, c8⟩ := castValue_integer env x hx
  simp only [integerCasts, List.mem_cons, List.mem_singleton, List.not_mem_nil, or_false] at he
  rcases he with rfl | rfl | rfl | rfl | rfl | rfl | rfl | rfl | rfl | rfl | rfl | rfl | rfl
    | rfl | rfl | rfl <;>
  simp [integerCastTag, b2n, c1, c2, c3, c4, c5, c6, c7, c8]

/-- C11, at the failing input "(I8)0xFF" with the end character NUL: the
value consumer converts the operand as the claim says (the low 8 bits,
sign-extended: `SIZE_MAX`; for "(U8)0x1FF" the low 8 bits: 0xFF), but it
returns the pointer one past the terminating NUL, so what `eval_expr`
yields depends on the bytes that follow the string in memory: with the
bytes of "+1" there, "(I8)0xFF" evaluates to 0 and "(U8)0x1FF" to 0x100.
Inside one string the same increment skips the character after the
operand: "(I8)0xFF+1" yields `SIZE_MAX` with the cursor on "1". -/
theorem C11_cast_example_reads_past_nul (x64 : Bool) (k : Nat) (s : State) :
    consume_value_impl (plainEnv x64) (k + 5) s (cstr "(I8)0xFF")
      = Outcome.ok (SIZE_MAX x64, []) s
    ∧ consume_value_impl (plainEnv x64) (k + 5) s (cstr "(U8)0x1FF") = Outcome.ok (0xFF, []) s
    ∧ eval_expr (plainEnv x64) (k + 20) s (cstr "(I8)0xFF" ++ cstr "+1") 0
      = Outcome.ok (some [0], 0) s
    ∧ eval_expr (plainEnv x64) (k + 20) s (cstr "(U8)0x1FF" ++ cstr "+1") 0
      = Outcome.ok (some [0], 0x100) s
    ∧ eval_expr (plainEnv x64) (k + 20) s (cstr "(I8)0xFF+1") 0
      = Outcome.ok (some (cstr "1"), SIZE_MAX x64) s := by
  cases x64 <;> exact ⟨rfl, rfl, rfl, rfl, rfl⟩

/-- C12, at the failing input "(U8)5+1": after the cast operand "(U8)5" the
value consumer returns the cursor on "1", one character past the position
immediately after the operand, so the `+` is not seen and `eval_expr`
yields 5 with the cursor on "1"; for "(U8)5" alone the cursor returned is
past the terminating NUL.  Without the cast ("5+1", "(5)+1") the cursor is
returned on the `+` and the sum is 6. -/
theorem C12_cast_cursor_one_too_far (x64 : Bool) (k : Nat) (s : State) :
    consume_value_impl (plainEnv x64) (k + 5) s (cstr "(U8)5+1") = Outcome.ok (5, cstr "1") s
    ∧ eval_expr (plainEnv x64) (k + 20) s (cstr "(U8)5+1") 0 = Outcome.ok (some (cstr "1"), 5) s
    ∧ consume_value_impl (plainEnv x64) (k + 5) s (cstr "(U8)5") = Outcome.ok (5, []) s
    ∧ consume_value_impl (plainEnv x64) (k + 5) s (cstr "5+1") = Outcome.ok (5, cstr "+1") s
    ∧ consume_value_impl (plainEnv x64) (k + 9) s (cstr "(5)+1") = Outcome.ok (5, cstr "+1") s
    ∧ eval_expr (plainEnv x64) (k + 20) s (cstr "(5)+1") 0 = Outcome.ok (some [0], 6) s := by
  cases x64 <;> exact ⟨rfl, rfl, rfl, rfl, rfl, rfl⟩

theorem wrap_add_wordMod (x64 : Bool) (n : Nat) (h : n < wordMod x64) :
    wrap x64 (wordMod x64 + n) = n := by
  unfold wrap
  rw [Nat.add_mod_left, Nat.mod_eq_of_lt h]

theorem one_lt_wordMod (x64 : Bool) : 1 < wordMod x64 := by
  cases x64 <;> decide

theorem find_matching_end_loop_name (x64 : Bool) (st en : Nat) (hen : en ≠ 0) (hse : st ≠ en)
    (rest : List Nat) :
    ∀ N : List Nat, NameChars st en N →
      find_matching_end_loop x64 st en 1 (N ++ en :: rest) = some (en :: rest) := by
  intro N
  induction N with
  | nil =>
    intro _
    have h1 : wrap x64 (wordMod x64) = 0 := by unfold wrap; exact Nat.mod_self _
    simp [find_matching_end_loop, hen, b2n, hse.symm, h1]
  | cons c t ih =>
    intro h
    have hc := h c (List.mem_cons_self c t)
    have ht : NameChars st en t := fun d hd => h d (List.mem_cons_of_mem c hd)
    have h1 : wrap x64 (1 + wordMod x64) = 1 := by
      rw [Nat.add_comm]; exact wrap_add_wordMod x64 1 (one_lt_wordMod x64)
    simp [find_matching_end_loop, hc.1, hc.2.1, hc.2.2, b2n, h1, ih ht]

/-- The closing bracket of a bracketed name is found by `find_matching_end`. -/
theorem find_matching_end_name (x64 : Bool) (st en : Nat) (hst : st ≠ 0) (hen : en ≠ 0)
    (hse : st ≠ en) (N rest : List Nat) (h : NameChars st en N) :
    find_matching_end x64 (st :: (N ++ en :: rest)) st en = some (en :: rest) := by
  have h1 : wrap x64 (wordMod x64 + 1) = 1 := wrap_add_wordMod x64 1 (one_lt_wordMod x64)
  simp [find_matching_end, find_matching_end_loop, hst, hse, b2n, h1,
    find_matching_end_loop_name x64 st en hen hse rest N h]

theorem PtrDiffStrlen_name (x64 : Bool) (N : List Nat) (c : Nat) (rest : List Nat)
    (h : N.length < wordMod x64) : PtrDiffStrlen x64 (c :: rest) (N ++ c :: rest) = N.length := by
  unfold PtrDiffStrlen
  have : wordMod x64 + (N ++ c :: rest).length - (c :: rest).length = wordMod x64 + N.length := by
    simp; omega
  rw [this]; exact wrap_add_wordMod x64 _ h

theorem NameChars_append (st en : Nat) (A B : List Nat) (hA : NameChars st en A)
    (hB : NameChars st en B) : NameChars st en (A ++ B) := by
  intro c hc
  rcases List.mem_append.mp hc with h | h
  · exact hA c h
  · exact hB c h

/-- The patch value `<option:N>`: the option store is asked for `N`; a
found option replaces the whole value, a missing one leaves the tag
`PVT_UNKNOWN` after the message of `GetOptionValue`. -/
theorem get_patch_value_impl_option (env : Env) (fuel : Nat) (s : State) (N rest : List Nat)
    (out : patch_val_t) (hN : NameChars 60 62 N) (hlen : N.length < wordMod env.x64) :
    get_patch_value_impl env (fuel + 1) s (60 :: (txt "option:" ++ (N ++ 62 :: rest))) out
      = match env.patch_opt_get_len N with
        | some v => Outcome.ok (v, rest) (s.record (Event.patch_opt_get_len N))
        | none => Outcome.ok ({ out with type := PVT_UNKNOWN }, rest)
            ((s.record (Event.patch_opt_get_len N)).emit (Msg.OptionNotFoundError N)) := by
  have hfm : find_matching_end env.x64 (60 :: ((txt "option:" ++ N) ++ 62 :: rest)) 60 62
      = some (62 :: rest) :=
    find_matching_end_name env.x64 60 62 (by decide) (by decide) (by decide) _ rest
      (NameChars_append 60 62 _ N (by decide) hN)
  have hpd := PtrDiffStrlen_name env.x64 N 62 rest hlen
  rw [List.append_assoc] at hfm
  have e : txt "option:" = [111, 112, 116, 105, 111, 110, 58] := by decide
  rw [e] at hfm ⊢
  simp only [List.cons_append, List.nil_append] at hfm ⊢
  simp only [get_patch_value_impl, peek, ch]
  simp [hfm, strnicmp_eq, tolower, peek, ch, cstr, txt, hpd, GetOptionValue]
  cases env.patch_opt_get_len N <;> rfl

theorem signExtend_64 (x64 : Bool) (v : Nat) :
    signExtend x64 64 v = wrap x64 (v % 2 ^ 64) := by
  cases x64
  · simp only [signExtend, wrap, wordMod, wordBits, Bool.false_eq_true, if_false]
    norm_num
    omega
  · simp only [signExtend, wrap, wordMod, wordBits, if_true]
    norm_num
    omega

theorem patchValueToSize_integer (env : Env) (v : patch_val_t) (t : Nat × Nat × Bool)
    (ht : t ∈ integerTags) (hty : v.type = t.1) :
    patchValueToSize env v = some (castResult env.x64 t.2.1 t.2.2 v.raw) := by
  have h64 := signExtend_64 env.x64 v.raw
  have hw : ∀ n : Nat, n < 4294967296 → wrap env.x64 n = n := by
    intro n hn
    unfold wrap
    apply Nat.mod_eq_of_lt
    cases env.x64
    · exact hn
    · exact lt_trans hn (by decide)
  have h8 := hw (v.raw % 256) (by omega)
  have h16 := hw (v.raw % 65536) (by omega)
  have h32 := hw (v.raw % 4294967296) (by omega)
  simp only [integerTags, List.mem_cons, List.mem_singleton, List.not_mem_nil, or_false] at ht
  rcases ht with rfl | rfl | rfl | rfl | rfl | rfl | rfl | rfl <;>
  simp [patchValueToSize, castResult, hty, PVT_BYTE, PVT_SBYTE, PVT_WORD, PVT_SWORD, PVT_DWORD,
    PVT_SDWORD, PVT_QWORD, PVT_SQWORD, h64, h8, h16, h32]

/-- A tag wider than the machine word: on a 32-bit target the qword option
`big` = 0x100000001 makes "<option:big>" evaluate to 1, its low 32 bits. -/
theorem option_qword_on_32bit :
    eval_expr (qwordOptionEnv false) 20 State.init (cstr "<option:big>") 0
      = Outcome.ok (some [0], 1) (State.init.record (Event.patch_opt_get_len (txt "big")))
    ∧ (qwordOptionEnv false).patch_opt_get_len (txt "big")
      = some ⟨PVT_QWORD, 0x100000001, [], 0, 0, 0⟩
    ∧ wordMod false = 2 ^ 32 := by
  refine ⟨rfl, rfl, rfl⟩

theorem castResult_widened (x64 : Bool) (raw : Nat) :
    ∀ t ∈ integerTags, castResult x64 t.2.1 t.2.2 raw = widened x64 t.2.1 t.2.2 raw := by
  intro t ht
  simp only [integerTags, List.mem_cons, List.mem_singleton, List.not_mem_nil, or_false] at ht
  rcases ht with rfl | rfl | rfl | rfl | rfl | rfl | rfl | rfl <;> cases x64 <;>
    simp only [castResult, widened, memberValue, signExtend, wrap, wordMod, wordBits, if_true,
      true_and, Nat.reducePow, Nat.reduceSub, Nat.reduceMul, Bool.false_eq_true, false_and,
      if_false] <;>
    (try split_ifs) <;> omega

/-- C13: when the option store resolves the name `N` to a value `v` with
an integer tag, `get_patch_value` on `<option:N>` succeeds, returns the
pointer past the `>` and writes the whole of `v` to its output, and the
value consumer yields the member of `v` for its tag converted to the
machine word: the integer that the low bits for the width of the tag
denote (read in two's complement for a signed tag), taken modulo `2 ^ W`;
so an unsigned member is zero-extended and a signed member sign-extended
(for a 64-bit tag on a 32-bit target that is the low 32 bits).  With the
option `foo` = 42 (dword), "<option:foo> + 1" evaluates to 43; with the
signed byte `neg` = 0xFF, "<option:neg>" evaluates to `SIZE_MAX` (that is
-1) and "<option:neg> + 1" to 0, while the unsigned byte 0xFF gives 255;
the signed dword 0x80000000 gives `2 ^ W - 0x80000000`. -/
theorem C13_option_value (env : Env) (fuel : Nat) (s : State) (N rest : List Nat)
    (out v : patch_val_t) (t : Nat × Nat × Bool)
    (hN : NameChars 60 62 N) (hlen : N.length < wordMod env.x64)
    (hv : env.patch_opt_get_len N = some v) (ht : t ∈ integerTags) (hty : v.type = t.1) :
    get_patch_value env (fuel + 1) s (60 :: (txt "option:" ++ (N ++ 62 :: rest))) out
      = Outcome.ok (some rest, v) (s.record (Event.patch_opt_get_len N))
    ∧ consume_value_impl env (fuel + 3) s (60 :: (txt "option:" ++ (N ++ 62 :: rest)))
      = PostfixCheck (s.record (Event.patch_opt_get_len N))
          (widened env.x64 t.2.1 t.2.2 v.raw) rest
    ∧ (∀ (x64 : Bool) (k : Nat) (s0 : State),
        eval_expr (optionEnv x64) (k + 20) s0 (cstr "<option:foo> + 1") 0
          = Outcome.ok (some [0], 43) (s0.record (Event.patch_opt_get_len (txt "foo"))))
    ∧ (∀ (x64 : Bool) (k : Nat) (s0 : State),
        eval_expr (signedOptionEnv x64) (k + 20) s0 (cstr "<option:neg>") 0
          = Outcome.ok (some [0], SIZE_MAX x64) (s0.record (Event.patch_opt_get_len (txt "neg")))
        ∧ eval_expr (signedOptionEnv x64) (k + 20) s0 (cstr "<option:neg> + 1") 0
          = Outcome.ok (some [0], 0) (s0.record (Event.patch_opt_get_len (txt "neg")))
        ∧ eval_expr (signedOptionEnv x64) (k + 20) s0 (cstr "<option:ub>") 0
          = Outcome.ok (some [0], 255) (s0.record (Event.patch_opt_get_len (txt "ub")))
        ∧ eval_expr (signedOptionEnv x64) (k + 20) s0 (cstr "<option:pos>") 0
          = Outcome.ok (some [0], 0x7FFF) (s0.record (Event.patch_opt_get_len (txt "pos")))
        ∧ eval_expr (signedOptionEnv x64) (k + 20) s0 (cstr "<option:min>") 0
          = Outcome.ok (some [0], wordMod x64 - 0x80000000)
              (s0.record (Event.patch_opt_get_len (txt "min")))) := by
  have hg := fun f o => get_patch_value_impl_option env f s N rest o hN hlen
  simp only [hv] at hg
  refine ⟨?_, ?_, ?_, ?_⟩
  · simp [get_patch_value, hg]
  · have hc : consume_value_impl env (fuel + 3) s (60 :: (txt "option:" ++ (N ++ 62 :: rest)))
        = patchValueOperand env _ v rest :=
      consume_patch_value env (fuel + 1) s _ _ rest v false (fun h => by cases h) (hg fuel _)
    rw [hc, patchValueOperand, patchValueToSize_integer env v t ht hty,
      castResult_widened env.x64 v.raw t ht]
  · intro x64 k s0
    cases x64 <;> rfl
  · intro x64 k s0
    cases x64 <;> exact ⟨rfl, rfl, rfl, rfl, rfl⟩

/-- Witness for C13: the dword 42 and the signed byte 0xFF on the 32-bit
target; the signed byte is widened to 0xFFFFFFFF. -/
theorem C13_option_value_witness :
    (get_patch_value (optionEnv false) 1 State.init
        (60 :: (txt "option:" ++ (txt "foo" ++ 62 :: cstr " + 1"))) ⟨0, 0, [], 0, 0, 0⟩
      = Outcome.ok (some (cstr " + 1"), ⟨PVT_DWORD, 42, [], 0, 0, 0⟩)
          (State.init.record (Event.patch_opt_get_len (txt "foo")))
    ∧ consume_value_impl (optionEnv false) 3 State.init
        (60 :: (txt "option:" ++ (txt "foo" ++ 62 :: cstr " + 1")))
      = PostfixCheck (State.init.record (Event.patch_opt_get_len (txt "foo"))) 42 (cstr " + 1"))
    ∧ (get_patch_value (signedOptionEnv false) 1 State.init
        (60 :: (txt "option:" ++ (txt "neg" ++ 62 :: cstr " + 1"))) ⟨0, 0, [], 0, 0, 0⟩
      = Outcome.ok (some (cstr " + 1"), ⟨PVT_SBYTE, 0xFF, [], 0, 0, 0⟩)
          (State.init.record (Event.patch_opt_get_len (txt "neg")))
    ∧ consume_value_impl (signedOptionEnv false) 3 State.init
        (60 :: (txt "option:" ++ (txt "neg" ++ 62 :: cstr " + 1")))
      = PostfixCheck (State.init.record (Event.patch_opt_get_len (txt "neg"))) 0xFFFFFFFF
          (cstr " + 1")) :=
  have h1 := C13_option_value (optionEnv false) 0 State.init (txt "foo") (cstr " + 1")
    ⟨0, 0, [], 0, 0, 0⟩ ⟨PVT_DWORD, 42, [], 0, 0, 0⟩ (PVT_DWORD, 32, false) (by decide)
    (by decide) rfl (by decide) rfl
  have h2 := C13_option_value (signedOptionEnv false) 0 State.init (txt "neg") (cstr " + 1")
    ⟨0, 0, [], 0, 0, 0⟩ ⟨PVT_SBYTE, 0xFF, [], 0, 0, 0⟩ (PVT_SBYTE, 8, true) (by decide)
    (by decide) rfl (by decide) rfl
  ⟨⟨h1.1, h1.2.1⟩, ⟨h2.1, h2.2.1⟩⟩

/-- C14 as stated fails: no option `missing` exists, and "<option:missing> + 1"
does not evaluate to 1; `eval_expr` returns a null cursor and the value 0. -/
theorem C14_counterexample :
    eval_expr (optionEnv false) 20 State.init (cstr "<option:missing> + 1") 0
      = Outcome.ok (none, 0)
          (optionMissingState State.init (txt "missing") (cstr "<option:missing> + 1"))
    ∧ eval_expr (optionEnv false) 20 State.init (cstr "<option:missing> + 1") 0
      ≠ Outcome.ok (some [0], 1)
          ((State.init.record (Event.patch_opt_get_len (txt "missing"))).emit
            (Msg.OptionNotFoundError (txt "missing"))) := by
  refine ⟨rfl, ?_⟩
  intro h
  have h2 := congrArg (fun o => match o with
    | Outcome.ok r _ => r.1.isSome
    | _ => false) h
  revert h2
  decide

/-- C14, amended: when the option store does not know `N`, the patch value
`<option:N>` is parsed (the lookup is made, the message "option not found"
is logged, the tag is left `PVT_UNKNOWN` and the cursor is past the `>`),
but the value consumer rejects the tag with the message "invalid patch
value type" and fails, and `eval_expr` on an expression that starts with
this operand returns a null cursor and the value 0. -/
theorem C14_missing_option_fails (env : Env) (fuel : Nat) (s : State) (N rest : List Nat)
    (out : patch_val_t) (end_ : Nat)
    (hN : NameChars 60 62 N) (hlen : N.length < wordMod env.x64)
    (hv : env.patch_opt_get_len N = none) :
    get_patch_value env (fuel + 1) s (60 :: (txt "option:" ++ (N ++ 62 :: rest))) out
      = Outcome.ok (some rest, { out with type := PVT_UNKNOWN })
          ((s.record (Event.patch_opt_get_len N)).emit (Msg.OptionNotFoundError N))
    ∧ consume_value_impl env (fuel + 3) s (60 :: (txt "option:" ++ (N ++ 62 :: rest)))
      = Outcome.null (((s.record (Event.patch_opt_get_len N)).emit
          (Msg.OptionNotFoundError N)).emit Msg.InvalidPatchValueTypeError)
    ∧ eval_expr env (fuel + 5) s (60 :: (txt "option:" ++ (N ++ 62 :: rest))) end_
      = Outcome.ok (none, 0)
          (optionMissingState s N (60 :: (txt "option:" ++ (N ++ 62 :: rest)))) := by
  have hg := fun f o => get_patch_value_impl_option env f s N rest o hN hlen
  simp only [hv] at hg
  have hc : consume_value_impl env (fuel + 3) s (60 :: (txt "option:" ++ (N ++ 62 :: rest)))
      = Outcome.null (((s.record (Event.patch_opt_get_len N)).emit
          (Msg.OptionNotFoundError N)).emit Msg.InvalidPatchValueTypeError) := by
    have hc0 : consume_value_impl env (fuel + 3) s (60 :: (txt "option:" ++ (N ++ 62 :: rest)))
        = patchValueOperand env _ _ rest :=
      consume_patch_value env (fuel + 1) s _ _ rest _ false (fun h => by cases h) (hg fuel _)
    rw [hc0]
    simp [patchValueOperand, patchValueToSize, PVT_UNKNOWN,
      PVT_NONE, PVT_BYTE, PVT_SBYTE, PVT_WORD, PVT_SWORD, PVT_DWORD, PVT_SDWORD, PVT_QWORD,
      PVT_SQWORD, PVT_FLOAT, PVT_DOUBLE, PVT_LONGDOUBLE, PVT_STRING, PVT_STRING16, PVT_STRING32]
  refine ⟨?_, hc, ?_⟩
  · simp [get_patch_value, hg]
  · have hl := loop_of_operand_null env (fuel + 3) s _ _ end_ 0 StartNoOp 0 (by decide) hc
    simp only [eval_expr, impl_unfold, hl, optionMissingState]

theorem C14_missing_option_fails_witness :
    get_patch_value (optionEnv false) 1 State.init
        (60 :: (txt "option:" ++ (txt "missing" ++ 62 :: cstr " + 1"))) ⟨0, 0, [], 0, 0, 0⟩
      = Outcome.ok (some (cstr " + 1"), { (⟨0, 0, [], 0, 0, 0⟩ : patch_val_t) with
          type := PVT_UNKNOWN })
          ((State.init.record (Event.patch_opt_get_len (txt "missing"))).emit
            (Msg.OptionNotFoundError (txt "missing")))
    ∧ consume_value_impl (optionEnv false) 3 State.init
        (60 :: (txt "option:" ++ (txt "missing" ++ 62 :: cstr " + 1")))
      = Outcome.null (((State.init.record (Event.patch_opt_get_len (txt "missing"))).emit
          (Msg.OptionNotFoundError (txt "missing"))).emit Msg.InvalidPatchValueTypeError)
    ∧ eval_expr (optionEnv false) 5 State.init
        (60 :: (txt "option:" ++ (txt "missing" ++ 62 :: cstr " + 1"))) 0
      = Outcome.ok (none, 0)
          (optionMissingState State.init (txt "missing")
            (60 :: (txt "option:" ++ (txt "missing" ++ 62 :: cstr " + 1")))) :=
  C14_missing_option_fails (optionEnv false) 0 State.init (txt "missing") (cstr " + 1")
    ⟨0, 0, [], 0, 0, 0⟩ 0 (by decide) (by decide) rfl

theorem relative_eq (x64 : Bool) (t r : Nat) :
    wrap x64 (t + (wordMod x64 - wrap x64 (r + 4))) = relativeAddress x64 t r := by
  cases x64
  · simp only [wrap, wordMod, wordBits, relativeAddress, Bool.false_eq_true, if_false]
    norm_num
    omega
  · simp only [wrap, wordMod, wordBits, relativeAddress, if_true]
    norm_num
    omega

theorem relativeAddress_wrap (x64 : Bool) (t r : Nat) :
    relativeAddress x64 (wrap x64 t) r = relativeAddress x64 t r := by
  cases x64
  · simp only [wrap, wordMod, wordBits, relativeAddress, Bool.false_eq_true, if_false]
    norm_num
    omega
  · simp only [wrap, wordMod, wordBits, relativeAddress, if_true]
    norm_num
    omega

theorem memchr_plus_none (T : List Nat) :
    ∀ K : List Nat, (∀ c ∈ K, c ≠ 43) → memchr_plus (K ++ T) K.length = none := by
  intro K
  induction K with
  | nil => intro _; cases T <;> rfl
  | cons c t ih =>
    intro h
    have hc := h c (List.mem_cons_self c t)
    have ht : ∀ d ∈ t, d ≠ 43 := fun d hd => h d (List.mem_cons_of_mem c hd)
    simp [memchr_plus, ch, hc, ih ht]

theorem memchr_plus_some (T : List Nat) (m : Nat) :
    ∀ K : List Nat, (∀ c ∈ K, c ≠ 43) →
      memchr_plus (K ++ 43 :: T) (K.length + (m + 1)) = some (43 :: T) := by
  intro K
  induction K with
  | nil => intro _; simp [memchr_plus, ch]
  | cons c t ih =>
    intro h
    have hc := h c (List.mem_cons_self c t)
    have ht : ∀ d ∈ t, d ≠ 43 := fun d hd => h d (List.mem_cons_of_mem c hd)
    have e : (c :: t).length + (m + 1) = (t.length + (m + 1)) + 1 := by simp; omega
    rw [e]
    simp [memchr_plus, ch, hc, ih ht]

/-- The function `GetCodecaveAddress` on a name without a `+`. -/
theorem GetCodecaveAddress_plain (env : Env) (fuel : Nat) (s : State) (K T : List Nat)
    (is_relative : Bool) (hK : ∀ c ∈ K, c ≠ 43) :
    GetCodecaveAddress env (fuel + 1) s (K ++ T) K.length is_relative
      = if env.func_get_len K = 0 then
          Outcome.ok 0 (CodecaveNotFoundWarningMessage (s.record (Event.func_get_len K)) K)
        else Outcome.ok (codecaveValue env is_relative (env.func_get_len K))
          (s.record (Event.func_get_len K)) := by
  simp only [GetCodecaveAddress, memchr_plus_none T K hK, List.take_left', codecaveValue]
  by_cases h0 : env.func_get_len K = 0
  · simp [h0]
  · cases is_relative <;> simp [h0, relative_eq]

/-- The function `GetCodecaveAddress` on a name with an offset after the
first `+`, for a registered name. -/
theorem GetCodecaveAddress_offset (env : Env) (fuel : Nat) (s : State) (K O T : List Nat)
    (is_relative : Bool) (hK : ∀ c ∈ K, c ≠ 43) (hlen : K.length < wordMod env.x64)
    (h0 : env.func_get_len K ≠ 0) :
    GetCodecaveAddress env (fuel + 1) s (K ++ 43 :: (O ++ T)) (K.length + (O.length + 1))
        is_relative
      = if O ++ T = (env.strtouz (O ++ T) 16).2 then
          match eval_expr_impl env fuel (s.record (Event.func_get_len K)) (O ++ T)
              (if is_relative then ch ']' else ch '>') StartNoOp 0 with
          | Outcome.null s => Outcome.ok (codecaveValue env is_relative (env.func_get_len K))
              (s.emit Msg.ExpressionError)
          | Outcome.trap s => Outcome.trap s
          | Outcome.fuel => Outcome.fuel
          | Outcome.ok v s =>
            Outcome.ok (codecaveValue env is_relative (wrap env.x64 (env.func_get_len K + v.1))) s
        else Outcome.ok
          (codecaveValue env is_relative
            (wrap env.x64 (env.func_get_len K + (env.strtouz (O ++ T) 16).1)))
          (s.record (Event.func_get_len K)) := by
  have hm := memchr_plus_some (O ++ T) O.length K hK
  have hp := PtrDiffStrlen_name env.x64 K 43 (O ++ T) hlen
  simp only [GetCodecaveAddress, hm, hp, List.take_left', h0, if_false, List.drop_succ_cons,
    List.drop_zero]
  cases is_relative
  · simp only [codecaveValue, Bool.false_eq_true, if_false]
  · simp only [codecaveValue, relative_eq, if_true]

/-- A bracketed patch value whose text starts with `codecave:` is handed to
`GetCodecaveAddress` with the whole text between the brackets. -/
theorem get_patch_value_impl_codecave (env : Env) (fuel : Nat) (s : State) (Nm rest : List Nat)
    (out : patch_val_t) (is_relative : Bool)
    (hN : NameChars (bracketOpen is_relative) (bracketClose is_relative) Nm)
    (hlen : Nm.length < wordMod env.x64)
    (hpre : strnicmp_eq (Nm ++ bracketClose is_relative :: rest) (cstr "codecave:") 9 = true) :
    get_patch_value_impl env (fuel + 1) s
        (bracketOpen is_relative :: (Nm ++ bracketClose is_relative :: rest)) out
      = match GetCodecaveAddress env fuel s (Nm ++ bracketClose is_relative :: rest) Nm.length
            is_relative with
        | Outcome.ok p s =>
          Outcome.ok ({ out with type := addressTag env.x64 is_relative, raw := p }, rest) s
        | Outcome.null s => Outcome.null s
        | Outcome.trap s => Outcome.trap s
        | Outcome.fuel => Outcome.fuel := by
  cases is_relative
  · have hfm := find_matching_end_name env.x64 60 62 (by decide) (by decide) (by decide) Nm rest hN
    have hpd := PtrDiffStrlen_name env.x64 Nm 62 rest hlen
    have hpre2 : strnicmp_eq (Nm ++ 62 :: rest) (cstr "codecave:") 9 = true := hpre
    simp only [bracketClose, bracketOpen, ch, Bool.false_eq_true, if_false]
    simp only [get_patch_value_impl, peek, ch]
    simp [hfm, hpd, hpre2, addressTag]
  · have hfm := find_matching_end_name env.x64 91 93 (by decide) (by decide) (by decide) Nm rest hN
    have hpd := PtrDiffStrlen_name env.x64 Nm 93 rest hlen
    have hpre2 : strnicmp_eq (Nm ++ 93 :: rest) (cstr "codecave:") 9 = true := hpre
    simp only [bracketClose, bracketOpen, ch, if_true]
    simp only [get_patch_value_impl, peek, ch]
    simp [hfm, hpd, hpre2, addressTag]

theorem txt_codecave : txt "codecave:" = [99, 111, 100, 101, 99, 97, 118, 101, 58] := by decide

theorem CaveName_key (NAME : List Nat) (h : CaveName NAME) (is_relative : Bool) :
    NameChars (bracketOpen is_relative) (bracketClose is_relative) (txt "codecave:" ++ NAME)
    ∧ (∀ c ∈ txt "codecave:" ++ NAME, c ≠ 43)
    ∧ (txt "codecave:" ++ NAME).length = NAME.length + 9 := by
  refine ⟨?_, ?_, ?_⟩
  · apply NameChars_append
    · cases is_relative <;> decide
    · intro c hc
      have := h c hc
      cases is_relative <;> simp [bracketOpen, bracketClose, ch, this]
  · intro c hc
    rcases List.mem_append.mp hc with h1 | h1
    · have hp : ∀ d ∈ txt "codecave:", d ≠ 43 := by decide
      exact hp c h1
    · exact (h c h1).2.2.2.2.2
  · simp [txt_codecave]

theorem codecave_prefix (X : List Nat) :
    strnicmp_eq (txt "codecave:" ++ X) (cstr "codecave:") 9 = true := by
  rw [txt_codecave]
  simp [strnicmp_eq, tolower, peek, ch, cstr]

/-- The patch value `codecave:NAME` without an offset, in either bracket
form. -/
theorem get_patch_value_impl_codecave_plain (env : Env) (fuel : Nat) (s : State)
    (NAME rest : List Nat) (out : patch_val_t) (is_relative : Bool) (hN : CaveName NAME)
    (hlen : NAME.length + 9 < wordMod env.x64) :
    get_patch_value_impl env (fuel + 2) s
        (bracketOpen is_relative :: (txt "codecave:" ++ NAME ++ bracketClose is_relative :: rest))
        out
      = if env.func_get_len (txt "codecave:" ++ NAME) = 0 then
          Outcome.ok ({ out with type := addressTag env.x64 is_relative, raw := 0 }, rest)
            (CodecaveNotFoundWarningMessage
              (s.record (Event.func_get_len (txt "codecave:" ++ NAME))) (txt "codecave:" ++ NAME))
        else
          Outcome.ok
            ({ out with
                type := addressTag env.x64 is_relative
                raw := codecaveValue env is_relative (env.func_get_len (txt "codecave:" ++ NAME)) },
              rest) (s.record (Event.func_get_len (txt "codecave:" ++ NAME))) := by
  obtain ⟨h1, h2, h3⟩ := CaveName_key NAME hN is_relative
  have hpre := codecave_prefix (NAME ++ bracketClose is_relative :: rest)
  rw [← List.append_assoc] at hpre
  rw [get_patch_value_impl_codecave env (fuel + 1) s _ rest out is_relative h1
    (by rw [h3]; exact hlen) hpre, GetCodecaveAddress_plain env fuel s _ _ is_relative h2]
  by_cases h0 : env.func_get_len (txt "codecave:" ++ NAME) = 0
  · rw [if_pos h0, if_pos h0]
  · rw [if_neg h0, if_neg h0]

/-- The patch value `codecave:NAME+OFFSET` for a registered name, in either
bracket form, in terms of the result of `GetCodecaveAddress`. -/
theorem get_patch_value_impl_codecave_offset (env : Env) (fuel : Nat) (s : State)
    (NAME O rest : List Nat) (out : patch_val_t) (is_relative : Bool) (hN : CaveName NAME)
    (hO : NameChars (bracketOpen is_relative) (bracketClose is_relative) O)
    (hlen : NAME.length + O.length + 10 < wordMod env.x64) :
    get_patch_value_impl env (fuel + 2) s
        (bracketOpen is_relative ::
          (txt "codecave:" ++ NAME ++ 43 :: (O ++ bracketClose is_relative :: rest))) out
      = match GetCodecaveAddress env (fuel + 1) s
            (txt "codecave:" ++ NAME ++ 43 :: (O ++ bracketClose is_relative :: rest))
            ((txt "codecave:" ++ NAME).length + (O.length + 1)) is_relative with
        | Outcome.ok p s =>
          Outcome.ok ({ out with type := addressTag env.x64 is_relative, raw := p }, rest) s
        | Outcome.null s => Outcome.null s
        | Outcome.trap s => Outcome.trap s
        | Outcome.fuel => Outcome.fuel := by
  obtain ⟨h1, _, h3⟩ := CaveName_key NAME hN is_relative
  have hplus : NameChars (bracketOpen is_relative) (bracketClose is_relative) (43 :: O) := by
    intro c hc
    rcases List.mem_cons.mp hc with rfl | h
    · cases is_relative <;> decide
    · exact hO c h
  have hNm := NameChars_append _ _ _ _ h1 hplus
  have hpre := codecave_prefix (NAME ++ 43 :: O ++ bracketClose is_relative :: rest)
  have e1 : txt "codecave:" ++ (NAME ++ 43 :: O ++ bracketClose is_relative :: rest)
      = (txt "codecave:" ++ NAME ++ 43 :: O) ++ bracketClose is_relative :: rest := by simp
  have e2 : txt "codecave:" ++ NAME ++ 43 :: (O ++ bracketClose is_relative :: rest)
      = (txt "codecave:" ++ NAME ++ 43 :: O) ++ bracketClose is_relative :: rest := by simp
  have e3 : (txt "codecave:" ++ NAME ++ 43 :: O).length
      = (txt "codecave:" ++ NAME).length + (O.length + 1) := by simp; omega
  rw [e1] at hpre
  rw [e2, get_patch_value_impl_codecave env (fuel + 1) s _ rest out is_relative hNm
    (by rw [e3, h3]; omega) hpre, e3]

/-- C15 as stated fails on a 64-bit target when the codecave lies below
`rel_source + 4`: with `rel_source` = 0x3000 and `bar` = 0x2000 the
difference modulo 2^64 is 0xFFFFFFFFFFFFEFFC, but "[codecave:bar]"
evaluates to 0xFFFFEFFC, the low 32 bits. -/
theorem C15_counterexample :
    eval_expr (caveEnv true 0x3000) 20 State.init (cstr "[codecave:bar]") 0
      = Outcome.ok (some [0], 0xFFFFEFFC)
          (State.init.record (Event.func_get_len (txt "codecave:bar")))
    ∧ relativeAddress true 0x2000 0x3000 = 0xFFFFFFFFFFFFEFFC
    ∧ wordMod true = 2 ^ 64 := by
  refine ⟨rfl, ?_, rfl⟩
  decide

/-- C15, amended: for a name that the registry resolves to a non-zero
address `target`, the relative patch value `[codecave:NAME]` holds
`(target - (rel_source + 4)) mod 2^W` with the tag dword and the absolute
patch value `<codecave:NAME>` holds `target` with the tag pointer; as an
operand (no register bank) the relative form evaluates to the low 32 bits
of that difference, which is the whole of it on a 32-bit target, and the
absolute form to `target`.  An offset after `+` is added to `target`
(modulo 2^W) before the adjustment: the number that `strtouz` reads in
base 16 when it reads one, otherwise the value of the text as a
sub-expression.  With `rel_source` = 0x1000 and `bar` = 0x2000,
"[codecave:bar]" gives 0xFFC. -/
theorem C15_codecave_address (env : Env) (fuel : Nat) (s : State) (NAME rest : List Nat)
    (out : patch_val_t) (target : Nat) (is_relative : Bool)
    (hregs : env.regs = 0) (hN : CaveName NAME) (hlen : NAME.length + 9 < wordMod env.x64)
    (ht : env.func_get_len (txt "codecave:" ++ NAME) = target) (h0 : target ≠ 0)
    (hlt : target < wordMod env.x64) :
    get_patch_value env (fuel + 2) s
        (bracketOpen is_relative :: (txt "codecave:" ++ NAME ++ bracketClose is_relative :: rest))
        out
      = Outcome.ok (some rest, { out with
            type := addressTag env.x64 is_relative
            raw := codecaveValue env is_relative target })
          (s.record (Event.func_get_len (txt "codecave:" ++ NAME)))
    ∧ consume_value_impl env (fuel + 4) s
        (bracketOpen is_relative :: (txt "codecave:" ++ NAME ++ bracketClose is_relative :: rest))
      = PostfixCheck (s.record (Event.func_get_len (txt "codecave:" ++ NAME)))
          (if is_relative then relativeAddress env.x64 target env.rel_source % 2 ^ 32 else target)
          rest
    ∧ (∀ (O E : List Nat) (off : Nat),
        NameChars (bracketOpen is_relative) (bracketClose is_relative) O →
        NAME.length + O.length + 10 < wordMod env.x64 →
        env.strtouz (O ++ bracketClose is_relative :: rest) 16 = (off, E) →
        E ≠ O ++ bracketClose is_relative :: rest →
        get_patch_value env (fuel + 2) s
            (bracketOpen is_relative ::
              (txt "codecave:" ++ NAME ++ 43 :: (O ++ bracketClose is_relative :: rest))) out
          = Outcome.ok (some rest, { out with
                type := addressTag env.x64 is_relative
                raw := codecaveValue env is_relative (wrap env.x64 (target + off)) })
              (s.record (Event.func_get_len (txt "codecave:" ++ NAME))))
    ∧ (∀ (O R : List Nat) (v : Nat) (s1 : State),
        NameChars (bracketOpen is_relative) (bracketClose is_relative) O →
        NAME.length + O.length + 10 < wordMod env.x64 →
        (env.strtouz (O ++ bracketClose is_relative :: rest) 16).2
          = O ++ bracketClose is_relative :: rest →
        eval_expr_impl env fuel (s.record (Event.func_get_len (txt "codecave:" ++ NAME)))
            (O ++ bracketClose is_relative :: rest) (bracketClose is_relative) StartNoOp 0
          = Outcome.ok (v, R) s1 →
        get_patch_value env (fuel + 2) s
            (bracketOpen is_relative ::
              (txt "codecave:" ++ NAME ++ 43 :: (O ++ bracketClose is_relative :: rest))) out
          = Outcome.ok (some rest, { out with
                type := addressTag env.x64 is_relative
                raw := codecaveValue env is_relative (wrap env.x64 (target + v)) }) s1)
    ∧ ∀ (x64 : Bool) (k : Nat) (s0 : State),
        eval_expr (caveEnv x64 0x1000) (k + 20) s0 (cstr "[codecave:bar]") 0
          = Outcome.ok (some [0], 0xFFC) (s0.record (Event.func_get_len (txt "codecave:bar"))) := by
  have h0' : env.func_get_len (txt "codecave:" ++ NAME) ≠ 0 := by rw [ht]; exact h0
  have hp := fun o =>
    get_patch_value_impl_codecave_plain env fuel s NAME rest o is_relative hN hlen
  simp only [ht, if_neg h0] at hp
  obtain ⟨_, hK, hKl⟩ := CaveName_key NAME hN is_relative
  refine ⟨?_, ?_, ?_, ?_, ?_⟩
  · simp only [get_patch_value, hp]
  · have hc : consume_value_impl env (fuel + 4) s
        (bracketOpen is_relative :: (txt "codecave:" ++ NAME ++ bracketClose is_relative :: rest))
        = patchValueOperand env _ _ rest :=
      consume_patch_value env (fuel + 2) s _ _ rest _ is_relative (fun _ => hregs) (hp _)
    rw [hc]
    cases is_relative
    · cases hb : env.x64
      · rw [hb] at hlt
        have h1 : target < 4294967296 := hlt
        simp [patchValueOperand, addressTag, codecaveValue, patchValueToSize, PVT_POINTER,
          PVT_DEFAULT, PVT_BYTE, PVT_SBYTE, PVT_WORD, PVT_SWORD, PVT_DWORD, hb,
          Nat.mod_eq_of_lt h1]
      · rw [hb] at hlt
        have h1 : target < 18446744073709551616 := hlt
        simp [patchValueOperand, addressTag, codecaveValue, patchValueToSize, PVT_POINTER,
          PVT_DEFAULT, PVT_BYTE, PVT_SBYTE, PVT_WORD, PVT_SWORD, PVT_DWORD, PVT_SDWORD,
          PVT_QWORD, hb, wrap, wordMod, wordBits, Nat.mod_eq_of_lt h1]
    · simp [patchValueOperand, addressTag, codecaveValue, patchValueToSize, PVT_BYTE, PVT_SBYTE,
        PVT_WORD, PVT_SWORD, PVT_DWORD]
  · intro O E off hO hl hs hE
    have hg := get_patch_value_impl_codecave_offset env fuel s NAME O rest out is_relative hN hO hl
    have ho := GetCodecaveAddress_offset env fuel s _ O (bracketClose is_relative :: rest)
      is_relative hK (by rw [hKl]; omega) h0'
    rw [hs, if_neg (fun h => hE h.symm), ht] at ho
    simp only [get_patch_value, hg, ho]
  · intro O R v s1 hO hl hs hev
    have hg := get_patch_value_impl_codecave_offset env fuel s NAME O rest out is_relative hN hO hl
    have ho := GetCodecaveAddress_offset env fuel s _ O (bracketClose is_relative :: rest)
      is_relative hK (by rw [hKl]; omega) h0'
    have hb : (if is_relative = true then ch ']' else ch '>') = bracketClose is_relative := rfl
    rw [if_pos hs.symm, hb, hev, ht] at ho
    simp only [get_patch_value, hg, ho]
  · intro x64 k s0
    cases x64 <;> rfl

theorem C15_codecave_address_witness :
    get_patch_value (caveEnv false 0x1000) 2 State.init
        (bracketOpen true :: (txt "codecave:" ++ txt "bar" ++ bracketClose true :: [0]))
        ⟨0, 0, [], 0, 0, 0⟩
      = Outcome.ok (some [0], ⟨PVT_DWORD, 0xFFC, [], 0, 0, 0⟩)
          (State.init.record (Event.func_get_len (txt "codecave:bar")))
    ∧ consume_value_impl (caveEnv false 0x1000) 4 State.init
        (bracketOpen true :: (txt "codecave:" ++ txt "bar" ++ bracketClose true :: [0]))
      = PostfixCheck (State.init.record (Event.func_get_len (txt "codecave:bar"))) 0xFFC [0] :=
  have h := C15_codecave_address (caveEnv false 0x1000) 0 State.init (txt "bar") [0]
    ⟨0, 0, [], 0, 0, 0⟩ 0x2000 true rfl (by decide) (by decide) rfl (by decide) (by decide)
  ⟨h.1, h.2.1⟩

/-- The function `GetCodecaveAddress` on a name with an offset when the
registry does not know the part before the `+`. -/
theorem GetCodecaveAddress_offset_missing (env : Env) (fuel : Nat) (s : State)
    (K O T : List Nat) (is_relative : Bool) (hK : ∀ c ∈ K, c ≠ 43)
    (hlen : K.length < wordMod env.x64) (h0 : env.func_get_len K = 0) :
    GetCodecaveAddress env (fuel + 1) s (K ++ 43 :: (O ++ T)) (K.length + (O.length + 1))
        is_relative
      = Outcome.ok 0 (CodecaveNotFoundWarningMessage (s.record (Event.func_get_len K)) K) := by
  have hm := memchr_plus_some (O ++ T) O.length K hK
  have hp := PtrDiffStrlen_name env.x64 K 43 (O ++ T) hlen
  simp only [GetCodecaveAddress, hm, hp, List.take_left', h0, if_true]

theorem messages_CodecaveNotFound (s : State) (e : Event) (K : List Nat)
    (he : ∀ m, e ≠ Event.log m) :
    (CodecaveNotFoundWarningMessage (s.record e) K).messages
      = s.messages ++ (if s.DisableCodecaveNotFound then [] else [Msg.CodecaveNotFoundWarning K]) := by
  have h1 : (s.record e).messages = s.messages := by
    cases e with
    | log m => exact absurd rfl (he m)
    | patch_opt_get_len n => simp [State.messages, State.record, List.filterMap_append]
    | func_get_len n => simp [State.messages, State.record, List.filterMap_append]
    | load a t => simp [State.messages, State.record, List.filterMap_append]
  unfold CodecaveNotFoundWarningMessage
  have h2 : (s.record e).DisableCodecaveNotFound = s.DisableCodecaveNotFound := rfl
  rw [h2]
  cases s.DisableCodecaveNotFound
  · simp only [Bool.false_eq_true, if_false]
    rw [← h1]
    simp [State.messages, State.emit, List.filterMap_append]
  · simp [h1]

/-- C16: when the registry does not know `codecave:NAME`, the patch value
holds exactly 0 in the absolute and in the relative bracket form, neither
`rel_source + 4` nor an offset after `+` enters the result, the operand
(no register bank) evaluates to 0, and the message "codecave not found" is
added to the log exactly when the suppression flag is false. -/
theorem C16_codecave_not_found (env : Env) (fuel : Nat) (s : State) (NAME rest : List Nat)
    (out : patch_val_t) (is_relative : Bool)
    (hregs : env.regs = 0) (hN : CaveName NAME) (hlen : NAME.length + 9 < wordMod env.x64)
    (ht : env.func_get_len (txt "codecave:" ++ NAME) = 0) :
    get_patch_value env (fuel + 2) s
        (bracketOpen is_relative :: (txt "codecave:" ++ NAME ++ bracketClose is_relative :: rest))
        out
      = Outcome.ok (some rest, { out with type := addressTag env.x64 is_relative, raw := 0 })
          (CodecaveNotFoundWarningMessage
            (s.record (Event.func_get_len (txt "codecave:" ++ NAME))) (txt "codecave:" ++ NAME))
    ∧ consume_value_impl env (fuel + 4) s
        (bracketOpen is_relative :: (txt "codecave:" ++ NAME ++ bracketClose is_relative :: rest))
      = PostfixCheck (CodecaveNotFoundWarningMessage
            (s.record (Event.func_get_len (txt "codecave:" ++ NAME))) (txt "codecave:" ++ NAME))
          0 rest
    ∧ (∀ O : List Nat,
        NameChars (bracketOpen is_relative) (bracketClose is_relative) O →
        NAME.length + O.length + 10 < wordMod env.x64 →
        get_patch_value env (fuel + 2) s
            (bracketOpen is_relative ::
              (txt "codecave:" ++ NAME ++ 43 :: (O ++ bracketClose is_relative :: rest))) out
          = Outcome.ok (some rest, { out with type := addressTag env.x64 is_relative, raw := 0 })
              (CodecaveNotFoundWarningMessage
                (s.record (Event.func_get_len (txt "codecave:" ++ NAME)))
                (txt "codecave:" ++ NAME)))
    ∧ (CodecaveNotFoundWarningMessage
          (s.record (Event.func_get_len (txt "codecave:" ++ NAME))) (txt "codecave:" ++ NAME)).messages
      = s.messages ++ (if s.DisableCodecaveNotFound then []
          else [Msg.CodecaveNotFoundWarning (txt "codecave:" ++ NAME)]) := by
  have hp := fun o =>
    get_patch_value_impl_codecave_plain env fuel s NAME rest o is_relative hN hlen
  simp only [ht, if_true] at hp
  obtain ⟨_, hK, hKl⟩ := CaveName_key NAME hN is_relative
  refine ⟨?_, ?_, ?_, ?_⟩
  · simp only [get_patch_value, hp]
  · have hc : consume_value_impl env (fuel + 4) s
        (bracketOpen is_relative :: (txt "codecave:" ++ NAME ++ bracketClose is_relative :: rest))
        = patchValueOperand env _ _ rest :=
      consume_patch_value env (fuel + 2) s _ _ rest _ is_relative (fun _ => hregs) (hp _)
    rw [hc]
    cases is_relative
    · cases hb : env.x64 <;>
        simp [patchValueOperand, addressTag, patchValueToSize, PVT_POINTER, PVT_DEFAULT,
          PVT_BYTE, PVT_SBYTE, PVT_WORD, PVT_SWORD, PVT_DWORD, PVT_SDWORD, PVT_QWORD, hb, wrap,
          wordMod, wordBits]
    · simp [patchValueOperand, addressTag, patchValueToSize, PVT_BYTE, PVT_SBYTE, PVT_WORD,
        PVT_SWORD, PVT_DWORD]
  · intro O hO hl
    have hg := get_patch_value_impl_codecave_offset env fuel s NAME O rest out is_relative hN hO hl
    have ho := GetCodecaveAddress_offset_missing env fuel s _ O (bracketClose is_relative :: rest)
      is_relative hK (by rw [hKl]; omega) ht
    simp only [get_patch_value, hg, ho]
  · exact messages_CodecaveNotFound s _ _ (fun m h => by cases h)

theorem C16_codecave_not_found_witness :
    get_patch_value (caveEnv false 0x1000) 2 State.init
        (bracketOpen true :: (txt "codecave:" ++ txt "baz" ++ bracketClose true :: [0]))
        ⟨0, 0, [], 0, 0, 0⟩
      = Outcome.ok (some [0], ⟨PVT_DWORD, 0, [], 0, 0, 0⟩)
          ((State.init.record (Event.func_get_len (txt "codecave:baz"))).emit
            (Msg.CodecaveNotFoundWarning (txt "codecave:baz")))
    ∧ consume_value_impl (caveEnv false 0x1000) 4 State.init
        (bracketOpen true :: (txt "codecave:" ++ txt "baz" ++ bracketClose true :: [0]))
      = Outcome.ok (0, [0]) ((State.init.record (Event.func_get_len (txt "codecave:baz"))).emit
            (Msg.CodecaveNotFoundWarning (txt "codecave:baz"))) :=
  have h := C16_codecave_not_found (caveEnv false 0x1000) 0 State.init (txt "baz") [0]
    ⟨0, 0, [], 0, 0, 0⟩ true rfl (by decide) (by decide) rfl
  ⟨h.1, h.2.1⟩

theorem txt_patch : txt "patch:" = [112, 97, 116, 99, 104, 58] := by decide

/-- The patch value `patch:N`, in either bracket form: the option store is
asked for the whole text between the brackets, prefix included. -/
theorem get_patch_value_impl_patch (env : Env) (fuel : Nat) (s : State) (N rest : List Nat)
    (out : patch_val_t) (is_relative : Bool)
    (hN : NameChars (bracketOpen is_relative) (bracketClose is_relative) N)
    (hlen : N.length + 6 < wordMod env.x64) :
    get_patch_value_impl env (fuel + 1) s
        (bracketOpen is_relative :: (txt "patch:" ++ N ++ bracketClose is_relative :: rest)) out
      = Outcome.ok ({ out with type := PVT_DWORD, raw := patchTestValue env (txt "patch:" ++ N) },
          rest) (s.record (Event.patch_opt_get_len (txt "patch:" ++ N))) := by
  have hl : (txt "patch:" ++ N).length < wordMod env.x64 := by
    simp [txt_patch]; omega
  cases is_relative
  · have hNm : NameChars 60 62 (txt "patch:" ++ N) :=
      NameChars_append 60 62 _ N (by decide) hN
    have hfm := find_matching_end_name env.x64 60 62 (by decide) (by decide) (by decide) _
      rest hNm
    have hpd := PtrDiffStrlen_name env.x64 (txt "patch:" ++ N) 62 rest hl
    simp only [bracketClose, bracketOpen, ch, Bool.false_eq_true, if_false]
    simp only [get_patch_value_impl, peek, ch]
    rw [txt_patch] at hfm hpd ⊢
    simp only [List.cons_append, List.nil_append] at hfm hpd ⊢
    simp [hfm, hpd, strnicmp_eq, tolower, peek, ch, cstr, GetPatchTestValue, patchTestValue]
    cases env.patch_opt_get_len (112 :: 97 :: 116 :: 99 :: 104 :: 58 :: N) <;> simp
  · have hNm : NameChars 91 93 (txt "patch:" ++ N) :=
      NameChars_append 91 93 _ N (by decide) hN
    have hfm := find_matching_end_name env.x64 91 93 (by decide) (by decide) (by decide) _
      rest hNm
    have hpd := PtrDiffStrlen_name env.x64 (txt "patch:" ++ N) 93 rest hl
    simp only [bracketClose, bracketOpen, ch, if_true]
    simp only [get_patch_value_impl, peek, ch]
    rw [txt_patch] at hfm hpd ⊢
    simp only [List.cons_append, List.nil_append] at hfm hpd ⊢
    simp [hfm, hpd, strnicmp_eq, tolower, peek, ch, cstr, GetPatchTestValue, patchTestValue]
    cases env.patch_opt_get_len (112 :: 97 :: 116 :: 99 :: 104 :: 58 :: N) <;> simp

theorem patchTestValue_lt (env : Env) (key : List Nat) : patchTestValue env key < 4294967296 := by
  unfold patchTestValue
  cases env.patch_opt_get_len key with
  | none => decide
  | some v => exact Nat.mod_lt _ (by decide)

/-- C17 as stated fails: with an option store that holds the dword 7 under
the key `patch:foo`, "<patch:foo>" evaluates to 7, which is neither 0 nor
1, and the lookup is made with `patch:foo`, not with `foo`; with a store
that only knows `foo`, the lookup of `patch:foo` finds nothing. -/
theorem C17_counterexample :
    eval_expr (patchTestEnv false) 20 State.init (cstr "<patch:foo>") 0
      = Outcome.ok (some [0], 7)
          (State.init.record (Event.patch_opt_get_len (txt "patch:foo")))
    ∧ eval_expr (optionEnv false) 20 State.init (cstr "<patch:foo>") 0
      = Outcome.ok (some [0], 0)
          (State.init.record (Event.patch_opt_get_len (txt "patch:foo")))
    ∧ (optionEnv false).patch_opt_get_len (txt "foo") ≠ none := by
  refine ⟨rfl, rfl, ?_⟩
  decide

/-- C17, amended: for every name `N` the patch value `patch:N`, in either
bracket form, is a dword that holds the 32-bit member of the entry that
the option store has under the key `patch:N`, prefix included, and 0 when
the store has no such entry; the lookup is made once, with that key, and
the operand (no register bank) evaluates to the same number. -/
theorem C17_patch_test (env : Env) (fuel : Nat) (s : State) (N rest : List Nat)
    (out : patch_val_t) (is_relative : Bool) (hregs : env.regs = 0)
    (hN : NameChars (bracketOpen is_relative) (bracketClose is_relative) N)
    (hlen : N.length + 6 < wordMod env.x64) :
    get_patch_value env (fuel + 1) s
        (bracketOpen is_relative :: (txt "patch:" ++ N ++ bracketClose is_relative :: rest)) out
      = Outcome.ok (some rest,
          { out with type := PVT_DWORD, raw := patchTestValue env (txt "patch:" ++ N) })
          (s.record (Event.patch_opt_get_len (txt "patch:" ++ N)))
    ∧ consume_value_impl env (fuel + 3) s
        (bracketOpen is_relative :: (txt "patch:" ++ N ++ bracketClose is_relative :: rest))
      = PostfixCheck (s.record (Event.patch_opt_get_len (txt "patch:" ++ N)))
          (patchTestValue env (txt "patch:" ++ N)) rest
    ∧ (env.patch_opt_get_len (txt "patch:" ++ N) = none →
        patchTestValue env (txt "patch:" ++ N) = 0)
    ∧ (∀ v : patch_val_t, env.patch_opt_get_len (txt "patch:" ++ N) = some v →
        patchTestValue env (txt "patch:" ++ N) = v.raw % 2 ^ 32) := by
  have hp := fun f o => get_patch_value_impl_patch env f s N rest o is_relative hN hlen
  have hm := Nat.mod_eq_of_lt (patchTestValue_lt env (txt "patch:" ++ N))
  refine ⟨?_, ?_, ?_, ?_⟩
  · simp only [get_patch_value, hp]
  · have hc : consume_value_impl env (fuel + 3) s
        (bracketOpen is_relative :: (txt "patch:" ++ N ++ bracketClose is_relative :: rest))
        = patchValueOperand env _ _ rest :=
      consume_patch_value env (fuel + 1) s _ _ rest _ is_relative (fun _ => hregs) (hp fuel _)
    rw [hc]
    simp [patchValueOperand, patchValueToSize, PVT_BYTE, PVT_SBYTE, PVT_WORD, PVT_SWORD,
      PVT_DWORD, hm]
  · intro h
    simp [patchTestValue, h]
  · intro v h
    simp [patchTestValue, h]

theorem C17_patch_test_witness :
    get_patch_value (patchTestEnv false) 1 State.init
        (bracketOpen false :: (txt "patch:" ++ txt "foo" ++ bracketClose false :: [0]))
        ⟨0, 0, [], 0, 0, 0⟩
      = Outcome.ok (some [0], ⟨PVT_DWORD, 7, [], 0, 0, 0⟩)
          (State.init.record (Event.patch_opt_get_len (txt "patch:foo")))
    ∧ consume_value_impl (patchTestEnv false) 3 State.init
        (bracketOpen false :: (txt "patch:" ++ txt "foo" ++ bracketClose false :: [0]))
      = Outcome.ok (7, [0]) (State.init.record (Event.patch_opt_get_len (txt "patch:foo"))) :=
  have h := C17_patch_test (patchTestEnv false) 0 State.init (txt "foo") [0]
    ⟨0, 0, [], 0, 0, 0⟩ false rfl (by decide) (by decide)
  ⟨h.1, h.2.1⟩

/-- C18, at the failing input `xyz`: the name is in no row of the feature
table, the warning for an unknown feature is logged, and the function
returns false, so "<cpuid:xyz>" evaluates to 0, not to 1; for every name
the function either logs nothing or returns false.  For names of the table
the flag is returned whatever the letter case: on a processor with SSE and
without AVX, `sse`, `SSE` and `sSe` give 1 and `avx`, `AVX` give 0, with
nothing logged. -/
theorem C18_unknown_feature_returns_false (env : Env) (x64 : Bool) (k : Nat) (s : State) :
    GetCPUFeatureTest env s (cstr "xyz>") 3
      = (false, s.emit (Msg.InvalidCPUFeatureWarning (txt "xyz")))
    ∧ eval_expr (sseEnv x64) (k + 20) s (cstr "<cpuid:xyz>") 0
      = Outcome.ok (some [0], 0) (s.emit (Msg.InvalidCPUFeatureWarning (txt "xyz")))
    ∧ (∀ (name : List Nat) (name_length : Nat),
        (GetCPUFeatureTest env s name name_length).2 = s
        ∨ (GetCPUFeatureTest env s name name_length).1 = false)
    ∧ eval_expr (sseEnv x64) (k + 20) s (cstr "<cpuid:sse>") 0 = Outcome.ok (some [0], 1) s
    ∧ eval_expr (sseEnv x64) (k + 20) s (cstr "<cpuid:SSE>") 0 = Outcome.ok (some [0], 1) s
    ∧ eval_expr (sseEnv x64) (k + 20) s (cstr "<cpuid:sSe>") 0 = Outcome.ok (some [0], 1) s
    ∧ eval_expr (sseEnv x64) (k + 20) s (cstr "<cpuid:avx>") 0 = Outcome.ok (some [0], 0) s
    ∧ eval_expr (sseEnv x64) (k + 20) s (cstr "<cpuid:AVX>") 0 = Outcome.ok (some [0], 0) s := by
  refine ⟨rfl, ?_, ?_, ?_⟩
  · cases x64 <;> rfl
  · intro name name_length
    unfold GetCPUFeatureTest
    split
    · exact Or.inl rfl
    · exact Or.inr rfl
  · cases x64 <;> exact ⟨rfl, rfl, rfl, rfl, rfl⟩

/-- The loop of `GetMultibyteNOP` leaves the largest `i` not above its
start that divides `len`, with `count = len / i`. -/
theorem GetMultibyteNOP_loop_spec (len : Nat) :
    ∀ (i c : Nat), 1 ≤ i →
      1 ≤ (GetMultibyteNOP_loop len i c).2 ∧ (GetMultibyteNOP_loop len i c).2 ≤ i
      ∧ len % (GetMultibyteNOP_loop len i c).2 = 0
      ∧ (GetMultibyteNOP_loop len i c).1 = len / (GetMultibyteNOP_loop len i c).2
      ∧ ∀ d, (GetMultibyteNOP_loop len i c).2 < d → d ≤ i → len % d ≠ 0 := by
  intro i
  induction i with
  | zero => intro c h; omega
  | succ i ih =>
    intro c _
    by_cases hd : len % (i + 1) = 0
    · have e : GetMultibyteNOP_loop len (i + 1) c = (len / (i + 1), i + 1) := by
        simp only [GetMultibyteNOP_loop, hd, if_true]
      rw [e]
      exact ⟨by omega, le_refl _, hd, rfl, fun d h1 h2 => by omega⟩
    · have hi : 1 ≤ i := by
        rcases Nat.eq_zero_or_pos i with h | h
        · subst h; exact absurd (Nat.mod_one len) hd
        · exact h
      have e : GetMultibyteNOP_loop len (i + 1) c
          = GetMultibyteNOP_loop len i (len / (i + 1)) := by
        simp only [GetMultibyteNOP_loop, hd, if_false]
      rw [e]
      obtain ⟨a1, a2, a3, a4, a5⟩ := ih (len / (i + 1)) hi
      refine ⟨a1, by omega, a3, a4, ?_⟩
      intro d h1 h2
      rcases Nat.lt_or_ge i d with h | h
      · have : d = i + 1 := by omega
        subst this; exact hd
      · exact a5 d h1 h

/-- C19 as stated fails for the count 0: the code value has the length 0
and the count 0, but its byte pointer is not the entry 0 of the vendor
table (the empty string); it is what the uninitialised local happened to
hold.  For the count 1 the pointer is the entry 1, "90". -/
theorem C19_counterexample :
    GetMultibyteNOP (garbageEnv false) 20 State.init (cstr "0>") 62
      = Outcome.ok ⟨PVT_CODE, 0xDEAD, [], 0, 0, 0xDEAD⟩ State.init
    ∧ (⟨PVT_CODE, 0xDEAD, [], 0, 0, 0xDEAD⟩ : patch_val_t).text
      ≠ cstr ((nopRow (garbageEnv false)).getD 0 "")
    ∧ GetMultibyteNOP (garbageEnv false) 20 State.init (cstr "1>") 62
      = Outcome.ok ⟨PVT_CODE, 0, cstr "90", 1, 1, 0xDEAD⟩ State.init := by
  refine ⟨rfl, ?_, rfl⟩
  decide

/-- C19, amended: when the sub-expression of `nop:COUNT` evaluates to `n`,
`GetMultibyteNOP` returns a code value whose length and count satisfy
`len * count = n` and `len <= 15`: for `n = 0` both are 0 and the byte
pointer is left as the uninitialised local had it; for `1 <= n <= 15` they
are `n` and 1; for `n > 15` the length is the largest `d` in 1..15 that
divides `n` and the count is `n / d`; and for `n ≠ 0` the byte pointer is
the entry of index `len` in the row of the vendor. -/
theorem C19_GetMultibyteNOP (env : Env) (fuel : Nat) (s s1 : State) (name R : List Nat)
    (end_char n : Nat)
    (h : eval_expr_impl env fuel s name end_char StartNoOp 0 = Outcome.ok (n, R) s1) :
    ∃ v : patch_val_t,
      GetMultibyteNOP env (fuel + 1) s name end_char = Outcome.ok v s1
      ∧ v.type = PVT_CODE ∧ v.len * v.count = n ∧ v.len ≤ 15
      ∧ (n = 0 → v.len = 0 ∧ v.count = 0 ∧ v.raw = env.uninitialised ∧ v.text = [])
      ∧ (1 ≤ n → n ≤ 15 → v.len = n ∧ v.count = 1)
      ∧ (15 < n → 1 ≤ v.len ∧ n % v.len = 0 ∧ v.count = n / v.len
          ∧ ∀ d, 1 ≤ d → d ≤ 15 → n % d = 0 → d ≤ v.len)
      ∧ (n ≠ 0 → v.text = cstr ((nopRow env).getD v.len "")) := by
  by_cases h0 : n = 0
  · refine ⟨⟨PVT_CODE, env.uninitialised, [], 0, 0, env.uninitialised⟩, ?_, rfl, ?_, ?_, ?_, ?_,
      ?_, ?_⟩
    · simp [GetMultibyteNOP, h, h0]
    · simp [h0]
    · simp
    · intro _; exact ⟨rfl, rfl, rfl, rfl⟩
    · intro h1 _; omega
    · intro h1; omega
    · intro h1; exact absurd h0 h1
  · by_cases h15 : n > 15
    · obtain ⟨a1, a2, a3, a4, a5⟩ := GetMultibyteNOP_loop_spec n 15 env.uninitialised (by decide)
      refine ⟨⟨PVT_CODE, 0,
        cstr ((nopRow env).getD (GetMultibyteNOP_loop n 15 env.uninitialised).2 ""),
        (GetMultibyteNOP_loop n 15 env.uninitialised).2,
        (GetMultibyteNOP_loop n 15 env.uninitialised).1, env.uninitialised⟩,
        ?_, rfl, ?_, a2, ?_, ?_, ?_, ?_⟩
      · simp [GetMultibyteNOP, h, h0, h15, nopRow]
      · show (GetMultibyteNOP_loop n 15 env.uninitialised).2
            * (GetMultibyteNOP_loop n 15 env.uninitialised).1 = n
        rw [a4]
        exact Nat.mul_div_cancel' (Nat.dvd_of_mod_eq_zero a3)
      · intro h1; exact absurd h1 h0
      · intro _ h2; omega
      · intro _
        refine ⟨a1, a3, a4, ?_⟩
        intro d _ hd2 hd3
        by_contra hc
        exact a5 d (by simpa using hc) hd2 hd3
      · intro _; rfl
    · refine ⟨⟨PVT_CODE, 0, cstr ((nopRow env).getD n ""), n, 1, env.uninitialised⟩,
        ?_, rfl, ?_, ?_, ?_, ?_, ?_, ?_⟩
      · simp [GetMultibyteNOP, h, h0, h15, nopRow]
      · simp
      · show n ≤ 15
        omega
      · intro h1; exact absurd h1 h0
      · intro _ _; exact ⟨rfl, rfl⟩
      · intro h1; exact absurd h1 h15
      · intro _; rfl

theorem C19_GetMultibyteNOP_witness :
    ∃ v : patch_val_t,
      GetMultibyteNOP (plainEnv false) 20 State.init (cstr "16>") 62 = Outcome.ok v State.init
      ∧ v.type = PVT_CODE ∧ v.len * v.count = 16 ∧ v.len ≤ 15
      ∧ (16 = 0 → v.len = 0 ∧ v.count = 0 ∧ v.raw = (plainEnv false).uninitialised ∧ v.text = [])
      ∧ (1 ≤ 16 → 16 ≤ 15 → v.len = 16 ∧ v.count = 1)
      ∧ (15 < 16 → 1 ≤ v.len ∧ 16 % v.len = 0 ∧ v.count = 16 / v.len
          ∧ ∀ d, 1 ≤ d → d ≤ 15 → 16 % d = 0 → d ≤ v.len)
      ∧ (16 ≠ 0 → v.text = cstr ((nopRow (plainEnv false)).getD v.len "")) :=
  C19_GetMultibyteNOP (plainEnv false) 19 State.init State.init (cstr "16>") (cstr ">") 62 16 rfl

/-- The scanning loop goes over the characters that no case takes. -/
theorem find_next_op_loop_skip (expr : List Nat) (end_ : Nat) (X : List Nat) :
    ∀ pre : List Nat, (∀ c ∈ pre, Skipped c) →
      find_next_op_loop expr end_ (pre ++ X) = find_next_op_loop expr end_ X := by
  intro pre
  induction pre with
  | nil => intro _; rfl
  | cons c t ih =>
    intro h
    have hc := h c (List.mem_cons_self c t)
    have ht : ∀ d ∈ t, Skipped d := fun d hd => h d (List.mem_cons_of_mem c hd)
    simp only [Skipped, List.mem_cons, List.mem_singleton, List.not_mem_nil, or_false,
      not_or] at hc
    obtain ⟨c0, c1, c2, c3, c4, c5, c6, c7, c8, c9, c10, c11, c12, c13, c14, c15, c16, c17,
      c18, c19, c20, c21, c22, c23⟩ := hc
    rw [List.cons_append, find_next_op_loop]
    simp only [ch]
    simp [c0, c1, c2, c3, c4, c5, c6, c7, c8, c9, c10, c11, c12, c13, c14, c15, c16, c17,
      c18, c19, c20, c21, c22, c23, ih ht]

/-- C20 as stated fails: with the cursor on the blank of " + 1" the
tokenizer returns the opcode of `+` and the cursor past the `+`, and in
"abc+ 1" it goes over the three letters in the same way. -/
theorem C20_counterexample :
    find_next_op_impl (cstr " + 1") 0 = (Add, cstr " 1")
    ∧ peek (cstr " + 1") 0 = ch ' '
    ∧ find_next_op_impl (cstr "abc+ 1") 0 = (Add, cstr " 1") := by
  decide

/-- C20, amended: from the cursor `find_next_op_impl` goes over every
character that no case of its switch takes (blanks, digits, letters other
than `r` and `R`, and so on), returns the opcode of the first operator it
meets and the cursor just past the last character of that operator; when
it meets the terminating NUL first it returns the opcode 0 and the cursor
it was given. -/
theorem C20_tokenizer_skips (pre R : List Nat) (e : String × Nat) (end_ : Nat)
    (he : e ∈ binaryOperators) (hpre : ∀ c ∈ pre, Skipped c) :
    find_next_op_impl (pre ++ (txt e.1 ++ 32 :: R)) 0 = (e.2, 32 :: R)
    ∧ find_next_op_impl (pre ++ 0 :: R) end_ = (NullOp, pre ++ 0 :: R) := by
  constructor
  · unfold find_next_op_impl
    rw [find_next_op_loop_skip _ _ _ pre hpre]
    exact binaryOperators_spell e he _ R
  · unfold find_next_op_impl
    rw [find_next_op_loop_skip _ _ _ pre hpre]
    simp [find_next_op_loop, NullOp]

theorem C20_tokenizer_skips_witness :
    find_next_op_impl ([32, 97] ++ (txt "+" ++ 32 :: cstr "1")) 0 = (Add, 32 :: cstr "1")
    ∧ find_next_op_impl ([32, 97] ++ 0 :: cstr "1") 0 = (NullOp, [32, 97] ++ 0 :: cstr "1") :=
  C20_tokenizer_skips [32, 97] (cstr "1") ("+", Add) 0 (by decide) (by decide)

theorem find_next_op_angle_greater (t : List Nat) :
    (find_next_op_angle (62 :: t) 62).1 ∈ greaterOperators
    ∧ ∃ k, 1 ≤ k ∧ k ≤ 4 ∧ (find_next_op_angle (62 :: t) 62).2 = (62 :: t).drop k := by
  unfold find_next_op_angle
  simp only []
  split_ifs <;> refine ⟨by show _ ∈ greaterOperators; simp only []; decide, ?_⟩
  · exact ⟨4, by decide, by decide, rfl⟩
  all_goals first
    | exact ⟨3, by decide, by decide, rfl⟩
    | exact ⟨2, by decide, by decide, rfl⟩
    | exact ⟨1, by decide, by decide, rfl⟩

/-- C21: with the cursor on a structural character, for every end
character, `find_next_op_impl` gives `NullOp` for NUL, `EndGroupOp` for
`)` and `]` with the cursor still on that character, `BadBrackets` for `(`
and `[`, and `StandaloneTernaryEnd` for `:` with the cursor still on the
`:`; for `>` it gives `EndGroupOp`, cursor still on the `>`, exactly when
the end character is `>`, and otherwise consumes one to four characters as
one of the operators that start with `>` (greater-than, greater-or-equal,
a right shift, a right-shift assignment, or the three-way comparison). -/
theorem C21_structural_characters (t : List Nat) (end_ : Nat) :
    find_next_op_impl (0 :: t) end_ = (NullOp, 0 :: t)
    ∧ find_next_op_impl (41 :: t) end_ = (EndGroupOp, 41 :: t)
    ∧ find_next_op_impl (93 :: t) end_ = (EndGroupOp, 93 :: t)
    ∧ find_next_op_impl (40 :: t) end_ = (BadBrackets, 40 :: t)
    ∧ find_next_op_impl (91 :: t) end_ = (BadBrackets, 91 :: t)
    ∧ find_next_op_impl (58 :: t) end_ = (StandaloneTernaryEnd, 58 :: t)
    ∧ find_next_op_impl (62 :: t) 62 = (EndGroupOp, 62 :: t)
    ∧ ((find_next_op_impl (62 :: t) end_).1 = EndGroupOp ↔ end_ = 62)
    ∧ (end_ = 62 ∨ ((find_next_op_impl (62 :: t) end_).1 ∈ greaterOperators
        ∧ ∃ k, 1 ≤ k ∧ k ≤ 4 ∧ (find_next_op_impl (62 :: t) end_).2 = (62 :: t).drop k)) := by
  have hg := find_next_op_angle_greater t
  have hne : end_ ≠ 62 → find_next_op_impl (62 :: t) end_ = find_next_op_angle (62 :: t) 62 := by
    intro h
    simp [find_next_op_impl, find_next_op_loop, ch, h]
  refine ⟨by simp [find_next_op_impl, find_next_op_loop, NullOp],
    by simp [find_next_op_impl, find_next_op_loop, ch],
    by simp [find_next_op_impl, find_next_op_loop, ch],
    by simp [find_next_op_impl, find_next_op_loop, ch],
    by simp [find_next_op_impl, find_next_op_loop, ch],
    by simp [find_next_op_impl, find_next_op_loop, ch, StandaloneTernaryEnd, u8],
    by simp [find_next_op_impl, find_next_op_loop, ch], ?_, ?_⟩
  · constructor
    · intro h
      by_contra hc
      rw [hne hc] at h
      have := hg.1
      rw [h] at this
      revert this
      decide
    · intro h
      subst h
      simp [find_next_op_impl, find_next_op_loop, ch]
  · by_cases h : end_ = 62
    · exact Or.inl h
    · right
      rw [hne h]
      exact hg

theorem specOperatorLevels_binary :
    ∀ e ∈ specOperatorLevels, e.1 = "?" ∧ e.2.1 = TernaryConditional
      ∨ (e.1, e.2.1) ∈ binaryOperators := by
  decide

theorem specOperatorLevels_prec : ∀ e ∈ specOperatorLevels, Precedence e.2.1 = e.2.2 := by
  decide

theorem Spells_question : Spells (txt "?") TernaryConditional := by
  intro expr R
  simp [txt, find_next_op_loop, ch, TernaryConditional, PreventOverlap, u8]

/-- C22: every operator spelling of the specification, followed by a
blank and read with the end character NUL, is consumed in full (the cursor
is left on the blank) and gives the opcode of that name, and
`OpData.Precedence` of the opcode is the level listed: 19 for `**`, 17 for
`*` `/` `%`, 16 for `+` `-`, 15 for the shifts, 14 for the relations, 13
for `==` `!=`, 12 for `<=>`, 11, 10, 9 for the bitwise and 8, 7, 6 for the
logical operators, 5 for `?`, 4 for the 18 assignments, 3 for `,` and 2
for `;`; `StartNoOp` has 1 and `NullOp`, `EndGroupOp` and
`StandaloneTernaryEnd` have 0. -/
theorem C22_operator_table (e : String × Nat × Nat) (R : List Nat)
    (he : e ∈ specOperatorLevels) :
    find_next_op_impl (txt e.1 ++ 32 :: R) 0 = (e.2.1, 32 :: R)
    ∧ (txt e.1 ++ 32 :: R).drop (txt e.1).length = 32 :: R
    ∧ Precedence e.2.1 = e.2.2
    ∧ Precedence StartNoOp = 1 ∧ Precedence NullOp = 0 ∧ Precedence EndGroupOp = 0
    ∧ Precedence StandaloneTernaryEnd = 0 ∧ specOperatorLevels.length = 52 := by
  refine ⟨?_, by simp, specOperatorLevels_prec e he, by decide, by decide, by decide,
    by decide, by decide⟩
  rcases specOperatorLevels_binary e he with ⟨h1, h2⟩ | h
  · rw [h1, h2]
    exact Spells_question _ R
  · exact binaryOperators_spell (e.1, e.2.1) h _ R

theorem C22_operator_table_witness :
    find_next_op_impl (txt "<<<=" ++ 32 :: cstr "1") 0 = (LogicalLeftShiftAssign, 32 :: cstr "1")
    ∧ (txt "<<<=" ++ 32 :: cstr "1").drop (txt "<<<=").length = 32 :: cstr "1"
    ∧ Precedence LogicalLeftShiftAssign = 4
    ∧ Precedence StartNoOp = 1 ∧ Precedence NullOp = 0 ∧ Precedence EndGroupOp = 0
    ∧ Precedence StandaloneTernaryEnd = 0 ∧ specOperatorLevels.length = 52 :=
  C22_operator_table ("<<<=", LogicalLeftShiftAssign, 4) (cstr "1") (by decide)

/-- C23 as stated fails: "{option:foo}" is not evaluated although the
option `foo` exists and "<option:foo>" gives 42; the value consumer
rejects the `{`.  The patch-value parser, called on the same text, does
not look for a `}`: it returns the cursor just past the `{`. -/
theorem C23_counterexample :
    eval_expr (optionEnv false) 20 State.init (cstr "\x7boption:foo\x7d") 0
      = Outcome.ok (none, 0) (badCharacterState State.init (cstr "\x7boption:foo\x7d"))
    ∧ eval_expr (optionEnv false) 20 State.init (cstr "<option:foo>") 0
      = Outcome.ok (some [0], 42) (State.init.record (Event.patch_opt_get_len (txt "foo")))
    ∧ get_patch_value (optionEnv false) 20 State.init (cstr "\x7boption:foo\x7d") ⟨0, 0, [], 0, 0, 0⟩
      = Outcome.ok (some (cstr "option:foo\x7d"), ⟨PVT_UNKNOWN, 0, [], 0, 0, 0⟩)
          ((State.init.record (Event.patch_opt_get_len (cstr "foo\x7d"))).emit
            (Msg.OptionNotFoundError (cstr "foo\x7d"))) := by
  refine ⟨rfl, rfl, rfl⟩

/-- C23, amended: an operand that starts with `{` is rejected by the value
consumer as an invalid character, whatever follows: the operand fails with
the bad-character message and `eval_expr` returns a null cursor and 0.
The patch-value parser has no delimiters for `{`: for a text that starts
with `{` it searches with `<` and `>`, and the search stops on the `{`
itself. -/
theorem C23_brace_is_rejected (env : Env) (fuel : Nat) (s : State) (X : List Nat) (end_ : Nat) :
    consume_value_impl env (fuel + 2) s (123 :: X) = Outcome.null (s.emit Msg.BadCharacterError)
    ∧ eval_expr env (fuel + 4) s (123 :: X) end_
      = Outcome.ok (none, 0) (badCharacterState s (123 :: X))
    ∧ find_matching_end env.x64 (123 :: X) (ch '<') (ch '>') = some (123 :: X) := by
  have hc : consume_value_impl env (fuel + 2) s (123 :: X)
      = Outcome.null (s.emit Msg.BadCharacterError) := by
    simp [consume_value_impl, consume_value_loop, peek, ch]
  refine ⟨hc, ?_, ?_⟩
  · have hc2 : consume_value_impl env (fuel + 2) s (123 :: X)
        = Outcome.null (s.emit Msg.BadCharacterError) := hc
    have hl := loop_of_operand_null env (fuel + 2) s _ _ end_ 0 StartNoOp 0 (by decide) hc2
    simp only [eval_expr, impl_unfold, hl, badCharacterState]
  · have h1 : wrap env.x64 (wordMod env.x64) = 0 := by unfold wrap; exact Nat.mod_self _
    simp [find_matching_end, find_matching_end_loop, ch, b2n, h1]

/-- C24, at the failing input "~*0": the dereference of the address 0 logs
the warning, loads nothing and yields 0, but the value consumer returns
the cursor on the start of the operand instead of past it (the label
`NullDerefWarning` returns `expr`), so the text of the operand is read a
second time, now as an operator: "~*0" evaluates to 0 (`~0` times 0)
instead of `SIZE_MAX`, and "2 ** *0" to 0 instead of 1.  The same holds for
`[0]` with a register bank. -/
theorem C24_null_deref_cursor_at_start (x64 : Bool) (k : Nat) (s : State) :
    (∀ (env : Env) (expr expr_next : List Nat) (type : Nat),
      SharedDeref env s expr type 0 expr_next = Outcome.ok (0, expr) (s.emit Msg.NullDerefWarning))
    ∧ consume_value_impl (plainEnv x64) (k + 5) s (cstr "*0 + 1")
      = Outcome.ok (0, cstr "*0 + 1") (s.emit Msg.NullDerefWarning)
    ∧ consume_value_impl (regsEnv x64) (k + 9) s (cstr "[0] + 1")
      = Outcome.ok (0, cstr "[0] + 1") (s.emit Msg.NullDerefWarning)
    ∧ eval_expr (plainEnv x64) (k + 20) s (cstr "~*0") 0
      = Outcome.ok (some [0], 0) (s.emit Msg.NullDerefWarning)
    ∧ eval_expr (plainEnv x64) (k + 20) s (cstr "~0") 0 = Outcome.ok (some [0], SIZE_MAX x64) s
    ∧ eval_expr (plainEnv x64) (k + 20) s (cstr "2 ** *0") 0
      = Outcome.ok (some [0], 0) (s.emit Msg.NullDerefWarning)
    ∧ eval_expr (plainEnv x64) (k + 20) s (cstr "2 ** 0") 0 = Outcome.ok (some [0], 1) s := by
  refine ⟨?_, ?_⟩
  · intro env expr expr_next type
    simp [SharedDeref]
  · cases x64 <;> exact ⟨rfl, rfl, rfl, rfl, rfl, rfl⟩

/-- A turn of the evaluator loop that starts with `NullOp` on a cursor at
which the tokenizer finds no operator, and which is not on the end
character, leaves everything as it was: the loop does not end. -/
theorem loop_stuck (env : Env) (s : State) (expr : List Nat) (end_ : Nat)
    (h1 : find_next_op_impl expr end_ = (NullOp, expr)) (h2 : peek expr 0 ≠ end_) :
    ∀ n v cv, eval_expr_loop env n s expr end_ v NullOp cv = Outcome.fuel := by
  intro n
  induction n with
  | zero => intro v cv; rw [eval_expr_loop]
  | succ n ih =>
    intro v cv
    rw [loop_of_NullOp, afterOperand_same_left env n s expr expr end_ v NullOp cv NullOp h1 rfl
      (by decide), applyThen_more env n v NullOp s expr end_ cv NullOp h2, ApplyOperator_NullOp]
    exact ih cv cv

theorem loop_of_operand_fuel (env : Env) (fuel : Nat) (s : State) (expr : List Nat)
    (end_ value ops_cur cur0 : Nat) (hne : ops_cur ≠ NullOp)
    (hc : consume_value_impl env fuel s expr = Outcome.fuel) :
    eval_expr_loop env (fuel + 1) s expr end_ value ops_cur cur0 = Outcome.fuel := by
  rw [loop_unfold, operandOf, if_pos hne, hc]

/-- A parenthesised sub-expression that starts with a digit and whose
evaluation does not end. -/
theorem consume_paren_fuel (env : Env) (fuel : Nat) (s : State) (X : List Nat)
    (h0 : ch '0' ≤ peek X 0) (h9 : peek X 0 ≤ ch '9')
    (h : eval_expr_impl env fuel s X (ch ')') StartNoOp 0 = Outcome.fuel) :
    consume_value_impl env (fuel + 2) s (40 :: X) = Outcome.fuel := by
  have hc := CheckCastType_digit X h0 h9
  simp [consume_value_impl, consume_value_loop, peek, ch, hc] at h ⊢
  rw [h]

/-- The evaluation of "(1 + 2" does not end, whatever the budget. -/
theorem unmatched_paren_never_returns (x64 : Bool) (s : State) :
    ∀ n, eval_expr (plainEnv x64) n s (cstr "(1 + 2") 0 = Outcome.fuel := by
  have inner : ∀ k, eval_expr_impl (plainEnv x64) (k + 8) s (cstr "1 + 2") 41 StartNoOp 0
      = Outcome.fuel := by
    intro k
    have hcons : consume_value_impl (plainEnv x64) (k + 6) s (cstr "1 + 2")
        = Outcome.ok (1, cstr " + 2") s := by cases x64 <;> rfl
    have hin : eval_expr_impl (plainEnv x64) (k + 6) s (cstr " 2") 41 Add 1
        = Outcome.ok (3, [0]) s := by cases x64 <;> rfl
    have hst := loop_stuck (plainEnv x64) s [0] 41 (by decide) (by decide) (k + 6) 3 3
    rw [impl_unfold, loop_of_operand (plainEnv x64) (k + 6) s s _ _ 41 0 StartNoOp 0 1
        (by decide) hcons,
      afterOperand_lower (plainEnv x64) (k + 6) s (cstr " + 2") (cstr " 2") 41 0 StartNoOp 1 Add
        (by decide) (by decide) (by decide),
      hin, afterLower_ok_more (plainEnv x64) (k + 6) 0 StartNoOp 41 Add 3 s [0] (by decide)
        (by decide),
      applyThen_more (plainEnv x64) (k + 6) 0 StartNoOp s [0] 41 3 NullOp (by decide),
      ApplyOperator_StartNoOp]
    exact hst
  intro n
  by_cases hn : n < 12
  · interval_cases n <;> cases x64 <;> rfl
  · obtain ⟨k, rfl⟩ : ∃ k, n = k + 12 := ⟨n - 12, by omega⟩
    have hc := consume_paren_fuel (plainEnv x64) (k + 8) s (cstr "1 + 2") (by decide) (by decide)
      (inner k)
    have hl := loop_of_operand_fuel (plainEnv x64) (k + 10) s (cstr "(1 + 2") 0 0 StartNoOp 0
      (by decide) hc
    unfold eval_expr
    rw [impl_unfold, hl]

/-- C25, at the failing input "(1": the missing `)` is not detected.  The
inner frame stops at the terminating NUL, the value consumer steps over
it as if it were the `)`, and `eval_expr` succeeds with the value 1 and a
cursor past the NUL; what follows the string in memory is then read as
the rest of the expression (with the bytes of "+1" there the result is
2).  The same happens for `[` with a register bank.  On "(1 + 2" the
evaluation never returns: the frame of the parenthesis stays on the NUL
for ever, for every budget of the embedding. -/
theorem C25_unmatched_bracket_not_detected (x64 : Bool) (k : Nat) (s : State) :
    eval_expr (plainEnv x64) (k + 20) s (cstr "(1") 0 = Outcome.ok (some [], 1) s
    ∧ eval_expr (plainEnv x64) (k + 20) s (cstr "(1" ++ cstr "+1") 0 = Outcome.ok (some [0], 2) s
    ∧ eval_expr (regsEnv x64) (k + 20) s (cstr "[0x10") 0
      = Outcome.ok (some [], 0) (s.record (Event.load 16 (PVT_DEFAULT x64)))
    ∧ ∀ n, eval_expr (plainEnv x64) n s (cstr "(1 + 2") 0 = Outcome.fuel := by
  refine ⟨?_, ?_, ?_, unmatched_paren_never_returns x64 s⟩ <;> cases x64 <;> rfl

theorem integerTags_member : ∀ t ∈ integerTags, integerMember t.1 = some (t.2.1, t.2.2) := by
  decide

theorem readMember_emod (bits : Nat) (signed : Bool) (v : patch_val_t) :
    readMember bits signed v % (2 : Int) ^ bits = ((v.raw % 2 ^ bits : Nat) : Int) := by
  have hpos : (0 : Int) < (2 : Int) ^ bits := by positivity
  have hlt : ((v.raw % 2 ^ bits : Nat) : Int) < (2 : Int) ^ bits := by
    have := Nat.mod_lt v.raw (show 0 < 2 ^ bits by positivity)
    exact_mod_cast this
  have hnn : (0 : Int) ≤ ((v.raw % 2 ^ bits : Nat) : Int) := Int.ofNat_nonneg _
  unfold readMember
  simp only []
  split
  · rw [Int.sub_emod, Int.emod_self, sub_zero, Int.emod_emod]
    exact Int.emod_eq_of_lt hnn hlt
  · exact Int.emod_eq_of_lt hnn hlt

theorem writeMember_raw_mod (bits : Nat) (ret : patch_val_t) (x : Int) :
    (writeMember bits ret x).raw % 2 ^ bits = (x % (2 : Int) ^ bits).toNat := by
  have hpos : (0 : Int) < (2 : Int) ^ bits := by positivity
  have hlt : (x % (2 : Int) ^ bits).toNat < 2 ^ bits := by
    have h1 := Int.emod_lt_of_pos x hpos
    have h2 := Int.emod_nonneg x (ne_of_gt hpos)
    have : ((x % (2 : Int) ^ bits).toNat : Int) < ((2 ^ bits : Nat) : Int) := by
      rw [Int.toNat_of_nonneg h2]
      exact_mod_cast h1
    exact_mod_cast this
  show (ret.raw / 2 ^ bits * 2 ^ bits + (x % (2 : Int) ^ bits).toNat) % 2 ^ bits = _
  rw [Nat.mul_add_mod']
  exact Nat.mod_eq_of_lt hlt

theorem writeMember_type (bits : Nat) (ret : patch_val_t) (x : Int) :
    (writeMember bits ret x).type = ret.type := rfl

/-- The round trip on one integer member: adding and subtracting the same
operand gives back the bits of the member. -/
theorem add_sub_member (m : ValueMachine) (a b : patch_val_t) (bits : Nat) (signed : Bool)
    (h : integerMember a.type = some (bits, signed)) :
    ∃ v1 v2, patch_val_add m a b = some v1 ∧ patch_val_sub m v1 b = some v2
      ∧ v1.type = a.type ∧ v2.type = a.type ∧ v2.raw % 2 ^ bits = a.raw % 2 ^ bits := by
  have hv1 : patch_val_add m a b = some (writeMember bits { m.uninitialised with type := a.type }
      (readMember bits signed a + readMember bits signed b)) := by
    simp [patch_val_add, MakePatchOpFunc, h]
  generalize hw : writeMember bits { m.uninitialised with type := a.type }
      (readMember bits signed a + readMember bits signed b) = v1 at hv1
  have ht1 : v1.type = a.type := by rw [← hw]; rfl
  have hr1 : v1.raw % 2 ^ bits
      = ((readMember bits signed a + readMember bits signed b) % (2 : Int) ^ bits).toNat := by
    rw [← hw, writeMember_raw_mod]
  have hv2 : patch_val_sub m v1 b = some (writeMember bits { m.uninitialised with type := v1.type }
      (readMember bits signed v1 - readMember bits signed b)) := by
    simp [patch_val_sub, MakePatchOpFunc, ht1, h]
  refine ⟨v1, _, hv1, hv2, ht1, ht1, ?_⟩
  rw [writeMember_raw_mod]
  have e1 := readMember_emod bits signed v1
  rw [hr1] at e1
  have hpos : (0 : Int) < (2 : Int) ^ bits := by positivity
  rw [Int.toNat_of_nonneg (Int.emod_nonneg _ (ne_of_gt hpos))] at e1
  have e2 := readMember_emod bits signed a
  have key : (readMember bits signed v1 - readMember bits signed b) % (2 : Int) ^ bits
      = ((a.raw % 2 ^ bits : Nat) : Int) := by
    rw [Int.sub_emod, e1, ← Int.sub_emod, add_sub_cancel_right, e2]
  rw [key]
  exact Int.toNat_ofNat _

theorem patch_val_op_str_add (m : ValueMachine) (a b : patch_val_t) :
    patch_val_op_str m (some (cstr "+")) a b = (patch_val_add m a b).map (fun v => (v, [])) :=
  rfl

theorem patch_val_op_str_sub (m : ValueMachine) (a b : patch_val_t) :
    patch_val_op_str m (some (cstr "-")) a b = (patch_val_sub m a b).map (fun v => (v, [])) :=
  rfl

/-- C26: for every integer tag and every `a` with that tag (and every
`b`), `patch_val_op_str` with "+" and then with "-" and the same `b` gives,
without a log line, a value with the tag of `a` whose member for that tag
has the bits of the member of `a`: the payloads agree modulo 2 to the
width of the tag. -/
theorem C26_add_sub_round_trip (m : ValueMachine) (a b : patch_val_t) (t : Nat × Nat × Bool)
    (ht : t ∈ integerTags) (ha : a.type = t.1) :
    ∃ v1 v2, patch_val_op_str m (some (cstr "+")) a b = some (v1, [])
      ∧ patch_val_op_str m (some (cstr "-")) v1 b = some (v2, [])
      ∧ v2.type = t.1 ∧ v2.raw % 2 ^ t.2.1 = a.raw % 2 ^ t.2.1 := by
  have hm := integerTags_member t ht
  rw [← ha] at hm
  obtain ⟨v1, v2, h1, h2, _, h4, h5⟩ := add_sub_member m a b t.2.1 t.2.2 hm
  refine ⟨v1, v2, ?_, ?_, by rw [h4, ha], h5⟩
  · rw [patch_val_op_str_add, h1]; rfl
  · rw [patch_val_op_str_sub, h2]; rfl

theorem C26_add_sub_round_trip_witness :
    ∃ v1 v2, patch_val_op_str plainMachine (some (cstr "+")) ⟨PVT_BYTE, 200, [], 0, 0, 0⟩
        ⟨PVT_BYTE, 100, [], 0, 0, 0⟩ = some (v1, [])
      ∧ patch_val_op_str plainMachine (some (cstr "-")) v1 ⟨PVT_BYTE, 100, [], 0, 0, 0⟩
        = some (v2, [])
      ∧ v2.type = PVT_BYTE ∧ v2.raw % 2 ^ 8 = 200 % 2 ^ 8 :=
  C26_add_sub_round_trip plainMachine ⟨PVT_BYTE, 200, [], 0, 0, 0⟩ ⟨PVT_BYTE, 100, [], 0, 0, 0⟩
    (PVT_BYTE, 8, false) (by decide) rfl

/-- C27 as stated fails for the compound assignments: "+=" is not
refused, it adds; the result of 16 "+=" 2 on dwords is the dword 18 and
nothing is logged. -/
theorem C27_counterexample :
    patch_val_op_str plainMachine (some (cstr "+=")) ⟨PVT_DWORD, 16, [], 0, 0, 0⟩
        ⟨PVT_DWORD, 2, [], 0, 0, 0⟩
      = some (⟨PVT_DWORD, 18, [], 0, 0, 0⟩, []) := by
  rfl

theorem compound_as_base (m : ValueMachine) (a b : patch_val_t) :
    ∀ e ∈ compoundAssignmentNames,
      patch_val_op_str m (some (cstr e.1)) a b = patch_val_op_str m (some (cstr e.2)) a b := by
  intro e he
  simp only [compoundAssignmentNames, List.mem_cons, List.mem_singleton, List.not_mem_nil,
    or_false] at he
  rcases he with rfl | rfl | rfl | rfl | rfl | rfl | rfl | rfl | rfl | rfl | rfl | rfl | rfl
    | rfl | rfl | rfl | rfl <;> rfl

/-- C27, amended: `patch_val_op_str` refuses every comparison and logical
operator name, the plain `=`, and `,` and `;`: for all operands the value
returned has the tag none and one line is logged.  The compound
assignments are not refused: each gives what the operator it is made from
gives. -/
theorem C27_refused_operators (m : ValueMachine) (a b : patch_val_t) (name : String)
    (h : name ∈ refusedOperatorNames) :
    (∃ line, patch_val_op_str m (some (cstr name)) a b
      = some ({ m.uninitialised with type := PVT_NONE }, [line]))
    ∧ ∀ e ∈ compoundAssignmentNames,
        patch_val_op_str m (some (cstr e.1)) a b = patch_val_op_str m (some (cstr e.2)) a b := by
  refine ⟨?_, compound_as_base m a b⟩
  simp only [refusedOperatorNames, List.mem_cons, List.mem_singleton, List.not_mem_nil,
    or_false] at h
  rcases h with rfl | rfl | rfl | rfl | rfl | rfl | rfl | rfl | rfl | rfl | rfl | rfl | rfl
    | rfl | rfl | rfl <;> exact ⟨_, rfl⟩

theorem C27_refused_operators_witness :
    (∃ line, patch_val_op_str plainMachine (some (cstr "<=>")) ⟨PVT_DWORD, 16, [], 0, 0, 0⟩
        ⟨PVT_DWORD, 2, [], 0, 0, 0⟩
      = some ({ plainMachine.uninitialised with type := PVT_NONE }, [line]))
    ∧ ∀ e ∈ compoundAssignmentNames,
        patch_val_op_str plainMachine (some (cstr e.1)) ⟨PVT_DWORD, 16, [], 0, 0, 0⟩
            ⟨PVT_DWORD, 2, [], 0, 0, 0⟩
          = patch_val_op_str plainMachine (some (cstr e.2)) ⟨PVT_DWORD, 16, [], 0, 0, 0⟩
            ⟨PVT_DWORD, 2, [], 0, 0, 0⟩ :=
  C27_refused_operators plainMachine ⟨PVT_DWORD, 16, [], 0, 0, 0⟩ ⟨PVT_DWORD, 2, [], 0, 0, 0⟩
    "<=>" (by decide)

/-- C28 as stated fails: "**" is not an operator of `patch_val_op_str`, and
the result for the dwords 16 and 2 has the tag none, while `patch_val_add`
gives the dword 18; the same holds for "?" and for a text without an
operator. -/
theorem C28_counterexample :
    patch_val_op_str plainMachine (some (cstr "**")) ⟨PVT_DWORD, 16, [], 0, 0, 0⟩
        ⟨PVT_DWORD, 2, [], 0, 0, 0⟩
      = some (⟨PVT_NONE, 0, [], 0, 0, 0⟩, [])
    ∧ patch_val_add plainMachine ⟨PVT_DWORD, 16, [], 0, 0, 0⟩ ⟨PVT_DWORD, 2, [], 0, 0, 0⟩
      = some ⟨PVT_DWORD, 18, [], 0, 0, 0⟩
    ∧ patch_val_op_str plainMachine (some (cstr "?")) ⟨PVT_DWORD, 16, [], 0, 0, 0⟩
        ⟨PVT_DWORD, 2, [], 0, 0, 0⟩
      = some (⟨PVT_NONE, 0, [], 0, 0, 0⟩, [])
    ∧ patch_val_op_str plainMachine (some (cstr "abc")) ⟨PVT_DWORD, 16, [], 0, 0, 0⟩
        ⟨PVT_DWORD, 2, [], 0, 0, 0⟩
      = some (⟨PVT_NONE, 0, [], 0, 0, 0⟩, []) := by
  refine ⟨rfl, rfl, rfl, rfl⟩

/-- C28, amended: for every operator name whose opcode is in no case of
the switch of `patch_val_op_str` (such as "**", "?", or a text without an
operator), the value returned has the tag none, whatever the operands, and
nothing is logged; the operands are not added. -/
theorem C28_unknown_operator (m : ValueMachine) (a b : patch_val_t) (text : List Nat)
    (h1 : (find_next_op_impl text 0).1 ∉ operatedOpcodes)
    (h2 : (find_next_op_impl text 0).1 ∉ refusedOpcodes) :
    patch_val_op_str m (some text) a b = some ({ m.uninitialised with type := PVT_NONE }, []) := by
  simp only [operatedOpcodes, refusedOpcodes, List.mem_cons, List.mem_singleton,
    List.not_mem_nil, or_false, not_or] at h1 h2
  obtain ⟨a1, a2, a3, a4, a5, a6, a7, a8, a9, a10, a11, a12, a13, a14, a15, a16, a17, a18, a19,
    a20, a21, a22, a23, a24, a25, a26, a27, a28, a29, a30, a31, a32, a33, a34⟩ := h1
  obtain ⟨b1, b2, b3, b4, b5, b6, b7, b8, b9, b10, b11, b12, b13, b14, b15, b16⟩ := h2
  simp only [patch_val_op_str, a1, a2, a3, a4, a5, a6, a7, a8, a9, a10, a11, a12, a13, a14, a15,
    a16, a17, a18, a19, a20, a21, a22, a23, a24, a25, a26, a27, a28, a29, a30, a31, a32, a33,
    a34, b1, b2, b3, b4, b5, b6, b7, b8, b9, b10, b11, b12, b13, b14, b15, b16, or_self,
    if_false]

theorem C28_unknown_operator_witness :
    patch_val_op_str plainMachine (some (cstr "**")) ⟨PVT_DWORD, 16, [], 0, 0, 0⟩
        ⟨PVT_DWORD, 2, [], 0, 0, 0⟩
      = some ({ plainMachine.uninitialised with type := PVT_NONE }, []) :=
  C28_unknown_operator plainMachine ⟨PVT_DWORD, 16, [], 0, 0, 0⟩ ⟨PVT_DWORD, 2, [], 0, 0, 0⟩
    (cstr "**") (by decide) (by decide)

theorem patch_val_set_op_other (Val : patch_val_t) (text : List Nat)
    (h : (find_next_op_impl text 0).1 ∉ operatedOpcodes) :
    patch_val_set_op (some text) Val = { Val with merge_op := Add } := by
  simp only [operatedOpcodes, List.mem_cons, List.mem_singleton, List.not_mem_nil, or_false,
    not_or] at h
  obtain ⟨a1, a2, a3, a4, a5, a6, a7, a8, a9, a10, a11, a12, a13, a14, a15, a16, a17, a18, a19,
    a20, a21, a22, a23, a24, a25, a26, a27, a28, a29, a30, a31, a32, a33, a34⟩ := h
  simp only [patch_val_set_op, a1, a2, a3, a4, a5, a6, a7, a8, a9, a10, a11, a12, a13, a14, a15,
    a16, a17, a18, a19, a20, a21, a22, a23, a24, a25, a26, a27, a28, a29, a30, a31, a32, a33,
    a34, or_self, if_false]

/-- C29: `patch_val_set_op` stores in `merge_op` the opcode of the
arithmetic, shift or bitwise operator that `op_str` names, the same opcode
for the operator and for its compound assignment ("+" and "+=" give
`Add`, "~&" and "~&=" give `BitwiseNand`, and so on for all 17), and `Add`
when `op_str` is null or names anything else; no other field of the value
changes. -/
theorem C29_patch_val_set_op (Val : patch_val_t) (e : String × Nat) (text : List Nat)
    (he : e ∈ mergeOperators) (ht : (find_next_op_impl text 0).1 ∉ operatedOpcodes) :
    patch_val_set_op (some (cstr e.1)) Val = { Val with merge_op := e.2 }
    ∧ patch_val_set_op (some (cstr (e.1 ++ "="))) Val = { Val with merge_op := e.2 }
    ∧ patch_val_set_op none Val = { Val with merge_op := Add }
    ∧ patch_val_set_op (some text) Val = { Val with merge_op := Add }
    ∧ patch_val_set_op (some (cstr "**")) Val = { Val with merge_op := Add }
    ∧ patch_val_set_op (some (cstr "<=")) Val = { Val with merge_op := Add }
    ∧ patch_val_set_op (some (cstr "=")) Val = { Val with merge_op := Add }
    ∧ patch_val_set_op (some (cstr "no operator")) Val = { Val with merge_op := Add } := by
  refine ⟨?_, ?_, rfl, patch_val_set_op_other Val text ht, rfl, rfl, rfl, rfl⟩
  · simp only [mergeOperators, List.mem_cons, List.mem_singleton, List.not_mem_nil,
      or_false] at he
    rcases he with rfl | rfl | rfl | rfl | rfl | rfl | rfl | rfl | rfl | rfl | rfl | rfl | rfl
      | rfl | rfl | rfl | rfl <;> rfl
  · simp only [mergeOperators, List.mem_cons, List.mem_singleton, List.not_mem_nil,
      or_false] at he
    rcases he with rfl | rfl | rfl | rfl | rfl | rfl | rfl | rfl | rfl | rfl | rfl | rfl | rfl
      | rfl | rfl | rfl | rfl <;> rfl

theorem C29_patch_val_set_op_witness :
    patch_val_set_op (some (cstr "~&")) ⟨PVT_DWORD, 7, [], 0, 0, 0⟩
      = ⟨PVT_DWORD, 7, [], 0, 0, BitwiseNand⟩
    ∧ patch_val_set_op (some (cstr "~&=")) ⟨PVT_DWORD, 7, [], 0, 0, 0⟩
      = ⟨PVT_DWORD, 7, [], 0, 0, BitwiseNand⟩
    ∧ patch_val_set_op (some (cstr "?")) ⟨PVT_DWORD, 7, [], 0, 0, 0⟩
      = ⟨PVT_DWORD, 7, [], 0, 0, Add⟩ :=
  have h := C29_patch_val_set_op ⟨PVT_DWORD, 7, [], 0, 0, 0⟩ ("~&", BitwiseNand) (cstr "?")
    (by decide) (by decide)
  ⟨h.1, h.2.1, h.2.2.2.1⟩

/-- C30, at the failing input "<<" with the dwords 1 and 4: the switch of
`patch_val_op_str` sends every left-shift name to `patch_val_shr` and every
right-shift name to `patch_val_shl`, for all operands, so 1 "<<" 4 is 0
(1 shifted right by 4) instead of 16, and 16 ">>" 2 is 64 instead of 4;
`patch_val_shl` itself shifts left and `patch_val_shr` shifts right. -/
theorem C30_shift_names_swapped (m : ValueMachine) (a b : patch_val_t) :
    patch_val_op_str m (some (cstr "<<")) a b = (patch_val_shr m a b).map (fun v => (v, []))
    ∧ patch_val_op_str m (some (cstr "<<<")) a b = (patch_val_shr m a b).map (fun v => (v, []))
    ∧ patch_val_op_str m (some (cstr "<<=")) a b = (patch_val_shr m a b).map (fun v => (v, []))
    ∧ patch_val_op_str m (some (cstr "<<<=")) a b = (patch_val_shr m a b).map (fun v => (v, []))
    ∧ patch_val_op_str m (some (cstr ">>")) a b = (patch_val_shl m a b).map (fun v => (v, []))
    ∧ patch_val_op_str m (some (cstr ">>>")) a b = (patch_val_shl m a b).map (fun v => (v, []))
    ∧ patch_val_op_str m (some (cstr ">>=")) a b = (patch_val_shl m a b).map (fun v => (v, []))
    ∧ patch_val_op_str m (some (cstr ">>>=")) a b = (patch_val_shl m a b).map (fun v => (v, []))
    ∧ patch_val_op_str plainMachine (some (cstr "<<")) ⟨PVT_DWORD, 1, [], 0, 0, 0⟩
        ⟨PVT_DWORD, 4, [], 0, 0, 0⟩ = some (⟨PVT_DWORD, 0, [], 0, 0, 0⟩, [])
    ∧ patch_val_op_str plainMachine (some (cstr ">>")) ⟨PVT_DWORD, 16, [], 0, 0, 0⟩
        ⟨PVT_DWORD, 2, [], 0, 0, 0⟩ = some (⟨PVT_DWORD, 64, [], 0, 0, 0⟩, [])
    ∧ patch_val_shl plainMachine ⟨PVT_DWORD, 1, [], 0, 0, 0⟩ ⟨PVT_DWORD, 4, [], 0, 0, 0⟩
      = some ⟨PVT_DWORD, 16, [], 0, 0, 0⟩
    ∧ patch_val_shr plainMachine ⟨PVT_DWORD, 16, [], 0, 0, 0⟩ ⟨PVT_DWORD, 2, [], 0, 0, 0⟩
      = some ⟨PVT_DWORD, 4, [], 0, 0, 0⟩ := by
  refine ⟨rfl, rfl, rfl, rfl, rfl, rfl, rfl, rfl, rfl, rfl, rfl, rfl⟩

/-- C34: the 61 enumerators of the opcode enumeration, with their values
taken modulo 256, are pairwise distinct; hence every assignment made by the
constructor of `OpData_t` is still in the table when the constructor is
done: no slot of `Precedence` or `Associativity` is written for two
operators. -/
theorem C34_opcodes_distinct :
    namedOpcodes.Nodup
    ∧ namedOpcodes.length = 61
    ∧ (∀ op ∈ namedOpcodes, op < 256)
    ∧ (∀ e ∈ OpData_assignments, e.1 ∈ namedOpcodes)
    ∧ (OpData_assignments.map (fun e => e.1)).Nodup
    ∧ (∀ e ∈ OpData_assignments, Precedence e.1 = e.2.1 ∧ Associativity e.1 = e.2.2) := by
  refine ⟨by decide, by decide, by decide, by decide, by decide, by decide⟩

set_option maxRecDepth 100000 in
theorem band_iff_associativity :
    ∀ op < 256, (inRightBand (Precedence op) ↔ Associativity op = RightAssociative)
      ∧ (op ∉ namedOpcodes → Precedence op = 0 ∧ ¬ inRightBand (Precedence op)
          ∧ Associativity op = LeftAssociative) := by
  decide

/-- C35: for every opcode byte the test of the evaluator for the
right-associative band, `(uint8_t)(Precedence[op] - Precedence[Assign]) <=
Precedence[TernaryConditional] - Precedence[Assign]`, holds exactly when
`Associativity[op]` is `RightAssociative`; it fails for `BadBrackets`
(precedence 255) and for every opcode that the constructor of `OpData_t`
does not assign. -/
theorem C35_band_is_associativity (op : Nat) (h : op < 256) :
    (inRightBand (Precedence op) ↔ Associativity op = RightAssociative)
    ∧ ¬ inRightBand (Precedence BadBrackets)
    ∧ Precedence BadBrackets = 255
    ∧ (op ∉ namedOpcodes → Precedence op = 0 ∧ ¬ inRightBand (Precedence op)
        ∧ Associativity op = LeftAssociative) :=
  ⟨(band_iff_associativity op h).1, by decide, by decide, (band_iff_associativity op h).2⟩

theorem C35_band_is_associativity_witness :
    (inRightBand (Precedence AddAssign) ↔ Associativity AddAssign = RightAssociative)
    ∧ ¬ inRightBand (Precedence BadBrackets)
    ∧ Precedence BadBrackets = 255
    ∧ (AddAssign ∉ namedOpcodes → Precedence AddAssign = 0 ∧ ¬ inRightBand (Precedence AddAssign)
        ∧ Associativity AddAssign = LeftAssociative) :=
  C35_band_is_associativity AddAssign (by decide)

theorem NOP_Strings_Lookup_lengths :
    NOP_Strings_Lookup.length = 2
    ∧ ∀ row ∈ NOP_Strings_Lookup, row.length = 16
      ∧ ∀ n < 16, (row.getD n "").length = 2 * n
        ∧ (row.getD n "").toList.all isHexDigit = true := by
  decide

theorem cstr_length (str : String) : (cstr str).length = str.length + 1 := by
  unfold cstr
  rw [List.length_append, List.length_map]
  rfl

theorem nopRow_entry (env : Env) (n : Nat) (h : n < 16) :
    ((nopRow env).getD n "").length = 2 * n
    ∧ ((nopRow env).getD n "").toList.all isHexDigit = true := by
  have hrow : nopRow env ∈ NOP_Strings_Lookup := by
    unfold nopRow
    cases env.CPUID_Data "Manufacturer == AMD" <;> decide
  exact (NOP_Strings_Lookup_lengths.2 _ hrow).2 n h

/-- C36: each of the two rows of `NOP_Strings_Lookup` has 16 entries, and
the entry of index `n` is a string of exactly `2 * n` hexadecimal digits:
it encodes `n` bytes.  So when the sub-expression of `nop:` evaluates to a
non-zero `n`, `GetMultibyteNOP` returns a code value whose string has
`2 * len` hexadecimal digits, and `count` copies of it encode
`len * count = n` bytes; for `n = 0` the count is 0. -/
theorem C36_nop_strings_encode_len_bytes (env : Env) (fuel : Nat) (s s1 : State)
    (name R : List Nat) (end_char n : Nat)
    (h : eval_expr_impl env fuel s name end_char StartNoOp 0 = Outcome.ok (n, R) s1) :
    (NOP_Strings_Lookup.length = 2
      ∧ ∀ row ∈ NOP_Strings_Lookup, row.length = 16
        ∧ ∀ i < 16, (row.getD i "").length = 2 * i
          ∧ (row.getD i "").toList.all isHexDigit = true)
    ∧ ∃ v : patch_val_t,
        GetMultibyteNOP env (fuel + 1) s name end_char = Outcome.ok v s1
        ∧ v.len * v.count = n
        ∧ (n = 0 → v.count = 0)
        ∧ (n ≠ 0 → ∃ str : String, v.text = cstr str ∧ str.length = 2 * v.len
            ∧ str.toList.all isHexDigit = true
            ∧ v.count * (str.length / 2) = n) := by
  refine ⟨NOP_Strings_Lookup_lengths, ?_⟩
  by_cases h0 : n = 0
  · refine ⟨⟨PVT_CODE, env.uninitialised, [], 0, 0, env.uninitialised⟩, ?_, ?_, ?_, ?_⟩
    · simp [GetMultibyteNOP, h, h0]
    · simp [h0]
    · intro _; rfl
    · intro h1; exact absurd h0 h1
  · by_cases h15 : n > 15
    · obtain ⟨a1, a2, a3, a4, _⟩ := GetMultibyteNOP_loop_spec n 15 env.uninitialised (by decide)
      have hm : (GetMultibyteNOP_loop n 15 env.uninitialised).2
          * (GetMultibyteNOP_loop n 15 env.uninitialised).1 = n := by
        rw [a4]
        exact Nat.mul_div_cancel' (Nat.dvd_of_mod_eq_zero a3)
      obtain ⟨e1, e2⟩ := nopRow_entry env (GetMultibyteNOP_loop n 15 env.uninitialised).2
        (by omega)
      refine ⟨⟨PVT_CODE, 0,
        cstr ((nopRow env).getD (GetMultibyteNOP_loop n 15 env.uninitialised).2 ""),
        (GetMultibyteNOP_loop n 15 env.uninitialised).2,
        (GetMultibyteNOP_loop n 15 env.uninitialised).1, env.uninitialised⟩,
        ?_, hm, ?_, ?_⟩
      · simp [GetMultibyteNOP, h, h0, h15, nopRow]
      · intro h1; exact absurd h1 h0
      · intro _
        refine ⟨_, rfl, e1, e2, ?_⟩
        rw [e1, Nat.mul_div_cancel_left _ (by decide : 0 < 2), Nat.mul_comm]
        exact hm
    · obtain ⟨e1, e2⟩ := nopRow_entry env n (by omega)
      refine ⟨⟨PVT_CODE, 0, cstr ((nopRow env).getD n ""), n, 1, env.uninitialised⟩,
        ?_, ?_, ?_, ?_⟩
      · simp [GetMultibyteNOP, h, h0, h15, nopRow]
      · simp
      · intro h1; exact absurd h1 h0
      · intro _
        refine ⟨_, rfl, e1, e2, ?_⟩
        rw [e1, Nat.mul_div_cancel_left _ (by decide : 0 < 2), Nat.one_mul]

theorem C36_nop_strings_encode_len_bytes_witness :
    (NOP_Strings_Lookup.length = 2
      ∧ ∀ row ∈ NOP_Strings_Lookup, row.length = 16
        ∧ ∀ i < 16, (row.getD i "").length = 2 * i
          ∧ (row.getD i "").toList.all isHexDigit = true)
    ∧ ∃ v : patch_val_t,
        GetMultibyteNOP (plainEnv false) 20 State.init (cstr "18>") 62 = Outcome.ok v State.init
        ∧ v.len * v.count = 18
        ∧ (18 = 0 → v.count = 0)
        ∧ (18 ≠ 0 → ∃ str : String, v.text = cstr str ∧ str.length = 2 * v.len
            ∧ str.toList.all isHexDigit = true
            ∧ v.count * (str.length / 2) = 18) :=
  C36_nop_strings_encode_len_bytes (plainEnv false) 19 State.init State.init (cstr "18>")
    (cstr ">") 62 18 rfl

theorem wordMod_split (x64 : Bool) (n : Nat) (hn : n < wordBits x64) :
    wordMod x64 = 2 ^ (wordBits x64 - n) * 2 ^ n ∧ 2 * 2 ^ (wordBits x64 - n) ≤ wordMod x64 * 2
    ∧ wordMod x64 / 2 * 2 = wordMod x64 := by
  have h1 : wordMod x64 = 2 ^ (wordBits x64 - n) * 2 ^ n := by
    unfold wordMod
    rw [← pow_add]
    congr 1
    omega
  have h2 : 0 < 2 ^ n := Nat.pow_pos (by decide)
  have h3 : wordMod x64 / 2 * 2 = wordMod x64 := by
    cases x64 <;> decide
  refine ⟨h1, ?_, h3⟩
  have : 2 ^ (wordBits x64 - n) ≤ wordMod x64 := by
    rw [h1]
    exact Nat.le_mul_of_pos_right _ h2
  omega

/-- The arithmetic shift to the right of the applier: the quotient with the
top `n` bits set to the sign bit. -/
theorem sarW_eq (x64 : Bool) (v n : Nat) (hv : v < wordMod x64) (hn : n < wordBits x64) :
    sarW x64 v n
      = v / 2 ^ n + (if v < wordMod x64 / 2 then 0 else wordMod x64 - 2 ^ (wordBits x64 - n)) := by
  obtain ⟨hM, hq, hhalf⟩ := wordMod_split x64 n hn
  have hp : 0 < 2 ^ n := Nat.pow_pos (by decide)
  have hw : wrap x64 v = v := Nat.mod_eq_of_lt hv
  have hn' : n % wordBits x64 = n := Nat.mod_eq_of_lt hn
  have hd : v / 2 ^ n < 2 ^ (wordBits x64 - n) := by
    rw [Nat.div_lt_iff_lt_mul hp, ← hM]
    exact hv
  have hqM : 2 ^ (wordBits x64 - n) ≤ wordMod x64 := by
    rw [hM]
    exact Nat.le_mul_of_pos_right _ hp
  have hcast : ((2 : Int) ^ n) = ((2 ^ n : Nat) : Int) := by push_cast; rfl
  unfold sarW ofSigned toSigned
  rw [hw, hn', hcast]
  by_cases hs : v < wordMod x64 / 2
  · rw [if_pos hs, if_pos hs, ← Int.natCast_div, Nat.add_zero]
    rw [Int.emod_eq_of_lt (by positivity) (by
      have : v / 2 ^ n ≤ v := Nat.div_le_self _ _
      exact_mod_cast (by omega : v / 2 ^ n < wordMod x64))]
    exact Int.toNat_natCast _
  · rw [if_neg hs, if_neg hs]
    have e1 : ((v : Int) - (wordMod x64 : Int))
        = (v : Int) + (-((2 ^ (wordBits x64 - n) : Nat) : Int)) * ((2 ^ n : Nat) : Int) := by
      have : ((wordMod x64 : Nat) : Int)
          = ((2 ^ (wordBits x64 - n) : Nat) : Int) * ((2 ^ n : Nat) : Int) := by
        exact_mod_cast hM
      rw [this]
      ring
    rw [e1, Int.add_mul_ediv_right _ _ (by exact_mod_cast hp.ne'), ← Int.natCast_div]
    have e2 : (((v / 2 ^ n : Nat) : Int) + -((2 ^ (wordBits x64 - n) : Nat) : Int))
          % ((wordMod x64 : Nat) : Int)
        = ((v / 2 ^ n + (wordMod x64 - 2 ^ (wordBits x64 - n)) : Nat) : Int) := by
      rw [← Int.add_mul_emod_self (b := 1), Int.emod_eq_of_lt]
      · push_cast [Nat.cast_sub hqM]
        ring
      · have : (((2 ^ (wordBits x64 - n) : Nat) : Int)) ≤ ((wordMod x64 : Nat) : Int) := by
          exact_mod_cast hqM
        have : (0 : Int) ≤ ((v / 2 ^ n : Nat) : Int) := by positivity
        linarith
      · have : ((v / 2 ^ n : Nat) : Int) < ((2 ^ (wordBits x64 - n) : Nat) : Int) := by
          exact_mod_cast hd
        linarith
    rw [e2]
    exact Int.toNat_natCast _

theorem sarW_floor (x64 : Bool) (v n : Nat) (hv : v < wordMod x64) :
    (sarW x64 v (n % wordBits x64) : Int)
      = ⌊(((if v < wordMod x64 / 2 then (v : Int) else (v : Int) - (wordMod x64 : Int)) : Int) : ℚ)
          / 2 ^ (n % wordBits x64)⌋ % (wordMod x64 : Int) := by
  have hw : wrap x64 v = v := Nat.mod_eq_of_lt hv
  have hM : ((wordMod x64 : Nat) : Int) ≠ 0 := by
    exact_mod_cast (wordMod_pos x64).ne'
  have hf := Rat.floor_intCast_div_natCast
    (if v < wordMod x64 / 2 then (v : Int) else (v : Int) - (wordMod x64 : Int))
    (2 ^ (n % wordBits x64))
  have hc : (((2 ^ (n % wordBits x64) : Nat) : ℚ)) = (2 : ℚ) ^ (n % wordBits x64) := by
    push_cast; rfl
  rw [hc] at hf
  rw [hf]
  unfold sarW ofSigned toSigned
  rw [hw, Nat.mod_mod, Int.toNat_of_nonneg (Int.emod_nonneg _ hM)]
  push_cast
  rfl

/-- C31: for a machine word `v` and a count `n < W`, `ApplyOperator` gives
for `>>` the arithmetic shift to the right (the quotient `v / 2 ^ n` with
the top `n` bits set to the sign bit of `v`, which is the floor of
`signed(v) / 2 ^ n` taken modulo `2 ^ W`), for `>>>` the logical shift
`v / 2 ^ n`, and for `<<` and `<<<` alike `(v * 2 ^ n) mod 2 ^ W`; and
"8 >> 1" evaluates to 4. -/
theorem C31_shifts (x64 : Bool) (u : Nat) (s : State) (v n : Nat) (hv : v < wordMod x64)
    (hn : n < wordBits x64) :
    ApplyOperator x64 u s v n ArithmeticRightShift
      = Outcome.ok (v / 2 ^ n
          + (if v < wordMod x64 / 2 then 0 else wordMod x64 - 2 ^ (wordBits x64 - n))) s
    ∧ ((v / 2 ^ n
          + (if v < wordMod x64 / 2 then 0 else wordMod x64 - 2 ^ (wordBits x64 - n)) : Nat) : Int)
      = ⌊(((if v < wordMod x64 / 2 then (v : Int) else (v : Int) - (wordMod x64 : Int)) : Int) : ℚ)
          / 2 ^ n⌋ % (wordMod x64 : Int)
    ∧ ApplyOperator x64 u s v n LogicalRightShift = Outcome.ok (v / 2 ^ n) s
    ∧ ApplyOperator x64 u s v n ArithmeticLeftShift = Outcome.ok (v * 2 ^ n % wordMod x64) s
    ∧ ApplyOperator x64 u s v n LogicalLeftShift = Outcome.ok (v * 2 ^ n % wordMod x64) s
    ∧ (∀ k : Nat, eval_expr (plainEnv x64) (k + 20) s (cstr "8 >> 1") 0
        = Outcome.ok (some [0], 4) s) := by
  have hw : wrap x64 v = v := Nat.mod_eq_of_lt hv
  have hn' : n % wordBits x64 = n := Nat.mod_eq_of_lt hn
  have hsar := sarW_eq x64 v n hv hn
  have hfl := sarW_floor x64 v n hv
  rw [hn', hsar] at hfl
  refine ⟨?_, hfl, ?_, ?_, ?_, ?_⟩
  · rw [← hsar]; rfl
  · show Outcome.ok (shrW x64 v n) s = _
    unfold shrW
    rw [hw, hn']
  · show Outcome.ok (shlW x64 v n) s = _
    unfold shlW wrap
    rw [Nat.mod_eq_of_lt hv, hn']
  · show Outcome.ok (shlW x64 v n) s = _
    unfold shlW wrap
    rw [Nat.mod_eq_of_lt hv, hn']
  · intro k
    cases x64 <;> rfl

theorem C31_shifts_witness :
    ApplyOperator false 0 State.init 0xFFFFFFF0 2 ArithmeticRightShift
      = Outcome.ok 0xFFFFFFFC State.init
    ∧ ApplyOperator false 0 State.init 0xFFFFFFF0 2 LogicalRightShift
      = Outcome.ok 0x3FFFFFFC State.init
    ∧ ApplyOperator false 0 State.init 0xFFFFFFF0 2 ArithmeticLeftShift
      = Outcome.ok 0xFFFFFFC0 State.init
    ∧ ApplyOperator false 0 State.init 0xFFFFFFF0 2 LogicalLeftShift
      = Outcome.ok 0xFFFFFFC0 State.init :=
  have h := C31_shifts false 0 State.init 0xFFFFFFF0 2 (by decide) (by decide)
  ⟨h.1, h.2.2.1, h.2.2.2.1, h.2.2.2.2.1⟩

theorem wordBits_lt_wordMod (x64 : Bool) : wordBits x64 < wordMod x64 := by
  cases x64 <;> decide

theorem counter_count (x64 : Bool) (n : Nat) (h0 : 0 < n) (hn : n < wordBits x64) :
    wrap x64 (wordBits x64 + (wordMod x64 - wrap x64 n)) % wordBits x64 = wordBits x64 - n := by
  have hW := wordBits_lt_wordMod x64
  have h1 : wrap x64 n = n := Nat.mod_eq_of_lt (by omega)
  have h2 : wordBits x64 + (wordMod x64 - n) = (wordBits x64 - n) + wordMod x64 := by omega
  have h3 : wrap x64 (wordBits x64 - n + wordMod x64) = wordBits x64 - n := by
    unfold wrap
    rw [Nat.add_mod_right]
    exact Nat.mod_eq_of_lt (by omega)
  rw [h1, h2, h3]
  exact Nat.mod_eq_of_lt (by omega)

/-- The rotation to the left in numbers: the low `W - n` bits move up by
`n`, the high `n` bits move to the bottom. -/
theorem rolW_eq (x64 : Bool) (v n : Nat) (hv : v < wordMod x64) (h0 : 0 < n)
    (hn : n < wordBits x64) :
    rolW x64 v n = v % 2 ^ (wordBits x64 - n) * 2 ^ n + v / 2 ^ (wordBits x64 - n) := by
  obtain ⟨hM, _, _⟩ := wordMod_split x64 n hn
  have hp : 0 < 2 ^ n := Nat.pow_pos (by decide)
  have hq : 0 < 2 ^ (wordBits x64 - n) := Nat.pow_pos (by decide)
  have hw : wrap x64 v = v := Nat.mod_eq_of_lt hv
  have hn' : n % wordBits x64 = n := Nat.mod_eq_of_lt hn
  have hh : v / 2 ^ (wordBits x64 - n) < 2 ^ n := by
    rw [Nat.div_lt_iff_lt_mul hq, Nat.mul_comm, ← hM]
    exact hv
  have hl : v % 2 ^ (wordBits x64 - n) < 2 ^ (wordBits x64 - n) := Nat.mod_lt _ hq
  have hmul : v * 2 ^ n % wordMod x64 = v % 2 ^ (wordBits x64 - n) * 2 ^ n := by
    rw [hM, Nat.mul_mod_mul_right]
  unfold rolW shlW shrW
  rw [counter_count x64 n h0 hn, hw, hn']
  show wrap x64 (v * 2 ^ n) ||| _ = _
  unfold wrap
  rw [hmul, Nat.mul_comm (v % 2 ^ (wordBits x64 - n)) (2 ^ n)]
  exact (Nat.mul_add_lt_is_or hh _).symm

/-- The rotation to the right in numbers. -/
theorem rorW_eq (x64 : Bool) (v n : Nat) (hv : v < wordMod x64) (h0 : 0 < n)
    (hn : n < wordBits x64) :
    rorW x64 v n = v % 2 ^ n * 2 ^ (wordBits x64 - n) + v / 2 ^ n := by
  obtain ⟨hM, _, _⟩ := wordMod_split x64 n hn
  have hp : 0 < 2 ^ n := Nat.pow_pos (by decide)
  have hq : 0 < 2 ^ (wordBits x64 - n) := Nat.pow_pos (by decide)
  have hw : wrap x64 v = v := Nat.mod_eq_of_lt hv
  have hn' : n % wordBits x64 = n := Nat.mod_eq_of_lt hn
  have hh : v / 2 ^ n < 2 ^ (wordBits x64 - n) := by
    rw [Nat.div_lt_iff_lt_mul hp, ← hM]
    exact hv
  have hmul : v * 2 ^ (wordBits x64 - n) % wordMod x64 = v % 2 ^ n * 2 ^ (wordBits x64 - n) := by
    rw [hM, Nat.mul_comm (2 ^ (wordBits x64 - n)) (2 ^ n), Nat.mul_mod_mul_right]
  unfold rorW shlW shrW
  rw [counter_count x64 n h0 hn, hw, hn']
  show _ ||| wrap x64 (v * 2 ^ (wordBits x64 - n)) = _
  unfold wrap
  rw [hmul, Nat.mul_comm (v % 2 ^ n) (2 ^ (wordBits x64 - n)), Nat.lor_comm]
  exact (Nat.mul_add_lt_is_or hh _).symm

theorem rolW_lt (x64 : Bool) (v n : Nat) (hv : v < wordMod x64) (h0 : 0 < n)
    (hn : n < wordBits x64) : rolW x64 v n < wordMod x64 := by
  obtain ⟨hM, _, _⟩ := wordMod_split x64 n hn
  have hq : 0 < 2 ^ (wordBits x64 - n) := Nat.pow_pos (by decide)
  have hh : v / 2 ^ (wordBits x64 - n) < 2 ^ n := by
    rw [Nat.div_lt_iff_lt_mul hq, Nat.mul_comm, ← hM]
    exact hv
  have hl : v % 2 ^ (wordBits x64 - n) < 2 ^ (wordBits x64 - n) := Nat.mod_lt _ hq
  rw [rolW_eq x64 v n hv h0 hn, hM]
  calc v % 2 ^ (wordBits x64 - n) * 2 ^ n + v / 2 ^ (wordBits x64 - n)
      < v % 2 ^ (wordBits x64 - n) * 2 ^ n + 2 ^ n := by omega
    _ = (v % 2 ^ (wordBits x64 - n) + 1) * 2 ^ n := by ring
    _ ≤ 2 ^ (wordBits x64 - n) * 2 ^ n := Nat.mul_le_mul_right _ hl

theorem rorW_rolW (x64 : Bool) (v n : Nat) (hv : v < wordMod x64) (h0 : 0 < n)
    (hn : n < wordBits x64) : rorW x64 (rolW x64 v n) n = v := by
  have hp : 0 < 2 ^ n := Nat.pow_pos (by decide)
  have hq : 0 < 2 ^ (wordBits x64 - n) := Nat.pow_pos (by decide)
  obtain ⟨hM, _, _⟩ := wordMod_split x64 n hn
  have hh : v / 2 ^ (wordBits x64 - n) < 2 ^ n := by
    rw [Nat.div_lt_iff_lt_mul hq, Nat.mul_comm, ← hM]
    exact hv
  rw [rorW_eq x64 _ n (rolW_lt x64 v n hv h0 hn) h0 hn, rolW_eq x64 v n hv h0 hn]
  rw [Nat.mul_comm (v % 2 ^ (wordBits x64 - n)) (2 ^ n), Nat.mul_add_mod, Nat.mod_eq_of_lt hh,
    Nat.mul_add_div hp, Nat.div_eq_of_lt hh, Nat.add_zero, Nat.mul_comm]
  exact Nat.div_add_mod v _

theorem rolW_eq_rorW (x64 : Bool) (v n : Nat) (hv : v < wordMod x64) (h0 : 0 < n)
    (hn : n < wordBits x64) : rolW x64 v n = rorW x64 v (wordBits x64 - n) := by
  rw [rolW_eq x64 v n hv h0 hn, rorW_eq x64 v (wordBits x64 - n) hv (by omega) (by omega)]
  have : wordBits x64 - (wordBits x64 - n) = n := by omega
  rw [this]

theorem ApplyOperator_CircularLeftShift (x64 : Bool) (u : Nat) (s : State) (v a : Nat) :
    ApplyOperator x64 u s v a CircularLeftShift = Outcome.ok (rolW x64 v a) s := rfl

theorem ApplyOperator_CircularRightShift (x64 : Bool) (u : Nat) (s : State) (v a : Nat) :
    ApplyOperator x64 u s v a CircularRightShift = Outcome.ok (rorW x64 v a) s := rfl

theorem rolW_rorW (x64 : Bool) (v n : Nat) (hv : v < wordMod x64) (h0 : 0 < n)
    (hn : n < wordBits x64) : rolW x64 (rorW x64 v n) n = v := by
  have hc : wordBits x64 - (wordBits x64 - n) = n := by omega
  have h1 : rorW x64 v n = rolW x64 v (wordBits x64 - n) := by
    rw [rolW_eq_rorW x64 v (wordBits x64 - n) hv (by omega) (by omega), hc]
  have hlt := rolW_lt x64 v (wordBits x64 - n) hv (by omega) (by omega)
  rw [h1, rolW_eq_rorW x64 _ n hlt h0 hn]
  exact rorW_rolW x64 v (wordBits x64 - n) hv (by omega) (by omega)

/-- C38: for a machine word `v` and a count `n` with `0 < n < W`, the
circular shifts of `ApplyOperator` are the rotations of a word of `W` bits
(`r<<` moves the low `W - n` bits up by `n` and the high `n` bits to the
bottom, `r>>` does the opposite), each undoes the other, and `r<<` by `n`
is `r>>` by `W - n`. -/
theorem C38_rotations_inverse (x64 : Bool) (u : Nat) (s : State) (v n : Nat) (hv : v < wordMod x64)
    (h0 : 0 < n) (hn : n < wordBits x64) :
    ApplyOperator x64 u s v n CircularLeftShift
      = Outcome.ok (v % 2 ^ (wordBits x64 - n) * 2 ^ n + v / 2 ^ (wordBits x64 - n)) s
    ∧ ApplyOperator x64 u s v n CircularRightShift
      = Outcome.ok (v % 2 ^ n * 2 ^ (wordBits x64 - n) + v / 2 ^ n) s
    ∧ ApplyOperator x64 u s (v % 2 ^ (wordBits x64 - n) * 2 ^ n + v / 2 ^ (wordBits x64 - n)) n
        CircularRightShift = Outcome.ok v s
    ∧ ApplyOperator x64 u s (v % 2 ^ n * 2 ^ (wordBits x64 - n) + v / 2 ^ n) n
        CircularLeftShift = Outcome.ok v s
    ∧ ApplyOperator x64 u s v (wordBits x64 - n) CircularRightShift
      = ApplyOperator x64 u s v n CircularLeftShift := by
  have hl := rolW_eq x64 v n hv h0 hn
  have hr := rorW_eq x64 v n hv h0 hn
  refine ⟨?_, ?_, ?_, ?_, ?_⟩
  · rw [ApplyOperator_CircularLeftShift, hl]
  · rw [ApplyOperator_CircularRightShift, hr]
  · rw [ApplyOperator_CircularRightShift, ← hl, rorW_rolW x64 v n hv h0 hn]
  · rw [ApplyOperator_CircularLeftShift, ← hr, rolW_rorW x64 v n hv h0 hn]
  · rw [ApplyOperator_CircularRightShift, ApplyOperator_CircularLeftShift,
      rolW_eq_rorW x64 v n hv h0 hn]

theorem C38_rotations_inverse_witness :
    ApplyOperator false 0 State.init 0x80000001 4 CircularLeftShift
      = Outcome.ok 0x00000018 State.init
    ∧ ApplyOperator false 0 State.init 0x80000001 4 CircularRightShift
      = Outcome.ok 0x18000000 State.init
    ∧ ApplyOperator false 0 State.init 0x00000018 4 CircularRightShift
      = Outcome.ok 0x80000001 State.init
    ∧ ApplyOperator false 0 State.init 0x18000000 4 CircularLeftShift
      = Outcome.ok 0x80000001 State.init
    ∧ ApplyOperator false 0 State.init 0x80000001 28 CircularRightShift
      = ApplyOperator false 0 State.init 0x80000001 4 CircularLeftShift :=
  C38_rotations_inverse false 0 State.init 0x80000001 4 (by decide) (by decide) (by decide)

theorem warnsAtMost_ite {α : Type} (c : Prop) [Decidable c] (a b : Outcome α) (s : State)
    (ha : a.warnsAtMost s) (hb : b.warnsAtMost s) : (if c then a else b).warnsAtMost s := by
  split <;> assumption

theorem ApplyOperator_warnsAtMost (x64 : Bool) (u : Nat) (s : State) (v a op : Nat) :
    (ApplyOperator x64 u s v a op).warnsAtMost s := by
  unfold ApplyOperator
  repeat' (first | exact Or.inl rfl | exact Or.inr rfl | apply warnsAtMost_ite)

theorem messages_AssignmentWarningMessage (s : State) :
    (AssignmentWarningMessage s).warnedAssignment = true
    ∧ assignmentWarnings (AssignmentWarningMessage s)
      = assignmentWarnings s + (if s.warnedAssignment then 0 else 1) := by
  unfold AssignmentWarningMessage assignmentWarnings
  cases h : s.warnedAssignment
  · simp [State.messages, State.emit, List.filterMap_append]
  · simp [h]

theorem applyAll_warnings (x64 : Bool) (calls : List (Nat × Nat × Nat)) :
    ∀ s : State, assignmentWarnings (applyAll x64 u s calls)
      ≤ assignmentWarnings s + (if s.warnedAssignment then 0 else 1) := by
  induction calls with
  | nil => intro s; simp [applyAll]
  | cons c cs ih =>
    intro s
    rcases ApplyOperator_warnsAtMost x64 u s c.1 c.2.1 c.2.2 with h | h
    · simp only [applyAll, h]
      exact ih s
    · simp only [applyAll, h]
      obtain ⟨h1, h2⟩ := messages_AssignmentWarningMessage s
      have := ih (AssignmentWarningMessage s)
      rw [h1, h2] at this
      simpa using this

theorem val_ite {α : Type} (c : Prop) [Decidable c] (a b a1 b1 : Outcome α)
    (ha : a.val? = a1.val?) (hb : b.val? = b1.val?) :
    (if c then a else b).val? = (if c then a1 else b1).val? := by
  split <;> assumption

/-- The value of `ApplyOperator` does not depend on the state. -/
theorem ApplyOperator_val_state (x64 : Bool) (u : Nat) (s s1 : State) (v a op : Nat) :
    (ApplyOperator x64 u s v a op).val? = (ApplyOperator x64 u s1 v a op).val? := by
  unfold ApplyOperator
  repeat' (first | rfl | apply val_ite)

theorem compound_is_base (x64 : Bool) (u : Nat) (s : State) (v a : Nat) :
    ∀ p ∈ compoundAssignments,
      ApplyOperator x64 u s v a p.1 = ApplyOperator x64 u (AssignmentWarningMessage s) v a p.2 := by
  intro p hp
  simp only [compoundAssignments, List.mem_cons, List.mem_singleton, List.not_mem_nil,
    or_false] at hp
  rcases hp with h | h | h | h | h | h | h | h | h | h | h | h | h | h | h | h | h <;>
    subst h <;> rfl

/-- C32: `ApplyOperator` returns its right operand for `,`, `;` and plain
`=`; each of the 17 compound assignment opcodes is its base opcode applied
after `AssignmentWarningMessage`, so it returns the value of the base
opcode (and divides by zero when the base opcode does); and over any
sequence of calls of `ApplyOperator` the warning about assignments is
logged at most once: not at all when it was displayed before, and at most
once in a fresh process. -/
theorem C32_assignment_forms (x64 : Bool) (u : Nat) (s : State) (v a : Nat) (p : Nat × Nat)
    (hp : p ∈ compoundAssignments) (calls : List (Nat × Nat × Nat)) :
    ApplyOperator x64 u s v a Comma = Outcome.ok a s
    ∧ ApplyOperator x64 u s v a Gomma = Outcome.ok a s
    ∧ ApplyOperator x64 u s v a Assign = Outcome.ok a (AssignmentWarningMessage s)
    ∧ compoundAssignments.length = 17
    ∧ ApplyOperator x64 u s v a p.1 = ApplyOperator x64 u (AssignmentWarningMessage s) v a p.2
    ∧ (ApplyOperator x64 u s v a p.1).val? = (ApplyOperator x64 u s v a p.2).val?
    ∧ assignmentWarnings (applyAll x64 u s calls)
        ≤ assignmentWarnings s + (if s.warnedAssignment then 0 else 1)
    ∧ assignmentWarnings (applyAll x64 u State.init calls) ≤ 1 := by
  have h := compound_is_base x64 u s v a p hp
  refine ⟨rfl, rfl, rfl, rfl, h, ?_, applyAll_warnings x64 calls s, ?_⟩
  · rw [h]
    exact ApplyOperator_val_state x64 u _ _ v a p.2
  · exact applyAll_warnings x64 calls State.init

theorem C32_assignment_forms_witness :
    ApplyOperator false 0 State.init 6 3 DivideAssign
      = ApplyOperator false 0 (AssignmentWarningMessage State.init) 6 3 Divide
    ∧ (ApplyOperator false 0 State.init 6 3 DivideAssign).val? = some 2
    ∧ assignmentWarnings
        (applyAll false 0 State.init [(6, 3, DivideAssign), (1, 2, Assign), (5, 0, ModuloAssign)])
      ≤ 1 :=
  have h := C32_assignment_forms false 0 State.init 6 3 (DivideAssign, Divide) (by decide)
    [(6, 3, DivideAssign), (1, 2, Assign), (5, 0, ModuloAssign)]
  ⟨h.2.2.2.2.1, h.2.2.2.2.2.1, h.2.2.2.2.2.2.2⟩

/-- C40: the evaluator does not guard the division.  On "1 / 0" and on
"1 % 0" (end character NUL, no register bank) the frame opened for the
operator calls `ApplyOperator` with the operands 1 and 0, and the division
by zero of the processor ends the evaluation.  When `arg` is not 0,
`Divide` and `Modulo` return the quotient `q` and the remainder `r` of the
unsigned division: `v = q * arg + r` and `r < arg`. -/
theorem C40_division_unguarded (x64 : Bool) (u : Nat) (k : Nat) (s : State) (v a : Nat) (ha : a ≠ 0) :
    eval_expr (plainEnv x64) (k + 20) s (cstr "1 / 0") 0 = Outcome.trap s
    ∧ eval_expr (plainEnv x64) (k + 20) s (cstr "1 % 0") 0 = Outcome.trap s
    ∧ eval_expr_impl (plainEnv x64) (k + 10) s (cstr " 0") 0 Divide 1
      = finish (ApplyOperator x64 u s 1 0 Divide) [0]
    ∧ eval_expr_impl (plainEnv x64) (k + 10) s (cstr " 0") 0 Modulo 1
      = finish (ApplyOperator x64 u s 1 0 Modulo) [0]
    ∧ ApplyOperator x64 u s 1 0 Divide = Outcome.trap s
    ∧ ApplyOperator x64 u s 1 0 Modulo = Outcome.trap s
    ∧ ApplyOperator x64 u s v a Divide = Outcome.ok (v / a) s
    ∧ ApplyOperator x64 u s v a Modulo = Outcome.ok (v % a) s
    ∧ v = v / a * a + v % a
    ∧ v % a < a := by
  refine ⟨?_, ?_, ?_, ?_, rfl, rfl, ?_, ?_, (Nat.div_add_mod' v a).symm,
    Nat.mod_lt v (Nat.pos_of_ne_zero ha)⟩
  · cases x64 <;> rfl
  · cases x64 <;> rfl
  · cases x64 <;> rfl
  · cases x64 <;> rfl
  · show (if a = 0 then Outcome.trap s else Outcome.ok (v / a) s) = _
    rw [if_neg ha]
  · show (if a = 0 then Outcome.trap s else Outcome.ok (v % a) s) = _
    rw [if_neg ha]

theorem C40_division_unguarded_witness :
    eval_expr (plainEnv false) 20 State.init (cstr "1 / 0") 0 = Outcome.trap State.init
    ∧ ApplyOperator false 0 State.init 7 2 Divide = Outcome.ok 3 State.init
    ∧ ApplyOperator false 0 State.init 7 2 Modulo = Outcome.ok 1 State.init :=
  have h := C40_division_unguarded false 0 0 State.init 7 2 (by decide)
  ⟨h.1, h.2.2.2.2.2.2.1, h.2.2.2.2.2.2.2.1⟩

theorem find_next_op_angle_mask (p : List Nat) (c : Nat) (h0 : peek p 0 = c)
    (hc : c = ch '<' ∨ c = ch '>') :
    find_next_op_angle p c
      = ((angleByMask c (peek p 1 &&& 0xFD) (peek p 2 &&& 0xFD) (peek p 3 &&& 0xFF)).1,
         p.drop (angleByMask c (peek p 1 &&& 0xFD) (peek p 2 &&& 0xFD) (peek p 3 &&& 0xFF)).2) := by
  have hm : c &&& 0xFD = 60 := by
    rcases hc with h | h <;> subst h <;> decide
  have e1 : (60 : Nat) &&& 255 = 60 := by decide
  have e2 : (61 : Nat) &&& 255 = 61 := by decide
  have e3 : ∀ x : Nat, x &&& 253 &&& 255 = x &&& 253 := by
    intro x
    rw [Nat.land_assoc]
    rfl
  unfold find_next_op_angle angleByMask
  simp only [read32, read16, and32, TextInt, h0, hm, ch, Prod.mk.injEq]
  generalize peek p 1 = a
  generalize peek p 2 = b
  generalize peek p 3 = d
  by_cases ha : a = 0
  · subst ha
    simp
  · by_cases hb : b = 0
    · subst hb
      simp [ha, e1, e2, e3]
      split_ifs <;> simp_all
    · simp [ha, hb, e1, e2, e3]
      split_ifs <;> simp_all

theorem find_next_op_impl_angle (p : List Nat) (end_ : Nat)
    (hc : peek p 0 = ch '<' ∨ peek p 0 = ch '>') :
    find_next_op_impl p end_
      = if peek p 0 = ch '>' ∧ end_ = ch '>' then (EndGroupOp, p)
        else find_next_op_angle p (peek p 0) := by
  cases p with
  | nil => rcases hc with h | h <;> simp [peek, ch] at h
  | cons x t =>
    have hx : peek (x :: t) 0 = x := rfl
    rw [hx] at hc ⊢
    rcases hc with h | h <;> subst h <;> simp [find_next_op_impl, find_next_op_loop, ch]

/-- C39: in `find_next_op_impl`, for an operator that starts with `<` or
`>`, the opcode and the number of characters consumed depend on the second
and the third character only through their values with bit 1 cleared
(`c & 0xFD`): two texts of the same length with the same first and fourth
character, whose second and third characters agree after the masking, give
the same opcode and leave cursors at the same distance from the end.  So
`<` and `>`, and `=` and `?`, are interchangeable there: `>=<`, `<=<` and
`<?>` are `ThreeWay` like `<=>`, and `<>` is `ArithmeticLeftShift` like
`<<`. -/
theorem C39_angle_masks (p q : List Nat) (end_ : Nat)
    (hc : peek p 0 = ch '<' ∨ peek p 0 = ch '>')
    (h0 : peek q 0 = peek p 0) (hlen : q.length = p.length)
    (h1 : peek q 1 &&& 0xFD = peek p 1 &&& 0xFD)
    (h2 : peek q 2 &&& 0xFD = peek p 2 &&& 0xFD)
    (h3 : peek q 3 = peek p 3) :
    (find_next_op_impl q end_).1 = (find_next_op_impl p end_).1
    ∧ (find_next_op_impl q end_).2.length = (find_next_op_impl p end_).2.length
    ∧ ch '>' &&& 0xFD = ch '<' ∧ ch '?' &&& 0xFD = ch '='
    ∧ find_next_op_impl (cstr "<=>") end_ = (ThreeWay, [0])
    ∧ find_next_op_impl (cstr "<=<") end_ = (ThreeWay, [0])
    ∧ find_next_op_impl (cstr "<?>") end_ = (ThreeWay, [0])
    ∧ find_next_op_impl (cstr ">=<") 0 = (ThreeWay, [0])
    ∧ find_next_op_impl (cstr "<<") end_ = (ArithmeticLeftShift, [0])
    ∧ find_next_op_impl (cstr "<>") end_ = (ArithmeticLeftShift, [0]) := by
  have hq : peek q 0 = ch '<' ∨ peek q 0 = ch '>' := by rw [h0]; exact hc
  refine ⟨?_, ?_, by decide, by decide, ?_, ?_, ?_, by decide, ?_, ?_⟩
  · rw [find_next_op_impl_angle p end_ hc, find_next_op_impl_angle q end_ hq, h0]
    split_ifs
    · rfl
    · rw [find_next_op_angle_mask p _ rfl hc, find_next_op_angle_mask q _ h0 hc, h1, h2, h3]
  · rw [find_next_op_impl_angle p end_ hc, find_next_op_impl_angle q end_ hq, h0]
    split_ifs
    · exact hlen
    · rw [find_next_op_angle_mask p _ rfl hc, find_next_op_angle_mask q _ h0 hc, h1, h2, h3]
      simp only [List.length_drop, hlen]
  all_goals
    rw [find_next_op_impl_angle _ end_ (by decide)]
    rw [if_neg (fun h => absurd h.1 (by decide))]
    decide

theorem C39_angle_masks_witness :
    (find_next_op_impl (cstr ">><=") 0).1 = (find_next_op_impl (cstr "><>=") 0).1
    ∧ (find_next_op_impl (cstr ">><=") 0).2.length
      = (find_next_op_impl (cstr "><>=") 0).2.length :=
  have h := C39_angle_masks (cstr "><>=") (cstr ">><=") 0 (by decide) (by decide) (by decide)
    (by decide) (by decide) (by decide)
  ⟨h.1, h.2.1⟩

theorem ApplyOperator_BadBrackets (x64 : Bool) (u : Nat) (s : State) (v a : Nat) :
    ApplyOperator x64 u s v a BadBrackets = Outcome.ok a s := rfl

/-- With a register bank, the operand `[0]` is a dereference of the address
0: it yields 0 with the cursor back on the `[`, or the budget is too
small. -/
theorem consume_null_bracket (x64 : Bool) (n : Nat) (s : State) :
    consume_value_impl (regsEnv x64) n s (cstr "[0]") = Outcome.fuel
    ∨ consume_value_impl (regsEnv x64) n s (cstr "[0]")
      = Outcome.ok (0, cstr "[0]") (s.emit Msg.NullDerefWarning) := by
  by_cases hn : n < 6
  · left
    interval_cases n <;> cases x64 <;> rfl
  · right
    obtain ⟨k, rfl⟩ : ∃ k, n = k + 6 := ⟨n - 6, by omega⟩
    cases x64 <;> rfl

/-- A frame of the evaluator whose operator is `BadBrackets` and whose
cursor is on "[0]" reads the operand, is sent back to the `[`, finds
`BadBrackets` again, and starts over: it does not end. -/
theorem bad_brackets_stuck (x64 : Bool) :
    ∀ (n : Nat) (s : State) (v cv : Nat),
      eval_expr_loop (regsEnv x64) n s (cstr "[0]") 0 v BadBrackets cv = Outcome.fuel := by
  intro n
  induction n with
  | zero => intro s v cv; rw [eval_expr_loop]
  | succ n ih =>
    intro s v cv
    rcases consume_null_bracket x64 n s with h | h
    · exact loop_of_operand_fuel (regsEnv x64) n s _ 0 v BadBrackets cv (by decide) h
    · rw [loop_of_operand (regsEnv x64) n s _ _ _ 0 v BadBrackets cv 0 (by decide) h,
        afterOperand_same_left (regsEnv x64) n _ (cstr "[0]") (cstr "[0]") 0 v BadBrackets 0
          BadBrackets (by decide) rfl (by decide),
        applyThen_more (regsEnv x64) n v BadBrackets _ (cstr "[0]") 0 0 BadBrackets (by decide)]
      show (match ApplyOperator x64 (regsEnv x64).uninitialised _ v 0 BadBrackets with
        | Outcome.ok value s => eval_expr_loop (regsEnv x64) n s (cstr "[0]") 0 value BadBrackets 0
        | Outcome.null s => Outcome.null s
        | Outcome.trap s => Outcome.trap s
        | Outcome.fuel => Outcome.fuel) = _
      rw [ApplyOperator_BadBrackets]
      exact ih _ 0 0

/-- The evaluation of "[0]" with a register bank does not end, whatever the
budget. -/
theorem null_bracket_never_returns (x64 : Bool) (s : State) :
    ∀ n, eval_expr (regsEnv x64) n s (cstr "[0]") 0 = Outcome.fuel := by
  have himpl : ∀ (m : Nat) (s1 : State),
      eval_expr_impl (regsEnv x64) m s1 (cstr "[0]") 0 BadBrackets 0 = Outcome.fuel := by
    intro m s1
    cases m with
    | zero => rw [eval_expr_impl]
    | succ m => rw [impl_unfold]; exact bad_brackets_stuck x64 m s1 0 0
  have hloop : ∀ m, eval_expr_loop (regsEnv x64) m s (cstr "[0]") 0 0 StartNoOp 0
      = Outcome.fuel := by
    intro m
    cases m with
    | zero => rw [eval_expr_loop]
    | succ m =>
      rcases consume_null_bracket x64 m s with h | h
      · exact loop_of_operand_fuel (regsEnv x64) m s _ 0 0 StartNoOp 0 (by decide) h
      · rw [loop_of_operand (regsEnv x64) m s _ _ _ 0 0 StartNoOp 0 0 (by decide) h,
          afterOperand_lower (regsEnv x64) m _ (cstr "[0]") (cstr "[0]") 0 0 StartNoOp 0
            BadBrackets (by decide) (by decide) (by decide),
          himpl]
        rfl
  intro n
  unfold eval_expr
  cases n with
  | zero => rw [eval_expr_impl]
  | succ n => rw [impl_unfold, hloop]

/-- The evaluation of "1 + 2 " (a blank after the last operand), without a
register bank, does not end, whatever the budget: the frame of `+` returns
with the cursor on the blank, and the outer frame then turns for ever with
`NullOp` on that blank. -/
theorem trailing_blank_never_returns (x64 : Bool) (s : State) :
    ∀ n, eval_expr (plainEnv x64) n s (cstr "1 + 2 ") 0 = Outcome.fuel := by
  intro n
  by_cases hn : n < 8
  · interval_cases n <;> cases x64 <;> rfl
  · obtain ⟨k, rfl⟩ : ∃ k, n = k + 8 := ⟨n - 8, by omega⟩
    have hcons : consume_value_impl (plainEnv x64) (k + 6) s (cstr "1 + 2 ")
        = Outcome.ok (1, cstr " + 2 ") s := by cases x64 <;> rfl
    have hin : eval_expr_impl (plainEnv x64) (k + 6) s (cstr " 2 ") 0 Add 1
        = Outcome.ok (3, cstr " ") s := by cases x64 <;> rfl
    have hst := loop_stuck (plainEnv x64) s (cstr " ") 0 (by decide) (by decide) (k + 6) 3 3
    unfold eval_expr
    rw [impl_unfold, loop_of_operand (plainEnv x64) (k + 6) s s _ _ 0 0 StartNoOp 0 1
        (by decide) hcons,
      afterOperand_lower (plainEnv x64) (k + 6) s (cstr " + 2 ") (cstr " 2 ") 0 0 StartNoOp 1 Add
        (by decide) (by decide) (by decide),
      hin, afterLower_ok_more (plainEnv x64) (k + 6) 0 StartNoOp 0 Add 3 s (cstr " ") (by decide)
        (by decide),
      applyThen_more (plainEnv x64) (k + 6) 0 StartNoOp s (cstr " ") 0 3 NullOp (by decide),
      ApplyOperator_StartNoOp]
    simp only []
    rw [hst]

/-- C37, at the failing input "[0]" with a register bank: the evaluation
does not terminate.  The dereference of the address 0 hands back the
cursor on the `[` (the label `NullDerefWarning` returns `expr`), the
tokenizer answers `BadBrackets` without moving, and the frame opened for
`BadBrackets` reads the same operand again, for ever, logging the warning
at each turn: for every budget the embedding runs out of it.  The same
happens without a register bank on "1 + 2 " (a blank after the last
operand).  The input "1(2)", with a bracket at operator position, does
terminate, with the value 2. -/
theorem C37_evaluation_may_not_terminate (x64 : Bool) (s : State) :
    (∀ n, eval_expr (regsEnv x64) n s (cstr "[0]") 0 = Outcome.fuel)
    ∧ (∀ n, eval_expr (plainEnv x64) n s (cstr "1 + 2 ") 0 = Outcome.fuel)
    ∧ (∀ k, eval_expr (plainEnv x64) (k + 20) s (cstr "1(2)") 0 = Outcome.ok (some [0], 2) s)
    ∧ (∀ k, eval_expr (plainEnv x64) (k + 20) s (cstr "1 + 2") 0
        = Outcome.ok (some [0], 3) s) := by
  refine ⟨null_bracket_never_returns x64 s, trailing_blank_never_returns x64 s, ?_, ?_⟩
  · intro k; cases x64 <;> rfl
  · intro k; cases x64 <;> rfl

theorem messages_PostIncDecWarningMessage (s : State) :
    (PostIncDecWarningMessage s).messages
      = if s.warnedPostIncDec then s.messages else s.messages ++ [Msg.PostIncDecWarning] := by
  unfold PostIncDecWarningMessage
  cases h : s.warnedPostIncDec
  · simp [State.messages, State.emit, List.filterMap_append]
  · simp

theorem PostfixCheck_consumes (s : State) (out c : Nat) (R : List Nat)
    (hc : c = ch '+' ∨ c = ch '-') :
    PostfixCheck s out (c :: c :: R) = Outcome.ok (out, R) (PostIncDecWarningMessage s) := by
  rcases hc with h | h <;> subst h <;> simp [PostfixCheck, peek, ch]

/-- A literal followed by a postfix `++` or `--`. -/
theorem consume_literal_then_incdec (env : Env) (fuel : Nat) (s : State) (t R : List Nat) (v c : Nat)
    (hc : c = ch '+' ∨ c = ch '-') (h : LiteralAt env t v (c :: c :: R)) :
    consume_value_impl env (fuel + 2) s (t ++ c :: c :: R)
      = Outcome.ok (v, R) (PostIncDecWarningMessage s) := by
  obtain ⟨⟨h0, h9⟩, hparse⟩ := h
  have hne := append_ne_self_of_digit t (c :: c :: R) h0
  have hpk := peek_append_of_digit t (c :: c :: R) h0
  have hraw : RawValue env s (t ++ c :: c :: R)
      = Outcome.ok (v, R) (PostIncDecWarningMessage s) := by
    simp only [RawValue, hparse, hne, false_or, Bool.false_eq_true, if_false]
    exact PostfixCheck_consumes s v c R hc
  simp only [consume_value_impl, consume_value_loop, hpk]
  generalize peek t 0 = d at h0 h9
  simp only [ch] at h0 h9 ⊢
  have h0' : 48 ≤ d := h0
  have h9' : d ≤ 57 := h9
  interval_cases d <;> simp [hraw]

/-- The label `PostfixCheck` consumes a `++` or `--` that stands at the
cursor, keeps the value, and calls `PostIncDecWarningMessage`, the
warn-once diagnostic of the postfix forms.  So for a literal and for a
parenthesised sub-expression starting with a digit, a postfix `++` or `--`
immediately after the operand is consumed, the cursor ends 2 past the
operand, and the value is that of the operand alone; the same on "1++",
"1--", "(5)--" and "-5++", and with a register bank on "eax++" and
"[8]--".  A `+-`, or a `++` after a blank, is not consumed. -/
theorem postfix_consumed_after_operand (env : Env) (fuel : Nat) (s s1 : State) (t X R R0 : List Nat)
    (v w out c : Nat) (hc : c = ch '+' ∨ c = ch '-')
    (hl : LiteralAt env t v (c :: c :: R)) (hl0 : LiteralAt env t v R0)
    (hp : ¬ ((peek R0 0 = ch '+' ∨ peek R0 0 = ch '-') ∧ peek R0 0 = peek R0 1))
    (h0 : ch '0' ≤ peek X 0) (h9 : peek X 0 ≤ ch '9')
    (hX : eval_expr_impl env fuel s X (ch ')') StartNoOp 0
      = Outcome.ok (w, ch ')' :: c :: c :: R) s1) :
    PostfixCheck s out (c :: c :: R) = Outcome.ok (out, R) (PostIncDecWarningMessage s)
    ∧ (PostIncDecWarningMessage s).messages
      = (if s.warnedPostIncDec then s.messages else s.messages ++ [Msg.PostIncDecWarning])
    ∧ consume_value_impl env (fuel + 2) s (t ++ c :: c :: R)
      = Outcome.ok (v, R) (PostIncDecWarningMessage s)
    ∧ consume_value_impl env (fuel + 2) s (t ++ R0) = Outcome.ok (v, R0) s
    ∧ consume_value_impl env (fuel + 2) s (ch '(' :: X)
      = Outcome.ok (w, R) (PostIncDecWarningMessage s1)
    ∧ (∀ (x64 : Bool) (k : Nat) (s : State),
        consume_value_impl (plainEnv x64) (k + 9) s (cstr "1++")
          = Outcome.ok (1, [0]) (PostIncDecWarningMessage s)
        ∧ consume_value_impl (plainEnv x64) (k + 9) s (cstr "1--")
          = Outcome.ok (1, [0]) (PostIncDecWarningMessage s)
        ∧ consume_value_impl (plainEnv x64) (k + 9) s (cstr "1") = Outcome.ok (1, [0]) s
        ∧ consume_value_impl (plainEnv x64) (k + 9) s (cstr "(5)--")
          = Outcome.ok (5, [0]) (PostIncDecWarningMessage s)
        ∧ consume_value_impl (plainEnv x64) (k + 9) s (cstr "(5)") = Outcome.ok (5, [0]) s
        ∧ consume_value_impl (plainEnv x64) (k + 9) s (cstr "-5++")
          = Outcome.ok (wordMod x64 - 5, [0]) (PostIncDecWarningMessage s)
        ∧ consume_value_impl (plainEnv x64) (k + 9) s (cstr "-5")
          = Outcome.ok (wordMod x64 - 5, [0]) s
        ∧ consume_value_impl (regsEnv x64) (k + 9) s (cstr "eax++")
          = Outcome.ok (0, [0]) (PostIncDecWarningMessage s)
        ∧ consume_value_impl (regsEnv x64) (k + 9) s (cstr "[8]--")
          = Outcome.ok (0, [0])
              (PostIncDecWarningMessage (s.record (Event.load 8 (PVT_DEFAULT x64))))
        ∧ consume_value_impl (plainEnv x64) (k + 9) s (cstr "1+-")
          = Outcome.ok (1, cstr "+-") s
        ∧ consume_value_impl (plainEnv x64) (k + 9) s (cstr "1 ++")
          = Outcome.ok (1, cstr " ++") s) := by
  refine ⟨PostfixCheck_consumes s out c R hc, messages_PostIncDecWarningMessage s,
    consume_literal_then_incdec env fuel s t R v c hc hl, consume_literal env fuel s t R0 v hl0 hp,
    ?_, ?_⟩
  · have e := consume_paren env fuel s s1 X (ch ')' :: c :: c :: R) w h0 h9 hX
    rw [show ch '(' = 40 from rfl, e]
    exact PostfixCheck_consumes s1 w c R hc
  · intro x64 k s
    cases x64 <;> exact ⟨rfl, rfl, rfl, rfl, rfl, rfl, rfl, rfl, rfl, rfl, rfl⟩

/-- C33, at the failing inputs "(U8)5++" and "*0++".  The label
`PostfixCheck` consumes a `++` or `--` at the cursor and keeps the value,
and after a literal or a parenthesised sub-expression the cursor ends 2
past the operand ("1++", "(5)++").  After a cast it does not: the postfix
of "(U8)5++" is consumed inside the cast, and the cursor returned is one
further, past the terminating NUL, so "(U8)5+++1" evaluates to 5 with the
cursor on the `1` where "(5)+++1" evaluates to 6.  After a dereference of
the address 0 it does not either: for "*0++" the cursor returned is on the
`*` at the start of the operand, and for `[0]++` with a register bank the
`++` is not consumed at all and no postfix warning is given. -/
theorem C33_postfix_after_cast_and_null_dereference (x64 : Bool) (k : Nat) (s : State) :
    (∀ (out : Nat) (R : List Nat),
      PostfixCheck s out (ch '+' :: ch '+' :: R)
        = Outcome.ok (out, R) (PostIncDecWarningMessage s)
      ∧ PostfixCheck s out (ch '-' :: ch '-' :: R)
        = Outcome.ok (out, R) (PostIncDecWarningMessage s))
    ∧ consume_value_impl (plainEnv x64) (k + 9) s (cstr "1++")
      = Outcome.ok (1, [0]) (PostIncDecWarningMessage s)
    ∧ consume_value_impl (plainEnv x64) (k + 9) s (cstr "(5)++")
      = Outcome.ok (5, [0]) (PostIncDecWarningMessage s)
    ∧ consume_value_impl (plainEnv x64) (k + 9) s (cstr "(U8)5++")
      = Outcome.ok (5, []) (PostIncDecWarningMessage s)
    ∧ consume_value_impl (plainEnv x64) (k + 9) s (cstr "(U8)5--")
      = Outcome.ok (5, []) (PostIncDecWarningMessage s)
    ∧ eval_expr (plainEnv x64) (k + 20) s (cstr "(5)+++1") 0
      = Outcome.ok (some [0], 6) (PostIncDecWarningMessage s)
    ∧ eval_expr (plainEnv x64) (k + 20) s (cstr "(U8)5+++1") 0
      = Outcome.ok (some (cstr "1"), 5) (PostIncDecWarningMessage s)
    ∧ consume_value_impl (plainEnv x64) (k + 9) s (cstr "*0++")
      = Outcome.ok (0, cstr "*0++") ((PostIncDecWarningMessage s).emit Msg.NullDerefWarning)
    ∧ consume_value_impl (regsEnv x64) (k + 9) s (cstr "[0]++")
      = Outcome.ok (0, cstr "[0]++") (s.emit Msg.NullDerefWarning) := by
  refine ⟨?_, ?_⟩
  · intro out R
    exact ⟨PostfixCheck_consumes s out _ R (Or.inl rfl),
      PostfixCheck_consumes s out _ R (Or.inr rfl)⟩
  · cases x64 <;> exact ⟨rfl, rfl, rfl, rfl, rfl, rfl, rfl, rfl⟩

end Thcrap
